import Mathlib

/-!
Tenant controller of SAP/cloud-robotics

A shallow embedding of `src/go/pkg/controller/tenant/controller.go` and of the
helpers of `src/go/pkg/coretools` it calls, followed by theorems about the
reconcile pass.

Conventions of the embedding

* Go strings are modelled by Lean strings; `len` is the byte length.
* A Go `map[string]string` is an association list under `Option`; `none` is the
  nil map (reads yield the zero value, writes panic).
* An `error` is a value of `GoError`; `nil` is `Option.none`.
* The object store behind `r.client`, the clock behind `meta.Now()` and the
  random source of `coretools.RandomString` are external: they are the fields
  of an `Env σ` over an arbitrary state type `σ`. Every theorem that quantifies
  over `Env σ` holds for each behaviour of the store, failures included.
* Functions that mutate `t *config.Tenant` in place return the new tenant.
* Every request to the store and every log line is appended to a trace, so
  that "issues a request", "runs a step" and "observes" are statements about
  this trace.
-/

namespace CloudRobotics

/-! ## Go strings and maps -/

/-- Go `len(s)` on a string: the number of bytes. -/
def len (s : String) : Nat := s.utf8ByteSize

/-- Go `strings.HasPrefix`. -/
def HasPrefix (s pre : String) : Bool := pre.data.isPrefixOf s.data

/-- Go `strings.Contains`. -/
def Contains (s substr : String) : Bool :=
  s.data.tails.any (fun t => substr.data.isPrefixOf t)

/-- Escaping done by the `%q` verb, for the two characters that occur in
object names and states in practice (the quote and the backslash). -/
def quoteChars : List Char → List Char
  | [] => []
  | c :: cs =>
    if c = '"' ∨ c = '\\' then '\\' :: c :: quoteChars cs else c :: quoteChars cs

/-- Go `fmt.Sprintf("%q", s)`. -/
def quote (s : String) : String := "\"" ++ String.mk (quoteChars s.data) ++ "\""

/-- A Go `map[string]string`; `none` is the nil map. -/
abbrev GoMap := Option (List (String × String))

/-- Reading `m[k]`: the zero value when the key is absent or the map is nil. -/
def GoMap.read (m : GoMap) (k : String) : String :=
  match m with
  | none => ""
  | some kvs => ((kvs.find? (fun kv => kv.1 == k)).map Prod.snd).getD ""

/-- Writing `m[k] = v` into a non-nil map. -/
def mapSet : List (String × String) → String → String → List (String × String)
  | [], k, v => [(k, v)]
  | kv :: kvs, k, v => if kv.1 = k then (k, v) :: kvs else kv :: mapSet kvs k v

/-! ## Errors -/

/-- An error returned by the object store. `notFound` is what
`k8serrors.IsNotFound` reports for it. -/
structure ApiError where
  notFound : Bool
  msg : String
deriving DecidableEq, Repr

/-- Go error values that occur in the controller. -/
inductive GoError where
  /-- an error of the object store, returned unchanged -/
  | api (e : ApiError)
  /-- Go `errors.Wrap(cause, msg)` and `errors.Wrapf` -/
  | wrap (cause : GoError) (msg : String)
  /-- Go `errors.New`, `errors.Errorf` and `fmt.Errorf` -/
  | new (msg : String)
  /-- Go `*coretools.NamespaceDeletionError` -/
  | namespaceDeletion (msg : String)
  /-- Go `*coretools.MissingServiceAccountError` -/
  | missingServiceAccount (msg : String)
deriving DecidableEq, Repr

/-- The `Error()` method. -/
def GoError.Error : GoError → String
  | .api e => e.msg
  | .wrap cause msg => msg ++ ": " ++ cause.Error
  | .new msg => msg
  | .namespaceDeletion msg => msg
  | .missingServiceAccount msg => msg

/-- The type assertion `err.(*coretools.NamespaceDeletionError)`. -/
def GoError.isNamespaceDeletionError : GoError → Bool
  | .namespaceDeletion _ => true
  | _ => false

/-- The type assertion `err.(*coretools.MissingServiceAccountError)`. -/
def GoError.isMissingServiceAccountError : GoError → Bool
  | .missingServiceAccount _ => true
  | _ => false

/-- Go `k8serrors.IsNotFound(err)` on the outcome of a store request. -/
def IsNotFound {α : Type} : Except ApiError α → Bool
  | .error e => e.notFound
  | .ok _ => false

/-! ## coretools constants and namespace names -/

def ImagePullSecret : String := "cloud-robotics-images"
def RobotSetupConfigmap : String := "robot-setup"
def RobotConfigCloudNamespace : String := "robot-config"
def RobotServiceAccount : String := "robot-service"
def RobotSetupServiceAccount : String := "robot-service-setup"
def TenantPrefix : String := "t-"
def DefaultTenantName : String := "default"

/-- Go `coretools.RobotConfigNamespace`. -/
def RobotConfigNamespace (tenantMainNamespace : String) : String :=
  if tenantMainNamespace = "default" then RobotConfigCloudNamespace
  else tenantMainNamespace ++ "-" ++ RobotConfigCloudNamespace

/-- Go `coretools.TenantMainNamespace`. -/
def TenantMainNamespace (tenantName : String) : String :=
  if tenantName = DefaultTenantName then "default"
  else TenantPrefix ++ tenantName

/-! ## Controller constants -/

def finalizer : String := "tenant-controller.config.cloud-robotics.com"
def crSyncerRolebinding : String := "cloud-robotics:cr-syncer:robot-service"
def robotSetupRoleBinding : String := "cloud-robotics:robot-setup-service"
def dnsEntryName : String := "tenant-domain"
def istioLBServiceName : String := "istio-ingressgateway"
def istioLBServiceNamespace : String := "istio-system"
def gatewayName : String := "tenant-gateway"
def tenantLabel : String := "cloud-robotics-tenant"

/-- A `time.Duration`, in nanoseconds. -/
abbrev Duration := Nat

def Second : Duration := 1000000000
def Minute : Duration := 60 * Second

/-- Requeue interval when the underlying Tenant is not in a stable state yet. -/
def requeueFast : Duration := 3 * Second
/-- Requeue interval after the underlying Tenant reached a stable state. -/
def requeueSlow : Duration := 3 * Minute

/-! ## API objects -/

/-- A `meta.Time`, as a number of clock ticks. -/
abbrev Time := Nat

structure OwnerReference where
  Kind : String
  Name : String
  Controller : Bool
deriving DecidableEq, Repr

/-- The fields of `meta.ObjectMeta` the controller reads or writes. -/
structure ObjectMeta where
  Name : String := ""
  Namespace : String := ""
  DeletionTimestamp : Option Time := none
  Labels : GoMap := none
  Annotations : GoMap := none
  OwnerReferences : List OwnerReference := []
  Finalizers : List String := []
deriving DecidableEq, Repr

abbrev TenantConditionType := String

def TenantConditionNamespace : TenantConditionType := "Namespace"
def TenantConditionDomain : TenantConditionType := "Domain"
def TenantConditionCertificate : TenantConditionType := "Certificate"
def TenantConditionGateway : TenantConditionType := "Gateway"
def TenantConditionServiceAccount : TenantConditionType := "ServiceAccount"
def TenantConditionPermissions : TenantConditionType := "Permissions"
def TenantConditionPullSecret : TenantConditionType := "PullSecret"
def TenantConditionRobotSetup : TenantConditionType := "RobotSetupConfig"

abbrev ConditionStatus := String

def ConditionTrue : ConditionStatus := "True"
def ConditionFalse : ConditionStatus := "False"

structure TenantCondition where
  Type_ : TenantConditionType
  Status : ConditionStatus
  LastUpdateTime : Time
  LastTransitionTime : Time
  Message : String
deriving DecidableEq, Repr

structure TenantSpec where
  TenantDomain : String := ""
deriving DecidableEq, Repr

structure TenantStatus where
  Robots : Int := 0
  RobotClusters : Int := 0
  Gateway : String := ""
  TenantDomain : String := ""
  TenantNamespaces : List String := []
  Conditions : List TenantCondition := []
deriving DecidableEq, Repr

structure Tenant extends ObjectMeta where
  Spec : TenantSpec := {}
  Status : TenantStatus := {}
deriving DecidableEq, Repr

structure Namespace extends ObjectMeta
deriving DecidableEq, Repr

structure LocalObjectReference where
  Name : String
deriving DecidableEq, Repr

structure ServiceAccount extends ObjectMeta where
  ImagePullSecrets : List LocalObjectReference := []
deriving DecidableEq, Repr

structure RoleRef where
  APIGroup : String := ""
  Kind : String := ""
  Name : String := ""
deriving DecidableEq, Repr

structure Subject where
  Kind : String := ""
  Namespace : String := ""
  Name : String := ""
deriving DecidableEq, Repr

structure RoleBinding extends ObjectMeta where
  RoleRef : RoleRef := {}
  Subjects : List Subject := []
deriving DecidableEq, Repr

/-- A `core.Secret`; the byte values of `Data` are kept as strings. -/
structure Secret extends ObjectMeta where
  Data : GoMap := none
  Type_ : String := ""
deriving DecidableEq, Repr

structure ConfigMap extends ObjectMeta where
  Data : GoMap := none
deriving DecidableEq, Repr

structure DNSEntrySpec where
  DNSName : String := ""
  TTL : Option Int := none
  Targets : List String := []
deriving DecidableEq, Repr

structure DNSEntryStatus where
  State : String := ""
deriving DecidableEq, Repr

structure DNSEntry extends ObjectMeta where
  Spec : DNSEntrySpec := {}
  Status : DNSEntryStatus := {}
deriving DecidableEq, Repr

structure LoadBalancerIngress where
  IP : String := ""
  Hostname : String := ""
deriving DecidableEq, Repr

/-- A `core.Service`; `Ingress` is `Status.LoadBalancer.Ingress`. -/
structure Service extends ObjectMeta where
  Ingress : List LoadBalancerIngress := []
deriving DecidableEq, Repr

structure CertificateSpec where
  CommonName : Option String := none
  SecretName : Option String := none
deriving DecidableEq, Repr

structure CertificateStatus where
  State : String := ""
deriving DecidableEq, Repr

structure Certificate extends ObjectMeta where
  Spec : CertificateSpec := {}
  Status : CertificateStatus := {}
deriving DecidableEq, Repr

structure Port where
  Name : String := ""
  Number : Nat := 0
  Protocol : String := ""
deriving DecidableEq, Repr

structure ServerTLSSettings where
  HttpsRedirect : Bool := false
  CipherSuites : List String := []
  CredentialName : String := ""
  MinProtocolVersion : String := ""
  Mode : String := ""
deriving DecidableEq, Repr

structure Server where
  Hosts : List String := []
  Port : Port := {}
  Tls : ServerTLSSettings := {}
deriving DecidableEq, Repr

structure GatewaySpec where
  Selector : GoMap := none
  Servers : List Server := []
deriving DecidableEq, Repr

structure Gateway extends ObjectMeta where
  Spec : GatewaySpec := {}
deriving DecidableEq, Repr

structure Robot extends ObjectMeta
deriving DecidableEq, Repr

structure AppRollout extends ObjectMeta
deriving DecidableEq, Repr

structure ChartAssignment extends ObjectMeta
deriving DecidableEq, Repr

/-- The kinds of object the controller requests from the store. -/
inductive Kind where
  | Tenant | Namespace | ServiceAccount | RoleBinding | Secret | ConfigMap
  | DNSEntry | Service | Certificate | Gateway | Robot | AppRollout
  | ChartAssignment
deriving DecidableEq, Repr

/-- The Go type of the objects of a kind. -/
@[reducible] def Obj : Kind → Type
  | .Tenant => Tenant
  | .Namespace => Namespace
  | .ServiceAccount => ServiceAccount
  | .RoleBinding => RoleBinding
  | .Secret => Secret
  | .ConfigMap => ConfigMap
  | .DNSEntry => DNSEntry
  | .Service => Service
  | .Certificate => Certificate
  | .Gateway => Gateway
  | .Robot => Robot
  | .AppRollout => AppRollout
  | .ChartAssignment => ChartAssignment

/-- The metadata of an object of any kind. -/
def metaOf : (k : Kind) → Obj k → ObjectMeta
  | .Tenant, o => o.toObjectMeta
  | .Namespace, o => o.toObjectMeta
  | .ServiceAccount, o => o.toObjectMeta
  | .RoleBinding, o => o.toObjectMeta
  | .Secret, o => o.toObjectMeta
  | .ConfigMap, o => o.toObjectMeta
  | .DNSEntry, o => o.toObjectMeta
  | .Service, o => o.toObjectMeta
  | .Certificate, o => o.toObjectMeta
  | .Gateway, o => o.toObjectMeta
  | .Robot, o => o.toObjectMeta
  | .AppRollout, o => o.toObjectMeta
  | .ChartAssignment, o => o.toObjectMeta

/-! ## Pure helpers of controller.go -/

/-- Go `containsString`. -/
def containsString : List String → String → Bool
  | [], _ => false
  | x :: s, e => if x = e then true else containsString s e

/-- Go `stringsDelete`. -/
def stringsDelete : List String → String → List String
  | [], _ => []
  | x :: list, s => if x ≠ s then x :: stringsDelete list s else stringsDelete list s

/-- Go `inCondition`: the Tenant has a condition of the given type in state
true. -/
def inCondition (t : Tenant) (tc : TenantConditionType) : Bool :=
  t.Status.Conditions.any (fun cond => cond.Type_ = tc ∧ cond.Status = ConditionTrue)

/-- The body of the loop of `setCondition` for the entry of type `tc`: the
update of an existing condition. -/
def updateCondition (now : Time) (c : TenantCondition) (v : ConditionStatus)
    (msg : String) : TenantCondition :=
  let c1 := if c.Status ≠ v ∨ c.Message ≠ msg then { c with LastUpdateTime := now } else c
  let c2 := if c.Status ≠ v then { c1 with LastTransitionTime := now } else c1
  { c2 with Message := msg, Status := v }

/-- The loop of `setCondition` over `t.Status.Conditions`: the first entry of
type `tc` is updated in place; when there is none, a new entry is appended. -/
def setConditionIn (now : Time) (tc : TenantConditionType) (v : ConditionStatus)
    (msg : String) : List TenantCondition → List TenantCondition
  | [] => [{ Type_ := tc, LastUpdateTime := now, LastTransitionTime := now,
             Status := v, Message := msg }]
  | c :: cs =>
    if c.Type_ ≠ tc then c :: setConditionIn now tc v msg cs
    else updateCondition now c v msg :: cs

/-- Go `setCondition`; `now` is the value of `meta.Now()`. -/
def setCondition (now : Time) (t : Tenant) (tc : TenantConditionType)
    (v : ConditionStatus) (msg : String) : Tenant :=
  { t with Status := { t.Status with
      Conditions := setConditionIn now tc v msg t.Status.Conditions } }

/-- Go `setLabel`. -/
def setLabel (o : ObjectMeta) (k v : String) : ObjectMeta :=
  { o with Labels := some (mapSet (o.Labels.getD []) k v) }

/-- Go `setAnnotation`. -/
def setAnnotation (o : ObjectMeta) (k v : String) : ObjectMeta :=
  { o with Annotations := some (mapSet (o.Annotations.getD []) k v) }

/-- The owner reference `controllerutil.SetControllerReference` writes for a
tenant. -/
def controllerRef (owner : Tenant) : OwnerReference :=
  { Kind := "Tenant", Name := owner.Name, Controller := true }

/-- Insert or replace the reference to the same owner. -/
def upsertOwnerRef (ref : OwnerReference) : List OwnerReference → List OwnerReference
  | [] => [ref]
  | x :: xs =>
    if x.Kind = ref.Kind ∧ x.Name = ref.Name then ref :: xs
    else x :: upsertOwnerRef ref xs

/-- The library function `controllerutil.SetControllerReference(t, obj, scheme)`
of controller-runtime, whose error every caller in controller.go drops: an
object controlled by another owner is left as it is, otherwise the reference
to the tenant is upserted. -/
def SetControllerReference (owner : Tenant) (o : ObjectMeta) : ObjectMeta :=
  let ref := controllerRef owner
  match o.OwnerReferences.find? (fun x => x.Controller) with
  | some x =>
    if x.Kind = ref.Kind ∧ x.Name = ref.Name then
      { o with OwnerReferences := upsertOwnerRef ref o.OwnerReferences }
    else o
  | none => { o with OwnerReferences := upsertOwnerRef ref o.OwnerReferences }

/-! ## The environment: object store, clock, random source -/

/-- What the controller consumes from outside: the typed client of the object
store (`r.client`), the clock (`meta.Now`) and the random source
(`src.Int63`). Each store request returns its outcome and the next state of the
environment. On success `get`, `create` and `update` return the object as the
store answers it. -/
structure Env (σ : Type) where
  get : (k : Kind) → (namespace_ name : String) → σ → Except ApiError (Obj k) × σ
  list : (k : Kind) → (inNamespace : Option String) → σ →
    Except ApiError (List (Obj k)) × σ
  create : (k : Kind) → Obj k → σ → Except ApiError (Obj k) × σ
  update : (k : Kind) → Obj k → σ → Except ApiError (Obj k) × σ
  deleteAllOf : (k : Kind) → (inNamespace : String) → σ → Option ApiError × σ
  statusUpdate : Tenant → σ → Except ApiError Tenant × σ
  now : σ → Time
  int63 : σ → Nat × σ

/-- The Go struct `Reconciler` without its client and scheme. -/
structure Reconciler where
  domain : String := ""
  defaultGateway : String := ""
  tenantSpecificGateways : Bool := false
deriving DecidableEq, Repr

/-- Go `reconcile.Result`. -/
structure Result where
  Requeue : Bool := false
  RequeueAfter : Duration := 0
deriving DecidableEq, Repr

/-! ## Traces -/

/-- One interaction of the controller with the outside: a request to the store
together with its outcome, or a line written to the log. -/
inductive IOEvent where
  | Get (k : Kind) (namespace_ name : String) (res : Except ApiError (Obj k))
  | List (k : Kind) (inNamespace : Option String) (res : Except ApiError (List (Obj k)))
  | Create (k : Kind) (o : Obj k) (res : Except ApiError (Obj k))
  | Update (k : Kind) (o : Obj k) (res : Except ApiError (Obj k))
  | DeleteAllOf (k : Kind) (inNamespace : String) (res : Option ApiError)
  | StatusUpdate (t : Tenant) (res : Except ApiError Tenant)
  | Log (msg : String)
  | Stdout (msg : String)

/-- The functions `Reconcile` calls on the tenant. -/
inductive Step where
  | ensureDeleted | ensureNamespace | collectTenantNamespaces | collectRobots
  | ensureServiceAccount | ensurePermissions | ensureRobotSetupConfig
  | ensurePullSecret | ensureDNS | ensureCertificate | ensureGateway
  | updateTenantStatus
deriving DecidableEq, Repr

/-- The trace of a reconcile pass: the interactions, and around each call of
a step function a marker of the call with the tenant it is called on
(`enter`) and of its return with the error it returned (`leave`). The markers
are observations only; nothing the controller computes depends on them. -/
inductive Event where
  | io (ev : IOEvent)
  | enter (s : Step) (t : Tenant)
  | leave (s : Step) (err : Option GoError)

/-! ## Sequential code with state, panics and non-termination -/

/-- How a piece of Go code ends: it returns a value, it panics, or it does
not return (a loop that exhausts its fuel). -/
inductive Res (α : Type) where
  | ok (a : α)
  | panic (msg : String)
  | diverge
deriving DecidableEq

/-- Code running over a state `S`. -/
def St (S α : Type) : Type := S → Res α × S

/-- Sequencing: the second part runs only if the first one returns. -/
def St.bind {S α β : Type} (m : St S α) (f : α → St S β) : St S β := fun s =>
  match m s with
  | (.ok a, s1) => f a s1
  | (.panic msg, s1) => (.panic msg, s1)
  | (.diverge, s1) => (.diverge, s1)

instance {S : Type} : Monad (St S) where
  pure a := fun s => (.ok a, s)
  bind := St.bind

/-- State of a step function: the environment and the interactions so far. -/
structure IOWorld (σ : Type) where
  api : σ
  trace : List IOEvent

/-- State of `Reconcile`: the environment and the trace so far. -/
structure World (σ : Type) where
  api : σ
  trace : List Event

/-- Code of the step functions. -/
abbrev M (σ : Type) := St (IOWorld σ)

/-- Code of `Reconcile`. -/
abbrev R (σ : Type) := St (World σ)

variable {σ : Type}

/-- A run-time panic. -/
def goPanic {S α : Type} (msg : String) : St S α := fun s => (.panic msg, s)

/-- A loop that does not terminate. -/
def goDiverge {S α : Type} : St S α := fun s => (.diverge, s)

/-- Record an interaction. -/
def record (ev : IOEvent) : M σ Unit := fun w =>
  (.ok (), { w with trace := w.trace ++ [ev] })

/-- Go `r.client.Get(ctx, key, &obj)`. -/
def clientGet (e : Env σ) (k : Kind) (namespace_ name : String) :
    M σ (Except ApiError (Obj k)) := fun w =>
  let out := e.get k namespace_ name w.api
  (.ok out.1, { api := out.2, trace := w.trace ++ [.Get k namespace_ name out.1] })

/-- Go `r.client.List(ctx, &list, opts...)`. -/
def clientList (e : Env σ) (k : Kind) (inNamespace : Option String) :
    M σ (Except ApiError (List (Obj k))) := fun w =>
  let out := e.list k inNamespace w.api
  (.ok out.1, { api := out.2, trace := w.trace ++ [.List k inNamespace out.1] })

/-- Go `r.client.Create(ctx, &obj)`. -/
def clientCreate (e : Env σ) (k : Kind) (o : Obj k) :
    M σ (Except ApiError (Obj k)) := fun w =>
  let out := e.create k o w.api
  (.ok out.1, { api := out.2, trace := w.trace ++ [.Create k o out.1] })

/-- Go `r.client.Update(ctx, &obj)`. -/
def clientUpdate (e : Env σ) (k : Kind) (o : Obj k) :
    M σ (Except ApiError (Obj k)) := fun w =>
  let out := e.update k o w.api
  (.ok out.1, { api := out.2, trace := w.trace ++ [.Update k o out.1] })

/-- Go `r.client.DeleteAllOf(ctx, &obj, client.InNamespace(ns))`. -/
def clientDeleteAllOf (e : Env σ) (k : Kind) (inNamespace : String) :
    M σ (Option ApiError) := fun w =>
  let out := e.deleteAllOf k inNamespace w.api
  (.ok out.1, { api := out.2, trace := w.trace ++ [.DeleteAllOf k inNamespace out.1] })

/-- Go `r.client.Status().Update(ctx, t)`. -/
def clientStatusUpdate (e : Env σ) (t : Tenant) : M σ (Except ApiError Tenant) := fun w =>
  let out := e.statusUpdate t w.api
  (.ok out.1, { api := out.2, trace := w.trace ++ [.StatusUpdate t out.1] })

/-- Go `log.Printf`, given the formatted line. -/
def logPrintf (msg : String) : M σ Unit := record (.Log msg)

/-- Go `fmt.Printf`, given the formatted line. -/
def fmtPrintf (msg : String) : M σ Unit := record (.Stdout msg)

/-- Go `setCondition(t, tc, v, msg)`, reading the clock. -/
def setConditionM (e : Env σ) (t : Tenant) (tc : TenantConditionType)
    (v : ConditionStatus) (msg : String) : M σ Tenant := fun w =>
  (.ok (setCondition (e.now w.api) t tc v msg), w)

/-- Go `src.Int63()`. -/
def srcInt63 (e : Env σ) : M σ Nat := fun w =>
  let out := e.int63 w.api
  (.ok out.1, { w with api := out.2 })

/-- The test `err != nil && !k8serrors.IsNotFound(err)` on the outcome of a request. -/
def otherError {α : Type} : Except ApiError α → Option ApiError
  | .error err => if err.notFound then none else some err
  | .ok _ => none

/-- The object variable after `Get`, `Create` or `Update`: as the store
answered on success, as it was before the request on error. -/
def after {α : Type} (res : Except ApiError α) (o : α) : α :=
  match res with
  | .ok o1 => o1
  | .error _ => o

/-- Run code of a step function inside `Reconcile`. -/
def lift {α : Type} (m : M σ α) : R σ α := fun w =>
  let out := m { api := w.api, trace := [] }
  (out.1, { api := out.2.api, trace := w.trace ++ out.2.trace.map Event.io })

/-- Put a marker on the trace. -/
def mark (ev : Event) : R σ Unit := fun w =>
  (.ok (), { w with trace := w.trace ++ [ev] })

/-- Call a step function from `Reconcile` on the tenant `t`: `errOf` selects
the error among the values it returns. -/
def step {α : Type} (s : Step) (t : Tenant) (errOf : α → Option GoError) (m : M σ α) :
    R σ α := do
  mark (.enter s t)
  let a ← lift m
  mark (.leave s (errOf a))
  pure a

/-! ## coretools.RandomString -/

def letterBytes : String := "abcdefghijklmnopqrstuvwxyz"
/-- Five bits to represent a letter index for 26 letters. -/
def letterIdxBits : Nat := 5
/-- All 1-bits, as many as letterIdxBits. -/
def letterIdxMask : Nat := 2 ^ letterIdxBits - 1
/-- Number of letter indices fitting in 63 bits. -/
def letterIdxMax : Nat := 63 / letterIdxBits

/-- The loop of `RandomString`; `sb` is the content of the string builder.
Each iteration uses one unit of `fuel`; the loop diverges when none is left
while `i >= 0`. -/
def randomStringLoop (e : Env σ) : (fuel : Nat) → (i : Int) → (cache remain : Nat) →
    (sb : List Char) → M σ String
  | 0, i, _, _, sb => if i ≥ 0 then goDiverge else pure (String.mk sb)
  | fuel + 1, i, cache, remain, sb =>
    if i ≥ 0 then do
      let cr ← (if remain = 0 then do
          let c ← srcInt63 e
          pure (c, letterIdxMax)
        else pure (cache, remain) : M σ (Nat × Nat))
      let idx := cr.1 &&& letterIdxMask
      let wrote := decide (idx < len letterBytes)
      let sb1 := if wrote then sb ++ [letterBytes.data.getD idx 'a'] else sb
      let i1 := if wrote then i - 1 else i
      randomStringLoop e fuel i1 (cr.1 >>> letterIdxBits) (cr.2 - 1) sb1
    else pure (String.mk sb)

/-- Go `coretools.RandomString(n)`. `sb.Grow(n)` panics on a negative `n`. -/
def RandomString (fuel : Nat) (e : Env σ) (n : Int) : M σ String := do
  if n < 0 then goPanic "strings.Builder.Grow: negative count"
  else do
    let cache ← srcInt63 e
    randomStringLoop e fuel (n - 1) cache letterIdxMax []

/-! ## Methods of the Reconciler -/

/-- Go `getCertificateName`. -/
def getCertificateName (t : Tenant) : String := "t-" ++ t.Name ++ "-tls"

/-- Go `getDefaultTenantDomain`. -/
def getDefaultTenantDomain (r : Reconciler) (t : Tenant) : String :=
  if t.Spec.TenantDomain = "" then t.Name ++ ".t." ++ r.domain
  else t.Spec.TenantDomain

/-- Go `generateTenantDomain`; the pair `(*string, error)` is an `Except`. -/
def generateTenantDomain (fuel : Nat) (e : Env σ) (r : Reconciler) :
    M σ (Except GoError String) := do
  let tenantSubdomain := ".t." ++ r.domain
  let tenantSubdomainLength := len tenantSubdomain
  if tenantSubdomainLength > 61 then
    return .error (.new ("Cannot generate domain name. Tenant subdomain "
      ++ quote tenantSubdomain ++ " is longer than 61 characeters"))
  let rs ← RandomString fuel e ((62 : Int) - tenantSubdomainLength)
  return .ok (rs ++ tenantSubdomain)

/-- Go `updateTenantStatus`. -/
def updateTenantStatus (e : Env σ) (t : Tenant) : M σ (Tenant × Option GoError) := do
  let res ← clientStatusUpdate e t
  match res with
  | .error err =>
    logPrintf ("Update of tenant status " ++ t.Name ++ " failed: " ++ err.msg)
    return (t, some (.api err))
  | .ok t1 => return (t1, none)

/-- The loop of `ensureNamespace` over the tenant namespaces, followed by the
code after the loop. A `meta.Time` is printed as its number of ticks. -/
def ensureNamespaceLoop (e : Env σ) : List String → Tenant → M σ (Tenant × Option GoError)
  | [], t => do
    let t ← setConditionM e t TenantConditionNamespace ConditionTrue "Tenant namespaces created"
    return (t, none)
  | namespace_ :: rest, t => do
    -- Create tenant namespace if it doesn't exist.
    let ns : Namespace := { Name := namespace_ }
    let res ← clientGet e .Namespace ns.Namespace ns.Name
    let ns := after res ns
    if let some err := otherError res then
      let t ← setConditionM e t TenantConditionNamespace ConditionFalse
        ("Getting namespace " ++ ns.Name ++ " failed: " ++ err.msg)
      return (t, some (.new ("getting Namespace " ++ quote namespace_ ++ " failed: " ++ err.msg)))
    if let some ts := ns.DeletionTimestamp then
      let t ← setConditionM e t TenantConditionNamespace ConditionFalse
        ("Namespace " ++ ns.Name ++ " in deletion")
      return (t, some (.namespaceDeletion ("namespace " ++ quote namespace_
        ++ " was marked for deletion at " ++ toString ts ++ ", skipping")))
    let createNamespace := IsNotFound res
    let t := { t with toObjectMeta := setLabel t.toObjectMeta tenantLabel t.Name }
    let ns := { ns with toObjectMeta := SetControllerReference t ns.toObjectMeta }
    let res ← (if createNamespace then do
        logPrintf ("Creating namespace " ++ namespace_ ++ " for tenant " ++ t.Name)
        clientCreate e .Namespace ns
      else clientUpdate e .Namespace ns : M σ (Except ApiError Namespace))
    match res with
    | .error err =>
      let t ← setConditionM e t TenantConditionNamespace ConditionFalse
        ("Updating namespace " ++ ns.Name ++ " failed: " ++ err.msg)
      return (t, some (.api err))
    | .ok _ => ensureNamespaceLoop e rest t

/-- Go `ensureNamespace`. -/
def ensureNamespace (e : Env σ) (t : Tenant) : M σ (Tenant × Option GoError) := do
  if t.Name = DefaultTenantName then
    let t ← setConditionM e t TenantConditionNamespace ConditionTrue
      "Default tenant uses default namespace"
    return (t, none)
  let mainNamespace := TenantMainNamespace t.Name
  let robotConfigNamespace := RobotConfigNamespace mainNamespace
  let tenantNamespaces := [mainNamespace, robotConfigNamespace]
  ensureNamespaceLoop e tenantNamespaces t

/-- The loop of `ensureServiceAccount` over the service accounts, followed by
the code after the loop. -/
def ensureServiceAccountLoop (e : Env σ) (namespace_ : String) :
    List String → Tenant → M σ (Tenant × Option GoError)
  | [], t => do
    let t ← setConditionM e t TenantConditionServiceAccount ConditionTrue
      "Tenant service accounts created"
    return (t, none)
  | serviceAccount :: rest, t => do
    let sa : ServiceAccount := { Namespace := namespace_, Name := serviceAccount }
    let res ← clientGet e .ServiceAccount sa.Namespace sa.Name
    let sa := after res sa
    if let some err := otherError res then
      let t ← setConditionM e t TenantConditionServiceAccount ConditionFalse
        ("Get service account " ++ sa.Name ++ " failed: " ++ err.msg)
      return (t, some (.wrap (.api err) "get service account"))
    let createServiceAccount := IsNotFound res
    let sa := { sa with toObjectMeta := SetControllerReference t sa.toObjectMeta }
    let res ← (if createServiceAccount then do
        logPrintf ("Creating service account " ++ sa.Name ++ " for tenant " ++ t.Name)
        clientCreate e .ServiceAccount sa
      else clientUpdate e .ServiceAccount sa : M σ (Except ApiError ServiceAccount))
    match res with
    | .error err =>
      let t ← setConditionM e t TenantConditionServiceAccount ConditionFalse
        ("Updating service account " ++ sa.Name ++ " failed: " ++ err.msg)
      return (t, some (.api err))
    | .ok _ => ensureServiceAccountLoop e namespace_ rest t

/-- Go `ensureServiceAccount`. -/
def ensureServiceAccount (e : Env σ) (t : Tenant) : M σ (Tenant × Option GoError) :=
  let tenantServiceAccounts := [RobotServiceAccount, RobotSetupServiceAccount]
  let namespace_ := RobotConfigNamespace (TenantMainNamespace t.Name)
  ensureServiceAccountLoop e namespace_ tenantServiceAccounts t

/-- Go `types.NamespacedName`. -/
structure NamespacedName where
  Name : String
  Namespace : String
deriving DecidableEq, Repr

/-- The `String()` method of `types.NamespacedName`. -/
def NamespacedName.toStr (n : NamespacedName) : String := n.Namespace ++ "/" ++ n.Name

structure roleRefSubjects where
  roleRef : RoleRef
  subjects : List Subject
deriving DecidableEq, Repr

/-- The map `roleBindings` of `ensurePermissions`, in the order of the source.
Go ranges over a map in an unspecified order; the model takes this one. -/
def roleBindings (mainNamespace robotConfigNamespace : String) :
    List (NamespacedName × roleRefSubjects) :=
  [ -- cr-syncer RoleBinding for robot-service
    ({ Name := crSyncerRolebinding, Namespace := mainNamespace },
     { roleRef := { APIGroup := "rbac.authorization.k8s.io", Kind := "ClusterRole",
                    Name := "cloud-robotics:cr-syncer" },
       subjects := [{ Kind := "ServiceAccount", Namespace := robotConfigNamespace,
                      Name := RobotServiceAccount }] }),
    -- robot-config RoleBinding for robot-setup-service
    ({ Name := robotSetupRoleBinding, Namespace := robotConfigNamespace },
     { roleRef := { APIGroup := "rbac.authorization.k8s.io", Kind := "ClusterRole",
                    Name := "cloud-robotics:robot-setup:robot-config" },
       subjects := [{ Kind := "ServiceAccount", Namespace := robotConfigNamespace,
                      Name := RobotSetupServiceAccount }] }),
    -- robots RoleBinding for robot-setup-service
    ({ Name := robotSetupRoleBinding, Namespace := mainNamespace },
     { roleRef := { APIGroup := "rbac.authorization.k8s.io", Kind := "ClusterRole",
                    Name := "cloud-robotics:robot-setup:robots" },
       subjects := [{ Kind := "ServiceAccount", Namespace := robotConfigNamespace,
                      Name := RobotSetupServiceAccount }] }) ]

/-- The loop of `ensurePermissions` over the role bindings, followed by the
code after the loop. -/
def ensurePermissionsLoop (e : Env σ) :
    List (NamespacedName × roleRefSubjects) → Tenant → M σ (Tenant × Option GoError)
  | [], t => do
    let t ← setConditionM e t TenantConditionPermissions ConditionTrue "Tenant permissions set"
    return (t, none)
  | (namespacedName, roleRefSubjects) :: rest, t => do
    let rb : RoleBinding := { Name := namespacedName.Name, Namespace := namespacedName.Namespace }
    let res ← clientGet e .RoleBinding rb.Namespace rb.Name
    let rb := after res rb
    if let some err := otherError res then
      let t ← setConditionM e t TenantConditionPermissions ConditionFalse
        ("Get role binding failed: " ++ err.msg)
      return (t, some (.wrap (.api err) ("get role binding " ++ namespacedName.toStr)))
    let createRoleBinding := IsNotFound res
    let rb := { rb with RoleRef := roleRefSubjects.roleRef, Subjects := roleRefSubjects.subjects }
    let rb := { rb with toObjectMeta := SetControllerReference t rb.toObjectMeta }
    let res ← (if createRoleBinding then do
        logPrintf ("Creating role binding " ++ rb.Name ++ " for tenant " ++ t.Name)
        clientCreate e .RoleBinding rb
      else clientUpdate e .RoleBinding rb : M σ (Except ApiError RoleBinding))
    match res with
    | .error err =>
      let t ← setConditionM e t TenantConditionPermissions ConditionFalse
        ("Update role binding failed: " ++ err.msg)
      return (t, some (.wrap (.api err) ("create " ++ namespacedName.toStr ++ " role binding")))
    | .ok _ => ensurePermissionsLoop e rest t

/-- Go `ensurePermissions`. -/
def ensurePermissions (e : Env σ) (t : Tenant) : M σ (Tenant × Option GoError) :=
  let mainNamespace := TenantMainNamespace t.Name
  let robotConfigNamespace := RobotConfigNamespace mainNamespace
  ensurePermissionsLoop e (roleBindings mainNamespace robotConfigNamespace) t

/-- Go `meta.NamespaceDefault`. -/
def NamespaceDefault : String := "default"

/-- Lines 710 to 721 of controller.go, "only add the secret once": the new
value of `sa.ImagePullSecrets`. -/
def addImagePullSecret (secrets : List LocalObjectReference) : List LocalObjectReference :=
  let ips : LocalObjectReference := { Name := ImagePullSecret }
  let found := secrets.any (fun s => s = ips)
  if !found then secrets ++ [ips] else secrets

/-- The loop of `ensurePullSecret` over the tenant namespaces, followed by the
code after the loop. -/
def ensurePullSecretLoop (e : Env σ) (templateSecret : Secret) :
    List String → Tenant → M σ (Tenant × Option GoError)
  | [], t => do
    let t ← setConditionM e t TenantConditionPullSecret ConditionTrue "Tenant pull secret created"
    return (t, none)
  | namespace_ :: rest, t =>
    -- Do not change pull secret of default namespace
    if namespace_ = NamespaceDefault then ensurePullSecretLoop e templateSecret rest t
    else do
      let secret : Secret := { Name := ImagePullSecret, Namespace := namespace_ }
      let res ← clientGet e .Secret secret.Namespace secret.Name
      let secret := after res secret
      if let some err := otherError res then
        let t ← setConditionM e t TenantConditionPullSecret ConditionFalse
          ("Get secret " ++ secret.Namespace ++ "/" ++ secret.Name ++ " failed: " ++ err.msg)
        return (t, some (.wrap (.api err) ("get secret " ++ secret.Name)))
      let createSecret := IsNotFound res
      let secret := { secret with toObjectMeta := SetControllerReference t secret.toObjectMeta }
      let secret := { secret with Data := templateSecret.Data, Type_ := templateSecret.Type_ }
      let res ← (if createSecret then do
          logPrintf ("Creating docker pull secret " ++ secret.Namespace ++ "/" ++ secret.Name
            ++ " for tenant " ++ t.Name)
          clientCreate e .Secret secret
        else clientUpdate e .Secret secret : M σ (Except ApiError Secret))
      let secret := after res secret
      if let .error err := res then
        let t ← setConditionM e t TenantConditionPullSecret ConditionFalse
          ("Update secret " ++ secret.Name ++ "/" ++ secret.Namespace ++ " failed: " ++ err.msg)
        return (t, some (.new ("update Secret \"" ++ namespace_ ++ ":" ++ ImagePullSecret
          ++ "\" failed: " ++ err.msg)))
      -- Configure the default service account in the namespace.
      let res ← clientGet e .ServiceAccount namespace_ "default"
      match res with
      | .error err =>
        if err.notFound then
          -- The Service Account Controller hasn't created the default SA yet.
          let t ← setConditionM e t TenantConditionPullSecret ConditionFalse
            "Missing default service account"
          return (t, some (.missingServiceAccount ("ServiceAccount \"" ++ namespace_
            ++ ":default\" not yet created")))
        else
          let t ← setConditionM e t TenantConditionPullSecret ConditionFalse
            ("Get ServiceAccount \"" ++ namespace_ ++ ":default\" failed: " ++ err.msg)
          return (t, some (.new ("get ServiceAccount \"" ++ namespace_
            ++ ":default\" failed: " ++ err.msg)))
      | .ok sa =>
        -- Only add the secret once.
        let sa := { sa with ImagePullSecrets := addImagePullSecret sa.ImagePullSecrets }
        let res ← clientUpdate e .ServiceAccount sa
        match res with
        | .error err =>
          let t ← setConditionM e t TenantConditionPullSecret ConditionFalse
            ("Update ServiceAccount \"" ++ namespace_ ++ ":default\" failed: " ++ err.msg)
          return (t, some (.api err))
        | .ok _ => ensurePullSecretLoop e templateSecret rest t

/-- Go `ensurePullSecret`. -/
def ensurePullSecret (e : Env σ) (t : Tenant) : M σ (Tenant × Option GoError) := do
  -- Copy imagePullSecret from the default namespace
  let res ← clientGet e .Secret "default" ImagePullSecret
  match res with
  | .error err =>
    if err.notFound then
      let t ← setConditionM e t TenantConditionPullSecret ConditionFalse
        ("Secret \"default:" ++ ImagePullSecret ++ "\" not found")
      return (t, some (.new ("secret \"default:" ++ ImagePullSecret ++ "\" not found")))
    else
      let t ← setConditionM e t TenantConditionPullSecret ConditionFalse
        ("getting Secret \"default:" ++ ImagePullSecret ++ "\" failed: " ++ err.msg)
      return (t, some (.new ("getting Secret \"default:" ++ ImagePullSecret
        ++ "\" failed: " ++ err.msg)))
  | .ok templateSecret =>
    let mainNamespace := TenantMainNamespace t.Name
    let robotConfigNamespace := RobotConfigNamespace mainNamespace
    let namespaces := [mainNamespace, robotConfigNamespace]
    ensurePullSecretLoop e templateSecret namespaces t

/-- The loop of `ensureDNS` over the ingress points of the load balancer: the
first IP or host name that is not empty. -/
def lbTarget : List LoadBalancerIngress → String
  | [] => ""
  | i :: rest =>
    if i.IP ≠ "" then i.IP
    else if i.Hostname ≠ "" then i.Hostname
    else lbTarget rest

/-- Go `dns.STATE_READY`. -/
def STATE_READY : String := "Ready"

/-- Go `cert.StateReady`. -/
def StateReady : String := "Ready"

/-- Go `ensureDNS`. -/
def ensureDNS (fuel : Nat) (e : Env σ) (r : Reconciler) (t : Tenant) :
    M σ (Tenant × Option GoError) := do
  let mainNamespace := TenantMainNamespace t.Name
  let d : DNSEntry := { Name := dnsEntryName, Namespace := mainNamespace }
  let res ← clientGet e .DNSEntry d.Namespace d.Name
  let d := after res d
  if let some err := otherError res then
    let t ← setConditionM e t TenantConditionDomain ConditionFalse
      ("Get DNS entry failed: " ++ err.msg)
    return (t, some (.wrap (.api err) ("get DNS entry " ++ dnsEntryName)))
  let createDNSEntry := IsNotFound res
  -- Get IP adress from Istio loadbalancer service
  let iSVC : Service := { Name := istioLBServiceName, Namespace := istioLBServiceNamespace }
  let res ← clientGet e .Service iSVC.Namespace iSVC.Name
  let iSVC := after res iSVC
  if let .error err := res then
    let t ← setConditionM e t TenantConditionDomain ConditionFalse
      ("Get Istio loadbalancer service failed: " ++ err.msg)
    return (t, some (.wrap (.api err) "get Istio loadbalancer service"))
  let target := lbTarget iSVC.Ingress
  if target = "" then
    let t ← setConditionM e t TenantConditionDomain ConditionFalse
      "No hostname or IP in Istio loadbalancer service found"
    return (t, some (.new "No hostname or IP in Istio loadbalancer service found"))
  let mut tenantDomain := getDefaultTenantDomain r t
  -- Tenant domain must not be longer than 64 characters, because this is the
  -- maximum length for certificate common name; limit to 62 to allow sub
  -- domain wildcard *.
  if len tenantDomain > 62 then
    if Contains t.Status.TenantDomain (".t." ++ r.domain) then
      tenantDomain := t.Status.TenantDomain
    else
      logPrintf ("Default tenant domain *." ++ tenantDomain ++ " has more than 64 characters "
        ++ "which is maximum for commonName in TLS certificates. "
        ++ "Generating random tenant domain")
      let g ← generateTenantDomain fuel e r
      match g with
      | .error err =>
        let t ← setConditionM e t TenantConditionDomain ConditionFalse
          ("Generate tenant domain failed: " ++ err.Error)
        return (t, some (.wrap err "generate tenant domain"))
      | .ok g =>
        tenantDomain := g
        logPrintf ("Using generated tenant domain " ++ tenantDomain)
  let d := { d with Spec := { d.Spec with
    DNSName := "*." ++ tenantDomain, TTL := some 600, Targets := [target] } }
  let d := { d with toObjectMeta := setAnnotation d.toObjectMeta "dns.gardener.cloud/class" "garden" }
  let d := { d with toObjectMeta := SetControllerReference t d.toObjectMeta }
  let res ← (if createDNSEntry then do
      logPrintf ("Creating DNS entry " ++ d.Name ++ " for tenant " ++ t.Name)
      clientCreate e .DNSEntry d
    else clientUpdate e .DNSEntry d : M σ (Except ApiError DNSEntry))
  let d := after res d
  if let .error err := res then
    let t ← setConditionM e t TenantConditionDomain ConditionFalse
      ("Update DNS entry failed: " ++ err.msg)
    return (t, some (.wrap (.api err) ("update " ++ dnsEntryName ++ " DNS entry")))
  let t := { t with Status := { t.Status with TenantDomain := tenantDomain } }
  if d.Status.State = STATE_READY then
    let t ← setConditionM e t TenantConditionDomain ConditionTrue
      ("DNS entry for domain *." ++ t.Status.TenantDomain ++ " created")
    return (t, none)
  else
    let t ← setConditionM e t TenantConditionDomain ConditionFalse
      ("DNS entry for domain *." ++ t.Status.TenantDomain ++ " created, but in state "
        ++ quote d.Status.State)
    return (t, none)

/-- Go `ensureCertificate`. -/
def ensureCertificate (e : Env σ) (t : Tenant) : M σ (Tenant × Option GoError) := do
  let tenantDomain := t.Status.TenantDomain
  if tenantDomain = "" then
    let t ← setConditionM e t TenantConditionCertificate ConditionFalse "Tenant domain not set yet"
    return (t, some (.new "Not able to create TLS certificate. Tenant domain not set yet"))
  -- TLS secret has to be in the same namespace as Istio ingress controller
  let c : Certificate := { Name := getCertificateName t, Namespace := "istio-system" }
  let res ← clientGet e .Certificate c.Namespace c.Name
  let c := after res c
  if let some err := otherError res then
    let t ← setConditionM e t TenantConditionCertificate ConditionFalse
      ("Get certificate *." ++ t.Status.TenantDomain ++ " failed: " ++ err.msg)
    return (t, some (.wrap (.api err) ("get certificate " ++ getCertificateName t)))
  let createCertificate := IsNotFound res
  let c := { c with toObjectMeta := SetControllerReference t c.toObjectMeta }
  let commonName := "*." ++ tenantDomain
  let cn := getCertificateName t
  let c := { c with Spec := { c.Spec with CommonName := some commonName, SecretName := some cn } }
  let res ← (if createCertificate then do
      logPrintf ("Creating certificate " ++ c.Name ++ " for tenant " ++ t.Name)
      clientCreate e .Certificate c
    else clientUpdate e .Certificate c : M σ (Except ApiError Certificate))
  let c := after res c
  if let .error err := res then
    let t ← setConditionM e t TenantConditionCertificate ConditionFalse
      ("Update certificate *." ++ t.Status.TenantDomain ++ " failed: " ++ err.msg)
    return (t, some (.wrap (.api err) ("update " ++ getCertificateName t ++ " certificate")))
  if c.Status.State = StateReady then
    let t ← setConditionM e t TenantConditionCertificate ConditionTrue
      ("TLS Certificate for domain *." ++ t.Status.TenantDomain ++ " created")
    return (t, none)
  else
    let t ← setConditionM e t TenantConditionCertificate ConditionFalse
      ("TLS Certificate for domain *." ++ t.Status.TenantDomain ++ " created, but in state "
        ++ quote c.Status.State)
    return (t, none)

/-- The two servers `ensureGateway` writes into the gateway. -/
def gatewayServers (t : Tenant) (tenantDomain : String) : List Server :=
  [ { Hosts := ["*." ++ tenantDomain],
      Port := { Name := "https", Number := 443, Protocol := "HTTPS" },
      Tls := { CipherSuites := ["ECDHE-RSA-CHACHA20-POLY1305", "ECDHE-RSA-AES256-GCM-SHA384",
                 "ECDHE-RSA-AES256-SHA", "ECDHE-RSA-AES128-GCM-SHA256", "ECDHE-RSA-AES128-SHA"],
               CredentialName := getCertificateName t,
               MinProtocolVersion := "TLSV1_2",
               Mode := "SIMPLE" } },
    { Hosts := ["*." ++ tenantDomain],
      Port := { Name := "http", Number := 80, Protocol := "HTTP" },
      Tls := { HttpsRedirect := true } } ]

/-- Go `ensureGateway`. -/
def ensureGateway (e : Env σ) (t : Tenant) : M σ (Tenant × Option GoError) := do
  let tenantDomain := t.Status.TenantDomain
  if tenantDomain = "" then
    let t ← setConditionM e t TenantConditionGateway ConditionFalse "Tenant domain not set yet"
    return (t, some (.new "Not able to create Istio gateway. Tenant domain not set yet"))
  let mainNamespace := TenantMainNamespace t.Name
  let g : Gateway := { Name := gatewayName, Namespace := mainNamespace }
  let res ← clientGet e .Gateway g.Namespace g.Name
  let g := after res g
  if let some err := otherError res then
    let t ← setConditionM e t TenantConditionGateway ConditionFalse
      ("Get Istio gateway " ++ gatewayName ++ " failed: " ++ err.msg)
    return (t, some (.wrap (.api err) ("get Istio gateway " ++ gatewayName)))
  let createGateway := IsNotFound res
  let g := { g with toObjectMeta := SetControllerReference t g.toObjectMeta }
  let g := { g with Spec := { g.Spec with
    Selector := some [("app", "istio-ingressgateway"), ("istio", "ingressgateway")],
    Servers := gatewayServers t tenantDomain } }
  let res ← (if createGateway then do
      logPrintf ("Creating Istio gateway " ++ g.Name ++ " for tenant " ++ t.Name)
      clientCreate e .Gateway g
    else clientUpdate e .Gateway g : M σ (Except ApiError Gateway))
  let g := after res g
  if let .error err := res then
    let t ← setConditionM e t TenantConditionGateway ConditionFalse
      ("Update Istio gateway " ++ gatewayName ++ " failed: " ++ err.msg)
    return (t, some (.wrap (.api err) ("update " ++ gatewayName ++ " Istio gateway")))
  let t := { t with Status := { t.Status with Gateway := g.Namespace ++ "/" ++ g.Name } }
  let t ← setConditionM e t TenantConditionGateway ConditionTrue
    ("Istio gateway for domain *." ++ t.Status.TenantDomain ++ " created")
  return (t, none)

/-- Go `ensureRobotSetupConfig`. The statement `configMap.Data = templateConfigMap.Data`
makes `configMap.Data` the map of the template; the three assignments to its
entries that follow panic when that map is nil. -/
def ensureRobotSetupConfig (e : Env σ) (t : Tenant) : M σ (Tenant × Option GoError) := do
  let res ← clientGet e .ConfigMap RobotConfigCloudNamespace RobotSetupConfigmap
  match res with
  | .error err =>
    let t ← setConditionM e t TenantConditionRobotSetup ConditionFalse
      ("Get config map " ++ RobotConfigCloudNamespace ++ "/" ++ RobotSetupConfigmap
        ++ " failed: " ++ err.msg)
    return (t, some (.wrap (.api err)
      ("get " ++ RobotConfigCloudNamespace ++ "/" ++ RobotSetupConfigmap ++ " configmap")))
  | .ok templateConfigMap =>
    let namespace_ := RobotConfigNamespace (TenantMainNamespace t.Name)
    let configMap : ConfigMap := { Name := RobotSetupConfigmap, Namespace := namespace_ }
    let res ← clientGet e .ConfigMap configMap.Namespace configMap.Name
    let configMap := after res configMap
    if let some err := otherError res then
      let t ← setConditionM e t TenantConditionRobotSetup ConditionFalse
        ("Get config map " ++ configMap.Name ++ "/" ++ configMap.Namespace
          ++ " failed: " ++ err.msg)
      return (t, some (.wrap (.api err) ("get config map " ++ configMap.Name)))
    let createConfigMap := IsNotFound res
    let configMap := { configMap with
      toObjectMeta := SetControllerReference t configMap.toObjectMeta }
    match templateConfigMap.Data with
    | none => goPanic "assignment to entry in nil map"
    | some data =>
      let data := mapSet data "tenant" t.Name
      let data := mapSet data "tenant_domain" t.Status.TenantDomain
      let data := mapSet data "tenant_main_namespace" (TenantMainNamespace t.Name)
      let configMap := { configMap with Data := some data }
      let res ← (if createConfigMap then do
          logPrintf ("Creating config map " ++ configMap.Namespace ++ "/" ++ configMap.Name
            ++ " for tenant " ++ t.Name)
          clientCreate e .ConfigMap configMap
        else clientUpdate e .ConfigMap configMap : M σ (Except ApiError ConfigMap))
      let configMap := after res configMap
      if let .error err := res then
        let t ← setConditionM e t TenantConditionRobotSetup ConditionFalse
          ("Update config map " ++ configMap.Name ++ "/" ++ configMap.Namespace
            ++ " failed: " ++ err.msg)
        return (t, some (.new ("update ConfigMap \"" ++ namespace_ ++ ":" ++ RobotSetupConfigmap
          ++ "\" failed: " ++ err.msg)))
      let t ← setConditionM e t TenantConditionRobotSetup ConditionTrue
        "Robot-setup config synchronized"
      return (t, none)

/-- The test of `collectTenantNamespaces` for a namespace of the tenant. -/
def isTenantNamespace (appNamespace mainNamespace robotConfigNamespace name : String) : Bool :=
  HasPrefix name appNamespace || name = mainNamespace || name = robotConfigNamespace

/-- The loop of `collectTenantNamespaces` over the listed namespaces;
`tenantNamespaces` is the slice collected so far. The loop returns the slice,
or the error of a failed update. -/
def collectTenantNamespacesLoop (e : Env σ) (t : Tenant)
    (appNamespace mainNamespace robotConfigNamespace : String) :
    List Namespace → List String → M σ (Except GoError (List String))
  | [], tenantNamespaces => pure (.ok tenantNamespaces)
  | ns :: rest, tenantNamespaces => do
    let hit := isTenantNamespace appNamespace mainNamespace robotConfigNamespace ns.Name
    let tenantNamespaces := if hit then tenantNamespaces ++ [ns.Name] else tenantNamespaces
    -- Label all tenant namespaces accordingly
    let ns := if hit then { ns with toObjectMeta := setLabel ns.toObjectMeta tenantLabel t.Name }
      else ns
    let res ← clientUpdate e .Namespace ns
    match res with
    | .error err => return .error (.wrap (.api err) "label namespace")
    | .ok _ =>
      collectTenantNamespacesLoop e t appNamespace mainNamespace robotConfigNamespace
        rest tenantNamespaces

/-- Go `collectTenantNamespaces`. -/
def collectTenantNamespaces (e : Env σ) (t : Tenant) : M σ (Tenant × Option GoError) := do
  let mainNamespace := TenantMainNamespace t.Name
  let robotConfigNamespace := RobotConfigNamespace mainNamespace
  let res ← clientList e .Namespace none
  match res with
  | .error err => return (t, some (.wrap (.api err) "list namespaces"))
  | .ok namespaces =>
    let appNamespace :=
      if t.Name = DefaultTenantName then "app-" else mainNamespace ++ "-app-"
    let out ← collectTenantNamespacesLoop e t appNamespace mainNamespace robotConfigNamespace
      namespaces []
    match out with
    | .error err => return (t, some err)
    | .ok tenantNamespaces =>
      let t := { t with Status := { t.Status with TenantNamespaces := tenantNamespaces } }
      return (t, none)

/-- The test of `collectRobots` for the token secret of a robot cluster. -/
def isRobotToken (s : Secret) : Bool :=
  s.Annotations.read "kubernetes.io/service-account.name" = RobotServiceAccount
    && HasPrefix s.Name "robot-token-"

/-- Go `collectRobots`. -/
def collectRobots (e : Env σ) (t : Tenant) : M σ (Tenant × Option GoError) := do
  -- Collect robots in tenant namespace
  let res ← clientList e .Robot (some (TenantMainNamespace t.Name))
  match res with
  | .error err => return (t, some (.wrap (.api err) "list robots"))
  | .ok robotList =>
    let t := { t with Status := { t.Status with Robots := (robotList.length : Int) } }
    -- Collect robot clusters based on their service account secrets
    let res ← clientList e .Secret (some (RobotConfigNamespace (TenantMainNamespace t.Name)))
    match res with
    | .error err => return (t, some (.wrap (.api err) "list robot service account tokens"))
    | .ok secretList =>
      let clusters : Int := (secretList.countP isRobotToken : Nat)
      let t := { t with Status := { t.Status with RobotClusters := clusters } }
      return (t, none)

/-- Go `ensureDeleted`. -/
def ensureDeleted (e : Env σ) (t : Tenant) : M σ (Bool × Option GoError) := do
  let mainNamespace := TenantMainNamespace t.Name
  -- Ensure that all approllouts of tenant namespace are deleted
  let res ← clientList e .AppRollout (some mainNamespace)
  match res with
  | .error err => return (false, some (.wrap (.api err) ("list AppRollouts of tenant " ++ t.Name)))
  | .ok a =>
    if a.length > 0 then
      logPrintf ("Deleting " ++ toString a.length ++ " AppRollouts in order to delete tenant "
        ++ t.Name)
      let err ← clientDeleteAllOf e .AppRollout mainNamespace
      if let some err := err then
        return (false, some (.wrap (.api err) ("delete AppRollouts of tenant " ++ t.Name)))
      return (false, none)
    -- Check if all chartassignments of tenant namespace are deleted
    let res ← clientList e .ChartAssignment (some mainNamespace)
    match res with
    | .error err =>
      return (false, some (.wrap (.api err) ("list ChartAssignments of tenant " ++ t.Name)))
    | .ok c =>
      if c.length > 0 then
        logPrintf ("Waiting for " ++ toString c.length
          ++ " ChartAssignments to be deleted for tenant " ++ t.Name)
        return (false, none)
      return (true, none)

/-- The value of `lastErrorOnEnsure` after the statement
`if err != nil { lastErrorOnEnsure = err }`. -/
def keepLast (lastErrorOnEnsure err : Option GoError) : Option GoError :=
  match err with
  | some x => some x
  | none => lastErrorOnEnsure

/-- The statement `lastErrorOnEnsure = err` followed by the report of the
failure, which `Reconcile` executes after a step if `err != nil`: the new value
of `lastErrorOnEnsure`. -/
def noteFailure (lastErrorOnEnsure err : Option GoError) (report : GoError → M σ Unit) :
    R σ (Option GoError) :=
  match err with
  | some err => do
    lift (report err)
    pure (some err)
  | none => pure lastErrorOnEnsure

/-- Lines 303 to 403 of `Reconcile`: the pass over a tenant that is not being
deleted and carries the finalizer. -/
def reconcileEnsure (fuel : Nat) (e : Env σ) (r : Reconciler) (t : Tenant) :
    R σ (Result × Option GoError) := do
  let lastErrorOnEnsure : Option GoError := none
  -- Ensure tenant namespaces are created
  let (t, err) ← step .ensureNamespace t Prod.snd (ensureNamespace e t)
  match err with
  | some err =>
    if err.isNamespaceDeletionError then do
      lift (logPrintf ("namespace in deletion: " ++ err.Error))
      -- Requeue to track deletion progress.
      let _ ← step .updateTenantStatus t Prod.snd (updateTenantStatus e t)
      return ({ RequeueAfter := requeueFast }, none)
    else do
      let _ ← step .updateTenantStatus t Prod.snd (updateTenantStatus e t)
      return ({}, some (.wrap err "ensure namespace"))
  | none =>
  -- Collect namespaces of this tenant
  let (t, err) ← step .collectTenantNamespaces t Prod.snd (collectTenantNamespaces e t)
  match err with
  | some err =>
    let _ ← step .updateTenantStatus t Prod.snd (updateTenantStatus e t)
    return ({}, some (.wrap err "collect namespaces"))
  | none =>
  -- Collect robots of this tenant
  let (t, err) ← step .collectRobots t Prod.snd (collectRobots e t)
  match err with
  | some err =>
    let _ ← step .updateTenantStatus t Prod.snd (updateTenantStatus e t)
    return ({}, some (.wrap err "collect robots"))
  | none =>
  -- Ensure robot / robot setup service accounts are existing
  let (t, err) ← step .ensureServiceAccount t Prod.snd (ensureServiceAccount e t)
  let lastErrorOnEnsure ← noteFailure lastErrorOnEnsure err (fun err =>
    logPrintf ("Ensure service account for tenant " ++ t.Name ++ " failed: " ++ err.Error))
  -- Ensure permissions for service accounts are correct
  let (t, err) ← step .ensurePermissions t Prod.snd (ensurePermissions e t)
  let lastErrorOnEnsure ← noteFailure lastErrorOnEnsure err (fun err =>
    logPrintf ("Ensure permissions for tenant " ++ t.Name ++ " failed: " ++ err.Error))
  -- Ensure robot-setup configmap
  let (t, err) ← step .ensureRobotSetupConfig t Prod.snd (ensureRobotSetupConfig e t)
  let lastErrorOnEnsure ← noteFailure lastErrorOnEnsure err (fun err =>
    logPrintf ("Ensure robot-setup config for tenant " ++ t.Name ++ " failed: " ++ err.Error))
  -- Ensure that image pull secret exists in tenant main namespace and is
  -- assigned to its default service account
  let (t, err) ← step .ensurePullSecret t Prod.snd (ensurePullSecret e t)
  let lastErrorOnEnsure ← noteFailure lastErrorOnEnsure err (fun err =>
    if err.isMissingServiceAccountError then
      logPrintf ("Missing default service account for tenant " ++ t.Name
        ++ ". This is expected to occur rarely: " ++ err.Error)
    else
      logPrintf ("Ensure pull-secret for tenant " ++ t.Name ++ " failed: " ++ err.Error))
  let (t, lastErrorOnEnsure) ← (if r.tenantSpecificGateways then do
      -- Ensure DNS Entry is correct
      let (t, err) ← step .ensureDNS t Prod.snd (ensureDNS fuel e r t)
      let dnsErrors := err.isSome
      let lastErrorOnEnsure ← noteFailure lastErrorOnEnsure err (fun err =>
        logPrintf ("Ensure DNS of tenant " ++ t.Name ++ " failed: " ++ err.Error))
      -- Ensure TLS certicate is created
      let (t, certErrors, lastErrorOnEnsure) ← (if !dnsErrors then do
          let (t, err) ← step .ensureCertificate t Prod.snd (ensureCertificate e t)
          let lastErrorOnEnsure ← noteFailure lastErrorOnEnsure err (fun err =>
            logPrintf ("Ensure certificate for tenant " ++ t.Name ++ " failed: " ++ err.Error))
          pure (t, err.isSome, lastErrorOnEnsure)
        else do
          let t ← lift (setConditionM e t TenantConditionCertificate ConditionFalse
            "No DNS record for the tenant created")
          pure (t, false, lastErrorOnEnsure) : R σ (Tenant × Bool × Option GoError))
      -- Ensure Istio Gateway is setup
      (if !dnsErrors && !certErrors then do
          let (t, err) ← step .ensureGateway t Prod.snd (ensureGateway e t)
          let lastErrorOnEnsure ← noteFailure lastErrorOnEnsure err (fun err =>
            fmtPrintf ("Ensure Istio gateway for domain " ++ t.Status.TenantDomain
              ++ " on tenant " ++ t.Name ++ " failed: " ++ err.Error))
          pure (t, lastErrorOnEnsure)
        else do
          let t ← lift (setConditionM e t TenantConditionGateway ConditionFalse
            "No DNS record and/or TLS certificate for the tenant created")
          pure (t, lastErrorOnEnsure) : R σ (Tenant × Option GoError))
    else
      pure ({ t with Status := { t.Status with
        TenantDomain := "", Gateway := r.defaultGateway } }, lastErrorOnEnsure)
    : R σ (Tenant × Option GoError))
  -- Update status
  let (_, err) ← step .updateTenantStatus t Prod.snd (updateTenantStatus e t)
  match err with
  | some err => return ({}, some err)
  | none =>
    match lastErrorOnEnsure with
    | some err => return ({}, some err)
    | none => return ({ RequeueAfter := requeueSlow }, none)

/-- Go `Reconciler.Reconcile`; `request` is `request.Name`. The value is the
pair `(reconcile.Result, error)`. The code from line 303 on is
`reconcileEnsure`. -/
def Reconcile (fuel : Nat) (e : Env σ) (r : Reconciler) (request : String) :
    R σ (Result × Option GoError) := do
  -- Get tenant CR
  let res ← lift (clientGet e .Tenant "" request)
  match res with
  | .error err =>
    if err.notFound then do
      lift (logPrintf ("Tenant " ++ request ++ " does not longer exist, skipping reconciliation"))
      return ({}, none)
    else
      return ({}, some (.wrap (.api err) ("get CR of tenant " ++ request)))
  | .ok t =>
    -- Check for deleted tenant
    if t.DeletionTimestamp ≠ none then do
      lift (logPrintf ("Ensure clean-up of tenant " ++ t.Name))
      let (deleted, err) ← step .ensureDeleted t Prod.snd (ensureDeleted e t)
      match err with
      | some err => return ({}, some (.wrap err ("delete tenant " ++ t.Name)))
      | none =>
        if !deleted then
          return ({ RequeueAfter := requeueFast }, none)
        else if containsString t.Finalizers finalizer then do
          lift (logPrintf ("Removing finalizer from tenant " ++ t.Name))
          let t := { t with Finalizers := stringsDelete t.Finalizers finalizer }
          let res ← lift (clientUpdate e .Tenant t)
          match res with
          | .error err =>
            return ({}, some (.wrap (.api err) ("remove finalizer from tenant " ++ t.Name)))
          | .ok t =>
            lift (logPrintf ("Tenant " ++ t.Name ++ " deleted"))
            return ({}, none)
        else do
          lift (logPrintf ("Tenant " ++ t.Name ++ " deleted"))
          return ({}, none)
    -- Add finalizer
    else if !containsString t.Finalizers finalizer then do
      lift (logPrintf ("Adding finalizer to tenant " ++ t.Name))
      let t := { t with Finalizers := t.Finalizers ++ [finalizer] }
      let res ← lift (clientUpdate e .Tenant t)
      match res with
      | .error err => return ({}, some (.wrap (.api err) ("add finalizer to tenant " ++ t.Name)))
      | .ok t => reconcileEnsure fuel e r t
    else reconcileEnsure fuel e r t

/-- One reconcile pass from a state of the environment, with an empty trace:
how the pass ends, and the final state with the trace of the pass. -/
def runReconcile (fuel : Nat) (e : Env σ) (r : Reconciler) (request : String) (s : σ) :
    Res (Result × Option GoError) × World σ :=
  Reconcile fuel e r request { api := s, trace := [] }

/-! ## An in-memory object store

A concrete environment in the manner of the fake client the tests of the
controller use: objects are kept per kind and are identified by namespace and
name. Writes to the kinds listed in `forbidden` are rejected by the store, and
so are status writes when `statusForbidden` is set; the clock stands still and
the random source replays `rand`. -/

structure FakeStore where
  tenants : List Tenant := []
  namespaces : List Namespace := []
  serviceAccounts : List ServiceAccount := []
  roleBindings : List RoleBinding := []
  secrets : List Secret := []
  configMaps : List ConfigMap := []
  dnsEntries : List DNSEntry := []
  services : List Service := []
  certificates : List Certificate := []
  gateways : List Gateway := []
  robots : List Robot := []
  appRollouts : List AppRollout := []
  chartAssignments : List ChartAssignment := []
  forbidden : List Kind := []
  statusForbidden : Bool := false
  clock : Time := 0
  rand : List Nat := []

/-- The objects of a kind. -/
def FakeStore.objs : (k : Kind) → FakeStore → List (Obj k)
  | .Tenant, s => s.tenants
  | .Namespace, s => s.namespaces
  | .ServiceAccount, s => s.serviceAccounts
  | .RoleBinding, s => s.roleBindings
  | .Secret, s => s.secrets
  | .ConfigMap, s => s.configMaps
  | .DNSEntry, s => s.dnsEntries
  | .Service, s => s.services
  | .Certificate, s => s.certificates
  | .Gateway, s => s.gateways
  | .Robot, s => s.robots
  | .AppRollout, s => s.appRollouts
  | .ChartAssignment, s => s.chartAssignments

/-- Replace the objects of a kind. -/
def FakeStore.setObjs : (k : Kind) → List (Obj k) → FakeStore → FakeStore
  | .Tenant, l, s => { s with tenants := l }
  | .Namespace, l, s => { s with namespaces := l }
  | .ServiceAccount, l, s => { s with serviceAccounts := l }
  | .RoleBinding, l, s => { s with roleBindings := l }
  | .Secret, l, s => { s with secrets := l }
  | .ConfigMap, l, s => { s with configMaps := l }
  | .DNSEntry, l, s => { s with dnsEntries := l }
  | .Service, l, s => { s with services := l }
  | .Certificate, l, s => { s with certificates := l }
  | .Gateway, l, s => { s with gateways := l }
  | .Robot, l, s => { s with robots := l }
  | .AppRollout, l, s => { s with appRollouts := l }
  | .ChartAssignment, l, s => { s with chartAssignments := l }

/-- The object has this namespace and name. -/
def hasKey (k : Kind) (namespace_ name : String) (o : Obj k) : Bool :=
  (metaOf k o).Namespace = namespace_ && (metaOf k o).Name = name

def errNotFound (name : String) : ApiError :=
  { notFound := true, msg := quote name ++ " not found" }

def errAlreadyExists (name : String) : ApiError :=
  { notFound := false, msg := quote name ++ " already exists" }

def errForbidden (name : String) : ApiError :=
  { notFound := false, msg := quote name ++ " is forbidden" }

def fakeGet (k : Kind) (namespace_ name : String) (s : FakeStore) :
    Except ApiError (Obj k) × FakeStore :=
  match (s.objs k).find? (hasKey k namespace_ name) with
  | some o => (.ok o, s)
  | none => (.error (errNotFound name), s)

def fakeList (k : Kind) (inNamespace : Option String) (s : FakeStore) :
    Except ApiError (List (Obj k)) × FakeStore :=
  match inNamespace with
  | none => (.ok (s.objs k), s)
  | some ns => (.ok ((s.objs k).filter (fun o => (metaOf k o).Namespace = ns)), s)

def fakeCreate (k : Kind) (o : Obj k) (s : FakeStore) : Except ApiError (Obj k) × FakeStore :=
  if s.forbidden.contains k then (.error (errForbidden (metaOf k o).Name), s)
  else if (s.objs k).any (hasKey k (metaOf k o).Namespace (metaOf k o).Name) then
    (.error (errAlreadyExists (metaOf k o).Name), s)
  else (.ok o, s.setObjs k (s.objs k ++ [o]))

def fakeUpdate (k : Kind) (o : Obj k) (s : FakeStore) : Except ApiError (Obj k) × FakeStore :=
  if s.forbidden.contains k then (.error (errForbidden (metaOf k o).Name), s)
  else if (s.objs k).any (hasKey k (metaOf k o).Namespace (metaOf k o).Name) then
    (.ok o, s.setObjs k ((s.objs k).map (fun x =>
      if hasKey k (metaOf k o).Namespace (metaOf k o).Name x then o else x)))
  else (.error (errNotFound (metaOf k o).Name), s)

def fakeDeleteAllOf (k : Kind) (inNamespace : String) (s : FakeStore) :
    Option ApiError × FakeStore :=
  if s.forbidden.contains k then (some (errForbidden inNamespace), s)
  else (none, s.setObjs k ((s.objs k).filter (fun o => (metaOf k o).Namespace ≠ inNamespace)))

/-- A status write replaces the status of the stored tenant and answers with
the stored object. -/
def fakeStatusUpdate (t : Tenant) (s : FakeStore) : Except ApiError Tenant × FakeStore :=
  if s.statusForbidden then (.error (errForbidden t.Name), s)
  else match s.tenants.find? (fun x => x.Name = t.Name) with
    | some x =>
      let x1 : Tenant := { x with Status := t.Status }
      (.ok x1, { s with tenants := s.tenants.map (fun y => if y.Name = t.Name then x1 else y) })
    | none => (.error (errNotFound t.Name), s)

def fakeInt63 (s : FakeStore) : Nat × FakeStore :=
  match s.rand with
  | [] => (0, s)
  | x :: xs => (x % 2 ^ 63, { s with rand := xs })

/-- The in-memory store as an environment of the controller. -/
def fakeEnv : Env FakeStore where
  get := fakeGet
  list := fakeList
  create := fakeCreate
  update := fakeUpdate
  deleteAllOf := fakeDeleteAllOf
  statusUpdate := fakeStatusUpdate
  now := fun s => s.clock
  int63 := fakeInt63

/-! ## Observations on traces -/

/-- The step functions that returned, in order, each with the error it
returned. -/
def stepLog : List Event → List (Step × Option GoError)
  | [] => []
  | .leave s err :: evs => (s, err) :: stepLog evs
  | .enter _ _ :: evs => stepLog evs
  | .io _ :: evs => stepLog evs

/-- The calls of step functions, in order, each with the tenant it was called
on. -/
def calls : List Event → List (Step × Tenant)
  | [] => []
  | .enter s t :: evs => (s, t) :: calls evs
  | .leave _ _ :: evs => calls evs
  | .io _ :: evs => calls evs

/-- The step functions that were called, in order. -/
def entered (evs : List Event) : List Step := (calls evs).map Prod.fst

/-- The interactions with the store and the log, in order. -/
def ioLog : List Event → List IOEvent
  | [] => []
  | .io ev :: evs => ev :: ioLog evs
  | .enter _ _ :: evs => ioLog evs
  | .leave _ _ :: evs => ioLog evs

/-- The error of the last entry of a step log that carries one. -/
def lastFailure (log : List (Step × Option GoError)) : Option GoError :=
  log.foldl (fun last x => keepLast last x.2) none

/-- The steps whose error `Reconcile` remembers in `lastErrorOnEnsure`. -/
def ensureSteps : List Step :=
  [.ensureServiceAccount, .ensurePermissions, .ensureRobotSetupConfig, .ensurePullSecret,
   .ensureDNS, .ensureCertificate, .ensureGateway]

/-- The entries of a step log that belong to the given steps. -/
def logOf (steps : List Step) (log : List (Step × Option GoError)) :
    List (Step × Option GoError) :=
  log.filter (fun x => decide (x.1 ∈ steps))

/-- The request was answered with an error. -/
def IOEvent.failed : IOEvent → Bool
  | .Get _ _ _ (.error _) => true
  | .List _ _ (.error _) => true
  | .Create _ _ (.error _) => true
  | .Update _ _ (.error _) => true
  | .DeleteAllOf _ _ (some _) => true
  | .StatusUpdate _ (.error _) => true
  | _ => false

/-- The number of AppRollouts the store listed in answer to this request. -/
def IOEvent.appRollouts : IOEvent → Nat
  | .List .AppRollout _ (.ok l) => l.length
  | _ => 0

/-- The number of ChartAssignments the store listed in answer to this
request. -/
def IOEvent.chartAssignments : IOEvent → Nat
  | .List .ChartAssignment _ (.ok l) => l.length
  | _ => 0

/-- The number of workload-assignment objects (AppRollouts and
ChartAssignments) a pass has seen in the answers of the store. -/
def workloadsSeen (evs : List IOEvent) : Nat :=
  (evs.map (fun ev => ev.appRollouts + ev.chartAssignments)).sum

/-- The delete requests of a pass: kind and namespace. -/
def deleteRequests : List IOEvent → List (Kind × String)
  | [] => []
  | .DeleteAllOf k ns _ :: evs => (k, ns) :: deleteRequests evs
  | _ :: evs => deleteRequests evs

/-- The tenants a pass asked the store to update (`r.client.Update`). -/
def tenantUpdates : List IOEvent → List Tenant
  | [] => []
  | .Update .Tenant t _ :: evs => t :: tenantUpdates evs
  | _ :: evs => tenantUpdates evs

/-- The tenants a pass asked the store to persist the status of. -/
def statusWrites : List IOEvent → List Tenant
  | [] => []
  | .StatusUpdate t _ :: evs => t :: statusWrites evs
  | _ :: evs => statusWrites evs

/-- The config maps a pass asked the store to create or update. -/
def configMapWrites : List IOEvent → List ConfigMap
  | [] => []
  | .Create .ConfigMap o _ :: evs => o :: configMapWrites evs
  | .Update .ConfigMap o _ :: evs => o :: configMapWrites evs
  | _ :: evs => configMapWrites evs

/-- The lines a pass wrote with `log.Printf`. -/
def logLines : List IOEvent → List String
  | [] => []
  | .Log msg :: evs => msg :: logLines evs
  | _ :: evs => logLines evs

/-- Status and message of the first condition of a type, if there is one. -/
def conditionOf (t : Tenant) (tc : TenantConditionType) : Option (ConditionStatus × String) :=
  (t.Status.Conditions.find? (fun c => c.Type_ = tc)).map (fun c => (c.Status, c.Message))

/-! ## Weakest preconditions -/

/-- Running `m` from `s` ends in a state that satisfies `Q` with the value
returned, or, if `m` panics or diverges, in a state that satisfies `A`. -/
@[irreducible] def wp {S α : Type} (m : St S α) (Q : α → S → Prop) (A : S → Prop) (s : S) : Prop :=
  match m s with
  | (.ok a, s1) => Q a s1
  | (.panic _, s1) => A s1
  | (.diverge, s1) => A s1

/-- The condition a proof by weakest preconditions has to establish at the end
of a run. It is sealed so that the rules of the calculus do not look into
it. -/
@[irreducible] def Post (p : Prop) : Prop := p

/-- The weakest precondition of code of `Reconcile` for conditions on the
calls of step functions and on the step log only: from every state whose
trace has the calls `cl` and the step log `log`, running `m` ends with calls
and a step log that satisfy `Q` with the value returned, or `A` if `m` does
not return. -/
@[irreducible] def wpL {σ α : Type} (m : R σ α)
    (Q : α → List (Step × Tenant) → List (Step × Option GoError) → Prop)
    (A : List (Step × Tenant) → List (Step × Option GoError) → Prop)
    (cl : List (Step × Tenant)) (log : List (Step × Option GoError)) : Prop :=
  ∀ (api : σ) (tr : List Event), calls tr = cl → stepLog tr = log →
    wp m (fun a w => Q a (calls w.trace) (stepLog w.trace))
      (fun w => A (calls w.trace) (stepLog w.trace)) ⟨api, tr⟩

/-! ## Stores for the scenarios of the development -/

/-- The reconciler of `TestReconcileOne`: tenant-specific gateways are off. -/
def testReconciler : Reconciler := { domain := "domain.local" }

/-- The same reconciler with tenant-specific gateways. -/
def gatewayReconciler : Reconciler := { domain := "domain.local", tenantSpecificGateways := true }

/-- The tenant of `TestReconcileOne`. -/
def testTenant : Tenant := { Name := "test-tenant" }

/-- The store of `TestReconcileOne`: the tenant and nothing else. -/
def newTenantStore : FakeStore := { tenants := [testTenant] }

/-- The template of the robot-setup config map. -/
def templateConfigMap : ConfigMap :=
  { Name := RobotSetupConfigmap, Namespace := RobotConfigCloudNamespace,
    Data := some [("tenant_domain", "template")] }

/-- The template of the pull secret. -/
def templateSecret : Secret :=
  { Name := ImagePullSecret, Namespace := "default", Data := some [(".dockerconfigjson", "x")],
    Type_ := "kubernetes.io/dockerconfigjson" }

/-- The load balancer of the ingress gateway, with an IP. -/
def lbService : Service :=
  { Name := istioLBServiceName, Namespace := istioLBServiceNamespace,
    Ingress := [{ IP := "10.0.0.1" }] }

/-- The default service accounts of the two namespaces of the tenant. -/
def defaultServiceAccounts : List ServiceAccount :=
  [ { Name := "default", Namespace := TenantMainNamespace testTenant.Name },
    { Name := "default", Namespace := RobotConfigNamespace (TenantMainNamespace testTenant.Name) } ]

/-- A store on which every step of a pass succeeds. -/
def readyStore : FakeStore :=
  { tenants := [testTenant], configMaps := [templateConfigMap], secrets := [templateSecret],
    serviceAccounts := defaultServiceAccounts }

/-- The templates are there, the default service accounts are not yet. -/
def noDefaultAccountStore : FakeStore :=
  { tenants := [testTenant], configMaps := [templateConfigMap], secrets := [templateSecret] }

/-- The store on which every step succeeds, with a load balancer, for a
reconciler with tenant-specific gateways. -/
def gatewayStore : FakeStore :=
  { readyStore with services := [lbService] }

/-- The store rejects the certificate. -/
def noCertificateStore : FakeStore :=
  { gatewayStore with forbidden := [.Certificate] }

/-- The store rejects status writes. -/
def noStatusStore : FakeStore :=
  { readyStore with statusForbidden := true }

/-- The store rejects status writes and service accounts. -/
def noStatusNoAccountStore : FakeStore :=
  { readyStore with statusForbidden := true, forbidden := [.ServiceAccount] }

/-- A tenant in deletion that still carries the finalizer. -/
def deletedTenant : Tenant :=
  { Name := "test-tenant", DeletionTimestamp := some 1, Finalizers := [finalizer] }

/-- The tenant in deletion with one ChartAssignment left in its main
namespace. -/
def chartAssignmentStore : FakeStore :=
  { tenants := [deletedTenant],
    chartAssignments := [{ Name := "chart", Namespace := TenantMainNamespace "test-tenant" }] }

/-- The tenant in deletion with one AppRollout left in its main namespace. -/
def appRolloutStore : FakeStore :=
  { tenants := [deletedTenant],
    appRollouts := [{ Name := "rollout", Namespace := TenantMainNamespace "test-tenant" }] }

/-- The tenant in deletion with nothing left in its main namespace. -/
def cleanStore : FakeStore := { tenants := [deletedTenant] }

/-- The trace of a pass over the test tenant on a store. -/
def passOn (r : Reconciler) (s : FakeStore) : List Event :=
  (runReconcile 100 fakeEnv r "test-tenant" s).2.trace

/-- The result of a pass over the test tenant on a store. -/
def resultOn (r : Reconciler) (s : FakeStore) : Res (Result × Option GoError) :=
  (runReconcile 100 fakeEnv r "test-tenant" s).1

variable {σ : Type}

/-! ## Routing of namespace events -/

/-- The split of a string at the first `-`, if there is one: what stands
before it and what stands after it. -/
def cutDash : List Char → Option (List Char × List Char)
  | [] => none
  | c :: cs =>
    if c = '-' then some ([], cs)
    else match cutDash cs with
      | some (a, b) => some (c :: a, b)
      | none => none

/-- Go `strings.SplitN(s, "-", 2)`. -/
def SplitN (s : String) : List String :=
  match cutDash s.data with
  | some (a, b) => [String.mk a, String.mk b]
  | none => [s]

/-- Go `log.Print`. -/
def logPrint (msg : String) : M σ Unit := record (.Log msg)

/-- The loop of `enqueueFromNamespaceName` over the tenants; `q` holds the
names of the requests added to the queue so far. -/
def enqueueLoop (rest : String) : List Tenant → List String → List String
  | [], q => q
  | t :: items, q =>
    -- If there are two tenants where one tenant name acts like a prefix for
    -- the other too many reconciles could be triggered
    if HasPrefix rest t.Name then enqueueLoop rest items (q ++ [t.Name])
    else enqueueLoop rest items q

/-- Go `enqueueFromNamespaceName`; `namespace_` is `o.GetName()`. The value is
the list of the names of the requests added to the queue with `q.Add`, in
order. -/
def enqueueFromNamespaceName (e : Env σ) (namespace_ : String) : M σ (List String) := do
  -- Enqueue namespaces starting with tenant prefix "t-"
  if HasPrefix namespace_ TenantPrefix then
    let split := SplitN namespace_
    if split.length > 1 then
      let res ← clientList e .Tenant none
      match res with
      | .error _ =>
        logPrint "Error getting tenants when enqueueFromNamespaceName"
        return []
      | .ok items => return enqueueLoop (split.getD 1 "") items []
    else return []
  else return []

/-! ## The validating webhook (validatingwebhook.go) -/

/-- Go `admissionv1.Operation`, a string. -/
abbrev Operation := String

def Create : Operation := "CREATE"
def Update : Operation := "UPDATE"
def Delete : Operation := "DELETE"
def Connect : Operation := "CONNECT"

/-- An `admission.Request`, as far as `Handle` reads it: the operation, and
what `v.decoder.Decode(req, &tenant)` yields for the request. -/
structure Request where
  Operation : Operation
  decoded : Except GoError Tenant

/-- An `admission.Response`: whether the request is allowed, and code and
message of its result. -/
structure Response where
  Allowed : Bool
  Code : Int
  Message : String
deriving DecidableEq, Repr

/-- Go `http.StatusBadRequest`. -/
def StatusBadRequest : Int := 400

/-- Go `admission.Errored(code, err)`. -/
def Errored (code : Int) (err : GoError) : Response :=
  { Allowed := false, Code := code, Message := err.Error }

/-- Go `admission.Allowed(reason)`. -/
def Allowed (reason : String) : Response :=
  { Allowed := true, Code := 200, Message := reason }

/-- Go `tenantValidator`, without the client and the decoder. -/
structure tenantValidator where
  tenantSpecificGateways : Bool := false
deriving DecidableEq, Repr

/-- The first loop of `Handle` over the tenants: the response it returns, if
it returns. -/
def denyOtherTenants : List Tenant → Option Response
  | [] => none
  | t :: items =>
    if t.Name ≠ DefaultTenantName then
      some (Errored StatusBadRequest
        (.new "Delete all other tenants before creating the default tenant"))
    else denyOtherTenants items

/-- The second loop of `Handle` over the tenants: the response it returns, if
it returns. -/
def denyDefaultTenant : List Tenant → Option Response
  | [] => none
  | t :: items =>
    if t.Name = DefaultTenantName then
      some (Errored StatusBadRequest
        (.new "Delete default tenant before creating other tenants"))
    else denyDefaultTenant items

/-- Go `tenantValidator.Handle`. -/
def Handle (v : tenantValidator) (e : Env σ) (req : Request) : M σ Response := do
  match req.decoded with
  | .error err => return Errored StatusBadRequest err
  | .ok tenant =>
    let res ← clientList e .Tenant none
    match res with
    | .error err => return Errored StatusBadRequest (.api err)
    | .ok items =>
      -- Check if there are no other tenants if a default tenant should be
      -- created/updated
      let r1 := if tenant.Name = DefaultTenantName ∧ req.Operation ≠ Delete
        then denyOtherTenants items else none
      match r1 with
      | some resp => return resp
      | none =>
        -- Check if there is no default tenant if a tenant should be
        -- created/updated
        let r2 := if tenant.Name ≠ DefaultTenantName ∧ req.Operation ≠ Delete
          then denyDefaultTenant items else none
        match r2 with
        | some resp => return resp
        | none =>
          if !v.tenantSpecificGateways ∧ tenant.Spec.TenantDomain ≠ "" then
            return Errored StatusBadRequest
              (.new "TenantDomain must be empty when tenant specific gateways are disabled")
          else return Allowed ""

/-! ## More observations on traces -/

/-- The request asks the store to create, update or delete an object, or to
write a status. -/
def IOEvent.isWrite : IOEvent → Bool
  | .Create _ _ _ => true
  | .Update _ _ _ => true
  | .DeleteAllOf _ _ _ => true
  | .StatusUpdate _ _ => true
  | _ => false

/-- The namespaces a piece of code asked the store to update. -/
def namespaceUpdates : List IOEvent → List Namespace
  | [] => []
  | .Update .Namespace ns _ :: evs => ns :: namespaceUpdates evs
  | _ :: evs => namespaceUpdates evs

/-- The request is a `List` or an `Update` of a namespace. -/
def IOEvent.isListOrNamespaceUpdate : IOEvent → Bool
  | .List _ _ _ => true
  | .Update .Namespace _ _ => true
  | _ => false

/-- The request is a `List`. -/
def IOEvent.isList : IOEvent → Bool
  | .List _ _ _ => true
  | _ => false

/-- The namespace `collectTenantNamespaces` asks the store to update for a
listed namespace `ns`: with the label of the tenant, if it is a namespace of
the tenant. -/
def labelled (t : Tenant) (ns : Namespace) : Namespace :=
  let mainNamespace := TenantMainNamespace t.Name
  let appNamespace := if t.Name = DefaultTenantName then "app-" else mainNamespace ++ "-app-"
  if isTenantNamespace appNamespace mainNamespace (RobotConfigNamespace mainNamespace) ns.Name
  then { ns with toObjectMeta := setLabel ns.toObjectMeta tenantLabel t.Name }
  else ns

/-- The test of `collectTenantNamespaces` for a namespace of the tenant `t`,
on the name of the namespace. -/
def ofTenant (t : Tenant) (name : String) : Bool :=
  let mainNamespace := TenantMainNamespace t.Name
  let appNamespace := if t.Name = DefaultTenantName then "app-" else mainNamespace ++ "-app-"
  isTenantNamespace appNamespace mainNamespace (RobotConfigNamespace mainNamespace) name

/-! ## More stores -/

/-- A store that holds the test tenant and its main namespace, not yet
labelled. -/
def namespaceStore : FakeStore :=
  { tenants := [testTenant], namespaces := [{ Name := TenantMainNamespace testTenant.Name }] }

/-- A store that holds the tenants `abc` and `abc-xyz`. -/
def twoTenantStore : FakeStore :=
  { tenants := [{ Name := "abc" }, { Name := "abc-xyz" }] }

/-- A tenant with a tenant domain of its own. -/
def domainTenant : Tenant :=
  { Name := "abc", Spec := { TenantDomain := "abc.example.com" } }

/-- A store that holds the tenant with a tenant domain of its own. -/
def domainTenantStore : FakeStore := { tenants := [domainTenant] }

/-- A store that holds the default tenant. -/
def defaultTenantStore : FakeStore := { tenants := [{ Name := DefaultTenantName }] }

/-- A condition that is not yet true. -/
def pendingCondition : TenantCondition :=
  { Type_ := TenantConditionNamespace, Status := ConditionFalse, LastUpdateTime := 1,
    LastTransitionTime := 1, Message := "pending" }

/-- A tenant with the pending condition and a condition of another type. -/
def pendingTenant : Tenant :=
  { Name := "test-tenant",
    Status := { Conditions := [pendingCondition,
      { Type_ := TenantConditionDomain, Status := ConditionTrue, LastUpdateTime := 2,
        LastTransitionTime := 2, Message := "ready" }] } }

variable {σ : Type}

deriving instance DecidableEq for Except

/-! ## Routing of events of namespaced objects -/

/-- Go `strings.TrimPrefix(s, prefix)`. -/
def TrimPrefix (s pre : String) : String :=
  if HasPrefix s pre then String.mk (s.data.drop pre.data.length) else s

/-- Go `enqueueFromObjectNamespace`; `namespace_` is `o.GetNamespace()`. The
value is the list of the names of the requests added to the queue. -/
def enqueueFromObjectNamespace (namespace_ : String) : List String :=
  [TrimPrefix namespace_ TenantPrefix]

/-! ## Observations on the DNS entry -/

/-- The DNS entries a piece of code asked the store to create or update. -/
def dnsEntryWrites : List IOEvent → List DNSEntry
  | [] => []
  | .Create .DNSEntry d _ :: evs => d :: dnsEntryWrites evs
  | .Update .DNSEntry d _ :: evs => d :: dnsEntryWrites evs
  | _ :: evs => dnsEntryWrites evs

/-! ## Stores and tenants for the domain and the robot-setup config -/

/-- A tenant whose name makes the default tenant domain longer than 62 bytes,
with a tenant domain in its status that is longer than 62 bytes as well. -/
def longDomainTenant : Tenant :=
  { Name := "a-tenant-with-a-name-of-more-than-fifty-characters-in-all",
    Status := { TenantDomain :=
      "a-recorded-name-of-more-than-sixty-two-characters-in-all-of-its-length.t.domain.local" } }

/-- A store that holds the tenant with the long names and the load balancer. -/
def longDomainStore : FakeStore :=
  { tenants := [longDomainTenant], services := [lbService] }

/-- The tenant with the long name, without a tenant domain in its status. -/
def longNameTenant : Tenant :=
  { Name := "a-tenant-with-a-name-of-more-than-fifty-characters-in-all" }

/-- A store that holds the tenant with the long name and the load balancer;
the random source replays two values. -/
def longNameStore : FakeStore :=
  { tenants := [longNameTenant], services := [lbService], rand := [1234567890123, 987654321] }

/-- A store whose template of the robot-setup config map has no data: its
`Data` is the nil map. -/
def nilDataStore : FakeStore :=
  { tenants := [testTenant],
    configMaps := [{ Name := RobotSetupConfigmap, Namespace := RobotConfigCloudNamespace }] }

/-- A store whose template of the robot-setup config map has an empty,
non-nil `Data`. -/
def emptyDataStore : FakeStore :=
  { tenants := [testTenant],
    configMaps :=
      [{ Name := RobotSetupConfigmap, Namespace := RobotConfigCloudNamespace, Data := some [] }] }

variable {σ : Type}

/-! ## The tenant domains a status can hold -/

/-- The tenant domains the controller records in the status of a tenant. A
tenant starts with the empty one, which is also what a pass without
tenant-specific gateways records; with tenant-specific gateways the one place
that assigns `t.Status.TenantDomain` is `ensureDNS`, and the status a pass
writes holds what `ensureDNS` left there, whether it returned an error or not.
So a domain is recorded if it is the empty one or the one in the status of the
tenant after a call of `ensureDNS`, in any environment and for any cluster
domain, on a tenant whose status held a recorded domain. -/
inductive RecordedDomain : String → Prop where
  | initial : RecordedDomain ""
  | ensured {σ : Type} (fuel : Nat) (e : Env σ) (r : Reconciler) (t t1 : Tenant)
      (err : Option GoError) (w : IOWorld σ) :
      RecordedDomain t.Status.TenantDomain →
      (ensureDNS fuel e r t w).1 = .ok (t1, err) →
      RecordedDomain t1.Status.TenantDomain

/-! ## The admission request as the API server sends it -/

section Rules

variable {σ S α β γ : Type}

/-! ## Rules of the weakest-precondition calculus -/

theorem wp_pure {Q : α → S → Prop} {A : S → Prop} {a : α} {s : S} (h : Q a s) :
    wp (pure a : St S α) Q A s := by
  unfold wp
  exact h

theorem wp_bind {m : St S α} {f : α → St S β} {Q : β → S → Prop} {A : S → Prop} {s : S}
    (h : wp m (fun a s1 => wp (f a) Q A s1) A s) : wp (m >>= f) Q A s := by
  unfold wp at h ⊢
  simp only [bind, St.bind]
  rcases hm : m s with ⟨r, s1⟩
  rw [hm] at h
  cases r <;> simpa using h

theorem wp_ite {c : Prop} [Decidable c] {m1 m2 : St S α} {Q : α → S → Prop} {A : S → Prop}
    {s : S} (h1 : c → wp m1 Q A s) (h2 : ¬ c → wp m2 Q A s) :
    wp (if c then m1 else m2) Q A s := by
  by_cases hc : c
  · rw [if_pos hc]; exact h1 hc
  · rw [if_neg hc]; exact h2 hc

theorem wp_goPanic {Q : α → S → Prop} {A : S → Prop} {msg : String} {s : S} (h : A s) :
    wp (goPanic msg : St S α) Q A s := by
  unfold wp
  exact h

theorem wp_goDiverge {Q : α → S → Prop} {A : S → Prop} {s : S} (h : A s) :
    wp (goDiverge : St S α) Q A s := by
  unfold wp
  exact h

/-- What a weakest precondition says about a run that returns. -/
theorem wp_ok {m : St S α} {Q : α → S → Prop} {A : S → Prop} {s : S} {a : α}
    (h : wp m Q A s) (hr : (m s).1 = .ok a) : Q a (m s).2 := by
  unfold wp at h
  rcases hm : m s with ⟨r, s1⟩
  rw [hm] at h hr
  simp only at hr
  subst hr
  exact h

/-- What a weakest precondition says about a run that does not return. -/
theorem wp_abnormal {m : St S α} {Q : α → S → Prop} {A : S → Prop} {s : S}
    (h : wp m Q A s) (hr : ∀ a, (m s).1 ≠ .ok a) : A (m s).2 := by
  unfold wp at h
  rcases hm : m s with ⟨r, s1⟩
  rw [hm] at h hr
  cases r with
  | ok a => exact absurd rfl (hr a)
  | panic p => exact h
  | diverge => exact h

/-- What a weakest precondition says about any run, when the condition for
abnormal ends is the one for returns at every value. -/
theorem wp_any {m : St S α} {P : S → Prop} {s : S}
    (h : wp m (fun _ s1 => P s1) P s) : P (m s).2 := by
  unfold wp at h
  rcases hm : m s with ⟨r, s1⟩
  rw [hm] at h
  cases r <;> exact h

theorem wp_record {ev : IOEvent} {Q : Unit → IOWorld σ → Prop} {A : IOWorld σ → Prop}
    {api : σ} {tr : List IOEvent} (h : Q () ⟨api, tr ++ [ev]⟩) :
    wp (record ev) Q A ⟨api, tr⟩ := by
  unfold wp
  exact h

theorem wp_logPrintf {msg : String} {Q : Unit → IOWorld σ → Prop} {A : IOWorld σ → Prop}
    {api : σ} {tr : List IOEvent} (h : Q () ⟨api, tr ++ [.Log msg]⟩) :
    wp (logPrintf msg) Q A ⟨api, tr⟩ := by
  unfold wp
  exact h

theorem wp_fmtPrintf {msg : String} {Q : Unit → IOWorld σ → Prop} {A : IOWorld σ → Prop}
    {api : σ} {tr : List IOEvent} (h : Q () ⟨api, tr ++ [.Stdout msg]⟩) :
    wp (fmtPrintf msg) Q A ⟨api, tr⟩ := by
  unfold wp
  exact h

theorem wp_clientGet {e : Env σ} {k : Kind} {ns name : String}
    {Q : Except ApiError (Obj k) → IOWorld σ → Prop} {A : IOWorld σ → Prop}
    {api : σ} {tr : List IOEvent}
    (h : ∀ (res : Except ApiError (Obj k)) (api1 : σ),
      Q res ⟨api1, tr ++ [.Get k ns name res]⟩) :
    wp (clientGet e k ns name) Q A ⟨api, tr⟩ := by
  unfold wp
  exact h _ _

theorem wp_clientList {e : Env σ} {k : Kind} {ns : Option String}
    {Q : Except ApiError (List (Obj k)) → IOWorld σ → Prop} {A : IOWorld σ → Prop}
    {api : σ} {tr : List IOEvent}
    (h : ∀ (res : Except ApiError (List (Obj k))) (api1 : σ),
      Q res ⟨api1, tr ++ [.List k ns res]⟩) :
    wp (clientList e k ns) Q A ⟨api, tr⟩ := by
  unfold wp
  exact h _ _

theorem wp_clientCreate {e : Env σ} {k : Kind} {o : Obj k}
    {Q : Except ApiError (Obj k) → IOWorld σ → Prop} {A : IOWorld σ → Prop}
    {api : σ} {tr : List IOEvent}
    (h : ∀ (res : Except ApiError (Obj k)) (api1 : σ),
      Q res ⟨api1, tr ++ [.Create k o res]⟩) :
    wp (clientCreate e k o) Q A ⟨api, tr⟩ := by
  unfold wp
  exact h _ _

theorem wp_clientUpdate {e : Env σ} {k : Kind} {o : Obj k}
    {Q : Except ApiError (Obj k) → IOWorld σ → Prop} {A : IOWorld σ → Prop}
    {api : σ} {tr : List IOEvent}
    (h : ∀ (res : Except ApiError (Obj k)) (api1 : σ),
      Q res ⟨api1, tr ++ [.Update k o res]⟩) :
    wp (clientUpdate e k o) Q A ⟨api, tr⟩ := by
  unfold wp
  exact h _ _

theorem wp_clientDeleteAllOf {e : Env σ} {k : Kind} {ns : String}
    {Q : Option ApiError → IOWorld σ → Prop} {A : IOWorld σ → Prop}
    {api : σ} {tr : List IOEvent}
    (h : ∀ (res : Option ApiError) (api1 : σ),
      Q res ⟨api1, tr ++ [.DeleteAllOf k ns res]⟩) :
    wp (clientDeleteAllOf e k ns) Q A ⟨api, tr⟩ := by
  unfold wp
  exact h _ _

theorem wp_clientStatusUpdate {e : Env σ} {t : Tenant}
    {Q : Except ApiError Tenant → IOWorld σ → Prop} {A : IOWorld σ → Prop}
    {api : σ} {tr : List IOEvent}
    (h : ∀ (res : Except ApiError Tenant) (api1 : σ),
      Q res ⟨api1, tr ++ [.StatusUpdate t res]⟩) :
    wp (clientStatusUpdate e t) Q A ⟨api, tr⟩ := by
  unfold wp
  exact h _ _

theorem wp_setConditionM {e : Env σ} {t : Tenant} {tc : TenantConditionType}
    {v : ConditionStatus} {msg : String}
    {Q : Tenant → IOWorld σ → Prop} {A : IOWorld σ → Prop} {w : IOWorld σ}
    (h : ∀ now : Time, Q (setCondition now t tc v msg) w) :
    wp (setConditionM e t tc v msg) Q A w := by
  unfold wp
  exact h _

theorem wp_srcInt63 {e : Env σ} {Q : Nat → IOWorld σ → Prop} {A : IOWorld σ → Prop}
    {api : σ} {tr : List IOEvent} (h : ∀ (x : Nat) (api1 : σ), Q x ⟨api1, tr⟩) :
    wp (srcInt63 e) Q A ⟨api, tr⟩ := by
  unfold wp
  exact h _ _

/-- Code of a step function run inside `Reconcile`. -/
theorem wp_lift {m : M σ α} {Q : α → World σ → Prop} {A : World σ → Prop}
    {api : σ} {tr : List Event}
    (h : wp m (fun a w1 => Q a ⟨w1.api, tr ++ w1.trace.map Event.io⟩)
      (fun w1 => A ⟨w1.api, tr ++ w1.trace.map Event.io⟩) ⟨api, []⟩) :
    wp (lift m) Q A ⟨api, tr⟩ := by
  unfold wp at h ⊢
  unfold lift
  rcases hm : m ⟨api, []⟩ with ⟨r, w1⟩
  rw [hm] at h
  cases r <;> simpa using h

/-- Code of a step function run inside `Reconcile`, whatever it does. -/
theorem wp_lift_any {m : M σ α} {Q : α → World σ → Prop} {A : World σ → Prop}
    {api : σ} {tr : List Event}
    (hQ : ∀ (a : α) (evs : List IOEvent) (api1 : σ), Q a ⟨api1, tr ++ evs.map Event.io⟩)
    (hA : ∀ (evs : List IOEvent) (api1 : σ), A ⟨api1, tr ++ evs.map Event.io⟩) :
    wp (lift m) Q A ⟨api, tr⟩ := by
  apply wp_lift
  unfold wp
  rcases m ⟨api, []⟩ with ⟨r, w1⟩
  cases r with
  | ok a => exact hQ a w1.trace w1.api
  | panic p => exact hA w1.trace w1.api
  | diverge => exact hA w1.trace w1.api

/-- A call of a step function, by what the function does. -/
theorem wp_step {s : Step} {t : Tenant} {errOf : α → Option GoError} {m : M σ α}
    {Q : α → World σ → Prop} {A : World σ → Prop} {api : σ} {tr : List Event}
    (h : wp m
      (fun a w1 => Q a ⟨w1.api,
        tr ++ (.enter s t :: w1.trace.map Event.io ++ [.leave s (errOf a)])⟩)
      (fun w1 => A ⟨w1.api, tr ++ (.enter s t :: w1.trace.map Event.io)⟩) ⟨api, []⟩) :
    wp (step s t errOf m) Q A ⟨api, tr⟩ := by
  unfold wp at h ⊢
  unfold step
  simp only [bind, St.bind, mark, lift, pure]
  rcases hm : m ⟨api, []⟩ with ⟨r, w1⟩
  rw [hm] at h
  cases r <;> simpa using h

/-- A call of a step function that returns a pair, whatever the function
does. -/
theorem wp_step_pair {s : Step} {t : Tenant} {m : M σ (β × Option GoError)}
    {Q : β × Option GoError → World σ → Prop} {A : World σ → Prop}
    {api : σ} {tr : List Event}
    (hQ : ∀ (b : β) (c : Option GoError) (evs : List IOEvent) (api1 : σ),
      Q (b, c) ⟨api1, tr ++ (.enter s t :: evs.map Event.io ++ [.leave s c])⟩)
    (hA : ∀ (evs : List IOEvent) (api1 : σ),
      A ⟨api1, tr ++ (.enter s t :: evs.map Event.io)⟩) :
    wp (step s t Prod.snd m) Q A ⟨api, tr⟩ := by
  apply wp_step
  unfold wp
  rcases m ⟨api, []⟩ with ⟨r, w1⟩
  cases r with
  | ok a => exact hQ a.1 a.2 w1.trace w1.api
  | panic p => exact hA w1.trace w1.api
  | diverge => exact hA w1.trace w1.api

/-- A call of a step function that returns a pair, whatever the function
does, by whether it returns an error. -/
theorem wp_step_cases (s : Step) {t : Tenant} {m : M σ (β × Option GoError)}
    {Q : β × Option GoError → World σ → Prop} {A : World σ → Prop}
    {api : σ} {tr : List Event}
    (hNone : ∀ (b : β) (evs : List IOEvent) (api1 : σ),
      Q (b, none) ⟨api1, tr ++ (.enter s t :: evs.map Event.io ++ [.leave s none])⟩)
    (hSome : ∀ (b : β) (err : GoError) (evs : List IOEvent) (api1 : σ),
      Q (b, some err)
        ⟨api1, tr ++ (.enter s t :: evs.map Event.io ++ [.leave s (some err)])⟩)
    (hA : ∀ (evs : List IOEvent) (api1 : σ),
      A ⟨api1, tr ++ (.enter s t :: evs.map Event.io)⟩) :
    wp (step s t Prod.snd m) Q A ⟨api, tr⟩ := by
  apply wp_step_pair
  · intro b c evs api1
    cases c with
    | none => exact hNone b evs api1
    | some err => exact hSome b err evs api1
  · exact hA

/-- The bookkeeping after a step, whatever the report does. -/
theorem wp_noteFailure {last err : Option GoError} {report : GoError → M σ Unit}
    {Q : Option GoError → World σ → Prop} {A : World σ → Prop} {api : σ} {tr : List Event}
    (hQ : ∀ (evs : List IOEvent) (api1 : σ),
      Q (keepLast last err) ⟨api1, tr ++ evs.map Event.io⟩)
    (hA : ∀ (evs : List IOEvent) (api1 : σ), A ⟨api1, tr ++ evs.map Event.io⟩) :
    wp (noteFailure last err report) Q A ⟨api, tr⟩ := by
  unfold noteFailure
  cases err with
  | none =>
    apply wp_pure
    simpa using hQ [] api
  | some x =>
    apply wp_bind
    apply wp_lift_any
    · intro _ evs api1
      apply wp_pure
      exact hQ evs api1
    · exact hA

end Rules

/-! ## The last failure -/

section Failures

@[simp] theorem keepLast_none (a : Option GoError) : keepLast a none = a := rfl

@[simp] theorem keepLast_some (a : Option GoError) (x : GoError) :
    keepLast a (some x) = some x := rfl

@[simp] theorem keepLast_none_left (a : Option GoError) : keepLast none a = a := by
  cases a <;> rfl

@[simp] theorem keepLast_assoc (a b c : Option GoError) :
    keepLast a (keepLast b c) = keepLast (keepLast a b) c := by
  cases c <;> rfl

theorem keepLast_eq_none {a b : Option GoError} : keepLast a b = none ↔ a = none ∧ b = none := by
  cases b <;> simp [keepLast]

theorem foldl_keepLast_eq_none (log : List (Step × Option GoError)) (init : Option GoError) :
    log.foldl (fun last x => keepLast last x.2) init = none ↔
      init = none ∧ ∀ x ∈ log, x.2 = none := by
  induction log generalizing init with
  | nil => simp
  | cons y ys ih =>
    simp only [List.foldl_cons, ih, keepLast_eq_none, List.mem_cons, forall_eq_or_imp]
    tauto

/-- No step failed if and only if there is no last failure. -/
theorem lastFailure_eq_none (log : List (Step × Option GoError)) :
    lastFailure log = none ↔ ∀ x ∈ log, x.2 = none := by
  simp [lastFailure, foldl_keepLast_eq_none]

end Failures

/-! ## Projections of traces -/

section Traces

@[simp] theorem stepLog_nil : stepLog [] = [] := rfl

@[simp] theorem stepLog_leave (s : Step) (err : Option GoError) (evs : List Event) :
    stepLog (.leave s err :: evs) = (s, err) :: stepLog evs := rfl

@[simp] theorem stepLog_enter (s : Step) (t : Tenant) (evs : List Event) :
    stepLog (.enter s t :: evs) = stepLog evs := rfl

@[simp] theorem stepLog_io (ev : IOEvent) (evs : List Event) :
    stepLog (.io ev :: evs) = stepLog evs := rfl

@[simp] theorem stepLog_append (a b : List Event) : stepLog (a ++ b) = stepLog a ++ stepLog b := by
  induction a with
  | nil => rfl
  | cons x xs ih => cases x <;> simp [ih]

@[simp] theorem stepLog_map_io (l : List IOEvent) : stepLog (l.map Event.io) = [] := by
  induction l with
  | nil => rfl
  | cons x xs ih => simpa using ih

@[simp] theorem calls_nil : calls [] = [] := rfl

@[simp] theorem calls_enter (s : Step) (t : Tenant) (evs : List Event) :
    calls (.enter s t :: evs) = (s, t) :: calls evs := rfl

@[simp] theorem calls_leave (s : Step) (err : Option GoError) (evs : List Event) :
    calls (.leave s err :: evs) = calls evs := rfl

@[simp] theorem calls_io (ev : IOEvent) (evs : List Event) :
    calls (.io ev :: evs) = calls evs := rfl

@[simp] theorem calls_append (a b : List Event) : calls (a ++ b) = calls a ++ calls b := by
  induction a with
  | nil => rfl
  | cons x xs ih => cases x <;> simp [ih]

@[simp] theorem calls_map_io (l : List IOEvent) : calls (l.map Event.io) = [] := by
  induction l with
  | nil => rfl
  | cons x xs ih => simpa using ih

@[simp] theorem entered_nil : entered [] = [] := rfl

@[simp] theorem entered_enter (s : Step) (t : Tenant) (evs : List Event) :
    entered (.enter s t :: evs) = s :: entered evs := rfl

@[simp] theorem entered_leave (s : Step) (err : Option GoError) (evs : List Event) :
    entered (.leave s err :: evs) = entered evs := rfl

@[simp] theorem entered_io (ev : IOEvent) (evs : List Event) :
    entered (.io ev :: evs) = entered evs := rfl

@[simp] theorem entered_append (a b : List Event) : entered (a ++ b) = entered a ++ entered b := by
  simp [entered]

@[simp] theorem entered_map_io (l : List IOEvent) : entered (l.map Event.io) = [] := by
  simp [entered]

@[simp] theorem ioLog_nil : ioLog [] = [] := rfl

@[simp] theorem ioLog_io (ev : IOEvent) (evs : List Event) :
    ioLog (.io ev :: evs) = ev :: ioLog evs := rfl

@[simp] theorem ioLog_enter (s : Step) (t : Tenant) (evs : List Event) :
    ioLog (.enter s t :: evs) = ioLog evs := rfl

@[simp] theorem ioLog_leave (s : Step) (err : Option GoError) (evs : List Event) :
    ioLog (.leave s err :: evs) = ioLog evs := rfl

@[simp] theorem ioLog_append (a b : List Event) : ioLog (a ++ b) = ioLog a ++ ioLog b := by
  induction a with
  | nil => rfl
  | cons x xs ih => cases x <;> simp [ih]

@[simp] theorem ioLog_map_io (l : List IOEvent) : ioLog (l.map Event.io) = l := by
  induction l with
  | nil => rfl
  | cons x xs ih => simpa using ih

@[simp] theorem lastFailure_nil : lastFailure [] = none := rfl

@[simp] theorem lastFailure_singleton (s : Step) (err : Option GoError) :
    lastFailure [(s, err)] = err := by
  cases err <;> rfl

theorem foldl_keepLast (log : List (Step × Option GoError)) (init : Option GoError) :
    log.foldl (fun last x => keepLast last x.2) init
      = keepLast init (log.foldl (fun last x => keepLast last x.2) none) := by
  induction log generalizing init with
  | nil => rfl
  | cons y ys ih =>
    simp only [List.foldl_cons, keepLast_none_left]
    rw [ih (keepLast init y.2), ih y.2, keepLast_assoc]

@[simp] theorem lastFailure_cons (s : Step) (err : Option GoError)
    (log : List (Step × Option GoError)) :
    lastFailure ((s, err) :: log) = keepLast err (lastFailure log) := by
  simp only [lastFailure, List.foldl_cons, keepLast_none_left]
  exact foldl_keepLast log err

theorem lastFailure_append_singleton (log : List (Step × Option GoError)) (s : Step)
    (err : Option GoError) :
    lastFailure (log ++ [(s, err)]) = keepLast (lastFailure log) err := by
  simp [lastFailure, List.foldl_append]

end Traces


theorem Post.intro {p : Prop} (h : p) : Post p := by
  unfold Post
  exact h

theorem Post.elim {p : Prop} (h : Post p) : p := by
  unfold Post at h
  exact h


/-! ## Rules for conditions on calls and step logs -/

section LogRules

variable {σ α β : Type}

theorem wp_mono {S : Type} {m : St S α} {Q1 Q2 : α → S → Prop} {A1 A2 : S → Prop} {s : S}
    (h : wp m Q1 A1 s) (hQ : ∀ a s1, Q1 a s1 → Q2 a s1) (hA : ∀ s1, A1 s1 → A2 s1) :
    wp m Q2 A2 s := by
  unfold wp at h ⊢
  rcases hm : m s with ⟨r, s1⟩
  rw [hm] at h
  cases r with
  | ok a => exact hQ a s1 h
  | panic p => exact hA s1 h
  | diverge => exact hA s1 h

theorem wpL_pure {Q : α → List (Step × Tenant) → List (Step × Option GoError) → Prop}
    {A : List (Step × Tenant) → List (Step × Option GoError) → Prop}
    {a : α} {cl : List (Step × Tenant)} {log : List (Step × Option GoError)}
    (h : Q a cl log) : wpL (pure a : R σ α) Q A cl log := by
  unfold wpL
  intro api tr h1 h2
  apply wp_pure
  simpa [h1, h2] using h

theorem wpL_bind {m : R σ α} {f : α → R σ β}
    {Q : β → List (Step × Tenant) → List (Step × Option GoError) → Prop}
    {A : List (Step × Tenant) → List (Step × Option GoError) → Prop}
    {cl : List (Step × Tenant)} {log : List (Step × Option GoError)}
    (h : wpL m (fun a cl1 log1 => wpL (f a) Q A cl1 log1) A cl log) :
    wpL (m >>= f) Q A cl log := by
  unfold wpL at h ⊢
  intro api tr h1 h2
  apply wp_bind
  refine wp_mono (h api tr h1 h2) ?_ (fun _ hA => hA)
  intro a w hw
  exact hw w.api w.trace rfl rfl

theorem wpL_ite {c : Prop} [Decidable c] {m1 m2 : R σ α}
    {Q : α → List (Step × Tenant) → List (Step × Option GoError) → Prop}
    {A : List (Step × Tenant) → List (Step × Option GoError) → Prop}
    {cl : List (Step × Tenant)} {log : List (Step × Option GoError)}
    (h1 : c → wpL m1 Q A cl log) (h2 : ¬ c → wpL m2 Q A cl log) :
    wpL (if c then m1 else m2) Q A cl log := by
  by_cases hc : c
  · rw [if_pos hc]; exact h1 hc
  · rw [if_neg hc]; exact h2 hc

/-- Code of a step function run inside `Reconcile` leaves calls and step log
as they are. -/
theorem wpL_lift {m : M σ α}
    {Q : α → List (Step × Tenant) → List (Step × Option GoError) → Prop}
    {A : List (Step × Tenant) → List (Step × Option GoError) → Prop}
    {cl : List (Step × Tenant)} {log : List (Step × Option GoError)}
    (hQ : ∀ a, Q a cl log) (hA : A cl log) : wpL (lift m) Q A cl log := by
  unfold wpL
  intro api tr h1 h2
  apply wp_lift_any
  · intro a evs api1
    simpa [h1, h2] using hQ a
  · intro evs api1
    simpa [h1, h2] using hA

theorem wpL_lift_setConditionM {e : Env σ} {t : Tenant} {tc : TenantConditionType}
    {v : ConditionStatus} {msg : String}
    {Q : Tenant → List (Step × Tenant) → List (Step × Option GoError) → Prop}
    {A : List (Step × Tenant) → List (Step × Option GoError) → Prop}
    {cl : List (Step × Tenant)} {log : List (Step × Option GoError)}
    (hQ : ∀ now : Time, Q (setCondition now t tc v msg) cl log) :
    wpL (lift (setConditionM e t tc v msg)) Q A cl log := by
  unfold wpL
  intro api tr h1 h2
  apply wp_lift
  apply wp_setConditionM
  intro now
  simpa [h1, h2] using hQ now

/-- A call of a step function adds one call and, when it returns, one entry
of the step log. -/
theorem wpL_step {s : Step} {t : Tenant} {m : M σ (β × Option GoError)}
    {Q : β × Option GoError → List (Step × Tenant) → List (Step × Option GoError) → Prop}
    {A : List (Step × Tenant) → List (Step × Option GoError) → Prop}
    {cl : List (Step × Tenant)} {log : List (Step × Option GoError)}
    (hQ : ∀ (b : β) (c : Option GoError), Q (b, c) (cl ++ [(s, t)]) (log ++ [(s, c)]))
    (hA : A (cl ++ [(s, t)]) log) :
    wpL (step s t Prod.snd m) Q A cl log := by
  unfold wpL
  intro api tr h1 h2
  apply wp_step_pair
  · intro b c evs api1
    simpa [h1, h2] using hQ b c
  · intro evs api1
    simpa [h1, h2] using hA

/-- A call of a step function, by whether it returns an error. -/
theorem wpL_step_cases (s : Step) {t : Tenant} {m : M σ (β × Option GoError)}
    {Q : β × Option GoError → List (Step × Tenant) → List (Step × Option GoError) → Prop}
    {A : List (Step × Tenant) → List (Step × Option GoError) → Prop}
    {cl : List (Step × Tenant)} {log : List (Step × Option GoError)}
    (hNone : ∀ (b : β), Q (b, none) (cl ++ [(s, t)]) (log ++ [(s, none)]))
    (hSome : ∀ (b : β) (err : GoError),
      Q (b, some err) (cl ++ [(s, t)]) (log ++ [(s, some err)]))
    (hA : A (cl ++ [(s, t)]) log) :
    wpL (step s t Prod.snd m) Q A cl log := by
  apply wpL_step
  · intro b c
    cases c with
    | none => exact hNone b
    | some err => exact hSome b err
  · exact hA

theorem wpL_noteFailure {last err : Option GoError} {report : GoError → M σ Unit}
    {Q : Option GoError → List (Step × Tenant) → List (Step × Option GoError) → Prop}
    {A : List (Step × Tenant) → List (Step × Option GoError) → Prop}
    {cl : List (Step × Tenant)} {log : List (Step × Option GoError)}
    (hQ : Q (keepLast last err) cl log) (hA : A cl log) :
    wpL (noteFailure last err report) Q A cl log := by
  unfold wpL
  intro api tr h1 h2
  apply wp_noteFailure
  · intro evs api1
    simpa [h1, h2] using hQ
  · intro evs api1
    simpa [h1, h2] using hA

/-- From a condition on calls and step logs to a run that starts on
interactions only. -/
theorem wpL_run {m : R σ α}
    {Q : α → List (Step × Tenant) → List (Step × Option GoError) → Prop}
    {A : List (Step × Tenant) → List (Step × Option GoError) → Prop}
    (h : wpL m Q A [] []) (api : σ) (evs : List IOEvent) :
    match (m ⟨api, evs.map Event.io⟩).1 with
    | .ok a => Q a (calls (m ⟨api, evs.map Event.io⟩).2.trace)
        (stepLog (m ⟨api, evs.map Event.io⟩).2.trace)
    | .panic _ => A (calls (m ⟨api, evs.map Event.io⟩).2.trace)
        (stepLog (m ⟨api, evs.map Event.io⟩).2.trace)
    | .diverge => A (calls (m ⟨api, evs.map Event.io⟩).2.trace)
        (stepLog (m ⟨api, evs.map Event.io⟩).2.trace) := by
  unfold wpL at h
  have h1 := h api (evs.map Event.io) (by simp) (by simp)
  unfold wp at h1
  rcases hm : m ⟨api, evs.map Event.io⟩ with ⟨r, w⟩
  rw [hm] at h1
  cases r <;> exact h1

end LogRules

/-! ## The part of `Reconcile` before the ensure steps -/

section Prefix

variable {σ : Type}

/-- A pass either continues as `reconcileEnsure` on a trace that holds
interactions only, or it calls no step function but `ensureDeleted` and does
not end with the slow requeue interval. -/
theorem Reconcile_cases (fuel : Nat) (e : Env σ) (r : Reconciler) (request : String) (s : σ) :
    (∃ (t : Tenant) (api : σ) (evs : List IOEvent),
      runReconcile fuel e r request s = reconcileEnsure fuel e r t ⟨api, evs.map Event.io⟩)
    ∨ ((∀ x ∈ stepLog (runReconcile fuel e r request s).2.trace, x.1 = Step.ensureDeleted)
      ∧ (∀ x ∈ entered (runReconcile fuel e r request s).2.trace, x = Step.ensureDeleted)
      ∧ (∀ out, (runReconcile fuel e r request s).1 = .ok out →
          out.1.RequeueAfter ≠ requeueSlow)) := by
  unfold runReconcile Reconcile
  rcases hg : e.get .Tenant "" request s with ⟨res, s1⟩
  simp only [bind, St.bind, lift, clientGet, hg, List.nil_append, List.map_cons, List.map_nil]
  cases res with
  | error err =>
    right
    by_cases hnf : err.notFound = true <;>
      simp [hnf, bind, St.bind, lift, logPrintf, record, pure, requeueSlow, Minute, Second]
  | ok t =>
    simp only []
    by_cases hdel : t.DeletionTimestamp ≠ none
    · right
      rw [if_pos hdel]
      rcases hd : ensureDeleted e t ⟨s1, []⟩ with ⟨rd, wd⟩
      simp only [bind, St.bind, lift, logPrintf, record, step, mark, pure, hd]
      cases rd with
      | panic p => simp
      | diverge => simp
      | ok a =>
        rcases a with ⟨deleted, err⟩
        cases err with
        | some x => simp [requeueSlow, Minute, Second]
        | none =>
          cases deleted with
          | false => simp [requeueSlow, requeueFast, Minute, Second]
          | true =>
            by_cases hc : containsString t.Finalizers finalizer = true
            · rcases hu : e.update .Tenant
                { t with Finalizers := stringsDelete t.Finalizers finalizer } wd.api
                with ⟨ures, s2⟩
              cases ures <;>
                simp [hc, hu, bind, St.bind, lift, logPrintf, record, pure, clientUpdate,
                  requeueSlow, Minute, Second]
            · simp [hc, bind, St.bind, lift, logPrintf, record, pure, requeueSlow, Minute,
                Second]
    · rw [if_neg hdel]
      by_cases hfin : (!containsString t.Finalizers finalizer) = true
      · rw [if_pos hfin]
        rcases hu : e.update .Tenant { t with Finalizers := t.Finalizers ++ [finalizer] } s1
          with ⟨ures, s2⟩
        simp only [bind, St.bind, lift, logPrintf, record, clientUpdate, hu, List.nil_append,
          List.map_cons, List.map_nil, List.cons_append]
        cases ures with
        | error err =>
          right
          simp [pure, requeueSlow, Minute, Second]
        | ok t2 =>
          left
          exact ⟨t2, s2, [.Get .Tenant "" request (.ok t),
            .Log ("Adding finalizer to tenant " ++ t.Name),
            .Update .Tenant { t with Finalizers := t.Finalizers ++ [finalizer] } (.ok t2)], rfl⟩
      · rw [if_neg hfin]
        left
        exact ⟨t, s1, [.Get .Tenant "" request (.ok t)], rfl⟩

end Prefix

/-! ## The ensure steps -/

section Ensure

variable {σ : Type}

theorem logOf_append (steps : List Step) (a b : List (Step × Option GoError)) :
    logOf steps (a ++ b) = logOf steps a ++ logOf steps b := by
  simp [logOf]

theorem logOf_nil (steps : List Step) : logOf steps [] = [] := rfl

theorem logOf_singleton (steps : List Step) (s : Step) (err : Option GoError) :
    logOf steps [(s, err)] = if s ∈ steps then [(s, err)] else [] := by
  by_cases h : s ∈ steps <;> simp [logOf, h]

set_option maxHeartbeats 1000000 in
set_option maxRecDepth 100000 in
/-- What `reconcileEnsure` returns, by its step log. -/
theorem reconcileEnsure_result (fuel : Nat) (e : Env σ) (r : Reconciler) (t : Tenant) :
    wpL (reconcileEnsure fuel e r t)
      (fun out cl log => Post (
        (∀ err, log.getLast? = some (Step.updateTenantStatus, some err) →
          (Step.collectRobots, none) ∈ log → out = ({}, some err))
        ∧ (log.getLast? = some (Step.updateTenantStatus, none) →
            (Step.collectRobots, none) ∈ log →
            out.2 = lastFailure (logOf ensureSteps log)
              ∧ out.1 = (if out.2 = none then { RequeueAfter := requeueSlow } else {}))
        ∧ (out.1.RequeueAfter = requeueSlow →
            lastFailure log = none ∧ log.getLast? = some (Step.updateTenantStatus, none))
        ∧ (lastFailure log = none → log.getLast? = some (Step.updateTenantStatus, none) →
            out = ({ RequeueAfter := requeueSlow }, none))))
      (fun _ log => Post (log.getLast?.map Prod.fst ≠ some Step.updateTenantStatus))
      [] [] := by
  unfold reconcileEnsure
  repeat' (first
    | with_reducible apply wpL_step_cases Step.ensureNamespace
    | with_reducible apply wpL_step_cases Step.collectTenantNamespaces
    | with_reducible apply wpL_step_cases Step.collectRobots
    | with_reducible apply wpL_step_cases Step.updateTenantStatus
    | with_reducible apply wpL_step
    | with_reducible apply wpL_noteFailure
    | with_reducible apply wpL_lift_setConditionM
    | with_reducible apply wpL_lift
    | with_reducible apply wpL_pure
    | with_reducible apply wpL_bind
    | with_reducible apply wpL_ite
    | intro _
    | (show wpL _ _ _ _ _; split))
  all_goals
    apply Post.intro
    try simp only [logOf_append, logOf_singleton, logOf_nil, ensureSteps, List.mem_cons,
      List.mem_singleton, List.not_mem_nil, List.append_nil, reduceCtorEq, or_false, false_or,
      true_or, or_true, if_true, if_false, List.nil_append]
    try simp only [lastFailure_append_singleton, lastFailure_singleton, lastFailure_nil,
      keepLast_none, keepLast_some, keepLast_none_left, List.getLast?_concat,
      List.getLast?_singleton, List.getLast?_nil, List.nil_append]
    try (simp_all [requeueSlow, requeueFast, Minute, Second])

end Ensure

section Conditions

theorem updateCondition_Type (now : Time) (c : TenantCondition) (v : ConditionStatus)
    (msg : String) : (updateCondition now c v msg).Type_ = c.Type_ := by
  unfold updateCondition
  by_cases h1 : c.Status = v <;> by_cases h2 : c.Message = msg <;> simp [h1, h2]

theorem updateCondition_Status (now : Time) (c : TenantCondition) (v : ConditionStatus)
    (msg : String) : (updateCondition now c v msg).Status = v := rfl

theorem updateCondition_Message (now : Time) (c : TenantCondition) (v : ConditionStatus)
    (msg : String) : (updateCondition now c v msg).Message = msg := rfl

theorem find_setConditionIn_same (now : Time) (tc : TenantConditionType) (v : ConditionStatus)
    (msg : String) (cs : List TenantCondition) :
    ((setConditionIn now tc v msg cs).find? (fun c => c.Type_ = tc)).map
      (fun c => (c.Status, c.Message)) = some (v, msg) := by
  induction cs with
  | nil => simp [setConditionIn]
  | cons c cs ih =>
    by_cases h : c.Type_ = tc
    · have h3 : (updateCondition now c v msg).Type_ = tc := by rw [updateCondition_Type]; exact h
      simp only [setConditionIn, h, ne_eq, not_true_eq_false, if_false, List.find?_cons, h3,
        decide_True, Option.map_some', updateCondition_Status, updateCondition_Message]
    · simpa [setConditionIn, h, List.find?_cons] using ih

theorem find_setConditionIn_other (now : Time) (tc tc1 : TenantConditionType)
    (v : ConditionStatus) (msg : String) (cs : List TenantCondition) (hne : tc1 ≠ tc) :
    (setConditionIn now tc v msg cs).find? (fun c => c.Type_ = tc1)
      = cs.find? (fun c => c.Type_ = tc1) := by
  induction cs with
  | nil => simp [setConditionIn, Ne.symm hne]
  | cons c cs ih =>
    by_cases h : c.Type_ = tc
    · have h1 : ¬ c.Type_ = tc1 := fun h2 => hne (h2.symm.trans h)
      have h3 : ¬ (updateCondition now c v msg).Type_ = tc1 := by
        rw [updateCondition_Type]; exact h1
      have h4 : setConditionIn now tc v msg (c :: cs) = updateCondition now c v msg :: cs := by
        simp [setConditionIn, h]
      rw [h4, List.find?_cons, List.find?_cons]
      simp only [h3, h1, decide_False]
    · have h4 : setConditionIn now tc v msg (c :: cs) = c :: setConditionIn now tc v msg cs := by
        simp [setConditionIn, h]
      rw [h4, List.find?_cons, List.find?_cons, ih]

/-- After `setCondition` the condition of that type has the status and the
message given. -/
theorem conditionOf_setCondition_same (now : Time) (t : Tenant) (tc : TenantConditionType)
    (v : ConditionStatus) (msg : String) :
    conditionOf (setCondition now t tc v msg) tc = some (v, msg) := by
  simp only [conditionOf, setCondition]
  exact find_setConditionIn_same now tc v msg t.Status.Conditions

/-- Go `setCondition` leaves the conditions of the other types as they are. -/
theorem conditionOf_setCondition_other (now : Time) (t : Tenant) (tc tc1 : TenantConditionType)
    (v : ConditionStatus) (msg : String) (hne : tc1 ≠ tc) :
    conditionOf (setCondition now t tc v msg) tc1 = conditionOf t tc1 := by
  simp only [conditionOf, setCondition]
  rw [find_setConditionIn_other now tc tc1 v msg t.Status.Conditions hne]

end Conditions

section Ensure2

variable {σ : Type}

set_option maxHeartbeats 1000000 in
set_option maxRecDepth 100000 in
/-- The order of the calls of `reconcileEnsure`. -/
theorem reconcileEnsure_order (fuel : Nat) (e : Env σ) (r : Reconciler) (t : Tenant) :
    wpL (reconcileEnsure fuel e r t)
      (fun _ cl log => Post ((Step.collectRobots, none) ∈ log →
        (cl.map Prod.fst).take 7 = [.ensureNamespace, .collectTenantNamespaces, .collectRobots,
          .ensureServiceAccount, .ensurePermissions, .ensureRobotSetupConfig, .ensurePullSecret]
        ∧ (∀ s ∈ (cl.map Prod.fst).drop 7,
            s ∈ [Step.ensureDNS, .ensureCertificate, .ensureGateway, .updateTenantStatus])
        ∧ (r.tenantSpecificGateways = true →
            ((cl.map Prod.fst).drop 7).head? = some Step.ensureDNS)))
      (fun _ _ => True)
      [] [] := by
  unfold reconcileEnsure
  repeat' (first
    | with_reducible apply wpL_step_cases Step.ensureNamespace
    | with_reducible apply wpL_step_cases Step.collectTenantNamespaces
    | with_reducible apply wpL_step_cases Step.collectRobots
    | with_reducible apply wpL_step
    | with_reducible apply wpL_noteFailure
    | with_reducible apply wpL_lift_setConditionM
    | with_reducible apply wpL_lift
    | with_reducible apply wpL_pure
    | with_reducible apply wpL_bind
    | with_reducible apply wpL_ite
    | intro _
    | exact True.intro
    | (show wpL _ _ _ _ _; split))
  all_goals
    apply Post.intro
    simp only [List.map_append, List.map_cons, List.map_nil, List.nil_append, List.cons_append,
      List.append_assoc]
    try (simp_all)

set_option maxHeartbeats 1000000 in
set_option maxRecDepth 100000 in
/-- The chain of the DNS entry, the certificate and the gateway in
`reconcileEnsure`. -/
theorem reconcileEnsure_gateways (fuel : Nat) (e : Env σ) (r : Reconciler) (t : Tenant) :
    wpL (reconcileEnsure fuel e r t)
      (fun _ cl log => Post (
        (∀ err, (Step.ensureDNS, some err) ∈ log →
          Step.ensureCertificate ∉ cl.map Prod.fst ∧ Step.ensureGateway ∉ cl.map Prod.fst
          ∧ (∃ t1, (Step.updateTenantStatus, t1) ∈ cl)
          ∧ ∀ t1, (Step.updateTenantStatus, t1) ∈ cl →
              conditionOf t1 TenantConditionCertificate
                = some (ConditionFalse, "No DNS record for the tenant created")
              ∧ conditionOf t1 TenantConditionGateway = some (ConditionFalse,
                  "No DNS record and/or TLS certificate for the tenant created"))
        ∧ (∀ err, (Step.ensureDNS, none) ∈ log → (Step.ensureCertificate, some err) ∈ log →
            Step.ensureGateway ∉ cl.map Prod.fst
            ∧ (∃ t1, (Step.updateTenantStatus, t1) ∈ cl)
            ∧ ∀ t1, (Step.updateTenantStatus, t1) ∈ cl →
                conditionOf t1 TenantConditionGateway = some (ConditionFalse,
                  "No DNS record and/or TLS certificate for the tenant created"))
        ∧ (Step.ensureGateway ∈ cl.map Prod.fst →
            (Step.ensureDNS, none) ∈ log ∧ (Step.ensureCertificate, none) ∈ log)))
      (fun cl log => Post (
        (∀ err, (Step.ensureDNS, some err) ∈ log →
          Step.ensureCertificate ∉ cl.map Prod.fst ∧ Step.ensureGateway ∉ cl.map Prod.fst)
        ∧ (∀ err, (Step.ensureDNS, none) ∈ log → (Step.ensureCertificate, some err) ∈ log →
            Step.ensureGateway ∉ cl.map Prod.fst)
        ∧ (Step.ensureGateway ∈ cl.map Prod.fst →
            (Step.ensureDNS, none) ∈ log ∧ (Step.ensureCertificate, none) ∈ log)))
      [] [] := by
  unfold reconcileEnsure
  repeat' (first
    | with_reducible apply wpL_step_cases Step.ensureDNS
    | with_reducible apply wpL_step_cases Step.ensureCertificate
    | with_reducible apply wpL_step
    | with_reducible apply wpL_noteFailure
    | with_reducible apply wpL_lift_setConditionM
    | with_reducible apply wpL_lift
    | with_reducible apply wpL_pure
    | with_reducible apply wpL_bind
    | with_reducible apply wpL_ite
    | intro _
    | (show wpL _ _ _ _ _; split))
  all_goals
    apply Post.intro
    simp only [List.map_append, List.map_cons, List.map_nil, List.nil_append, List.cons_append,
      List.append_assoc]
    try (simp_all [conditionOf_setCondition_same, conditionOf_setCondition_other,
      TenantConditionCertificate, TenantConditionGateway])

end Ensure2

/-! ## Whole passes -/

section Pass

variable {σ : Type}

/-- A condition on calls and step logs that holds for `reconcileEnsure` holds
for a whole pass, if it holds for the passes that call no step function but
`ensureDeleted`. -/
theorem Reconcile_wpL (fuel : Nat) (e : Env σ) (r : Reconciler) (request : String) (s : σ)
    {Q : Result × Option GoError → List (Step × Tenant) → List (Step × Option GoError) → Prop}
    {A : List (Step × Tenant) → List (Step × Option GoError) → Prop}
    (h : ∀ t, wpL (reconcileEnsure fuel e r t) Q A [] [])
    (hQ : ∀ out cl log, (∀ x ∈ log, x.1 = Step.ensureDeleted) →
      (∀ x ∈ cl.map Prod.fst, x = Step.ensureDeleted) →
      out.1.RequeueAfter ≠ requeueSlow → Q out cl log)
    (hA : ∀ cl log, (∀ x ∈ log, x.1 = Step.ensureDeleted) →
      (∀ x ∈ cl.map Prod.fst, x = Step.ensureDeleted) → A cl log) :
    match (runReconcile fuel e r request s).1 with
    | .ok out => Q out (calls (runReconcile fuel e r request s).2.trace)
        (stepLog (runReconcile fuel e r request s).2.trace)
    | .panic _ => A (calls (runReconcile fuel e r request s).2.trace)
        (stepLog (runReconcile fuel e r request s).2.trace)
    | .diverge => A (calls (runReconcile fuel e r request s).2.trace)
        (stepLog (runReconcile fuel e r request s).2.trace) := by
  rcases Reconcile_cases fuel e r request s with ⟨t, api, evs, hrun⟩ | ⟨h1, h2, h3⟩
  · rw [hrun]
    have h0 := wpL_run (h t) api evs
    rcases hm : (reconcileEnsure fuel e r t ⟨api, evs.map Event.io⟩).1 with out | msg | _
    · rw [hm] at h0
      exact h0
    · rw [hm] at h0
      exact h0
    · rw [hm] at h0
      exact h0
  · unfold entered at h2
    rcases hres : (runReconcile fuel e r request s).1 with out | msg | _
    · exact hQ _ _ _ h1 h2 (h3 out hres)
    · exact hA _ _ h1 h2
    · exact hA _ _ h1 h2

theorem getLast?_mem {α : Type} {l : List α} {a : α} (h : l.getLast? = some a) : a ∈ l :=
  List.mem_of_getLast?_eq_some h

end Pass

/-! ## Passes over a tenant in deletion -/

section Deletion

variable {σ : Type}

/-- The five ways `ensureDeleted` ends: listing the AppRollouts fails; there
are AppRollouts, and their deletion is requested; listing the ChartAssignments
fails; there are ChartAssignments; there is neither. -/
theorem ensureDeleted_cases (e : Env σ) (t : Tenant) (s1 : σ) :
    (∃ aerr s2, ensureDeleted e t ⟨s1, []⟩
        = (.ok (false, some (.wrap (.api aerr) ("list AppRollouts of tenant " ++ t.Name))),
           ⟨s2, [.List .AppRollout (some (TenantMainNamespace t.Name)) (.error aerr)]⟩))
    ∨ (∃ (a : List AppRollout) (derr : Option ApiError) (err : Option GoError) (s3 : σ) (msg : String),
        0 < a.length ∧ (derr = none → err = none) ∧ (err = none → derr = none)
        ∧ ensureDeleted e t ⟨s1, []⟩
          = (.ok (false, err),
             ⟨s3, [.List .AppRollout (some (TenantMainNamespace t.Name)) (.ok a), .Log msg,
                   .DeleteAllOf .AppRollout (TenantMainNamespace t.Name) derr]⟩))
    ∨ (∃ aerr s3, ensureDeleted e t ⟨s1, []⟩
        = (.ok (false, some (.wrap (.api aerr) ("list ChartAssignments of tenant " ++ t.Name))),
           ⟨s3, [.List .AppRollout (some (TenantMainNamespace t.Name)) (.ok []),
                 .List .ChartAssignment (some (TenantMainNamespace t.Name)) (.error aerr)]⟩))
    ∨ (∃ (c : List ChartAssignment) (s3 : σ) (msg : String), 0 < c.length
        ∧ ensureDeleted e t ⟨s1, []⟩
          = (.ok (false, none),
             ⟨s3, [.List .AppRollout (some (TenantMainNamespace t.Name)) (.ok []),
                   .List .ChartAssignment (some (TenantMainNamespace t.Name)) (.ok c),
                   .Log msg]⟩))
    ∨ (∃ s3, ensureDeleted e t ⟨s1, []⟩
        = (.ok (true, none),
           ⟨s3, [.List .AppRollout (some (TenantMainNamespace t.Name)) (.ok []),
                 .List .ChartAssignment (some (TenantMainNamespace t.Name)) (.ok [])]⟩)) := by
  unfold ensureDeleted
  rcases hl : e.list .AppRollout (some (TenantMainNamespace t.Name)) s1 with ⟨lres, s2⟩
  cases lres with
  | error aerr =>
    left
    exact ⟨aerr, s2, by simp [bind, St.bind, clientList, hl, pure]⟩
  | ok a =>
    by_cases ha : a.length > 0
    · rcases hd : e.deleteAllOf .AppRollout (TenantMainNamespace t.Name) s2 with ⟨derr, s3⟩
      right; left
      cases derr with
      | none =>
        exact ⟨a, none, none, s3, "Deleting " ++ toString a.length
            ++ " AppRollouts in order to delete tenant " ++ t.Name, ha, fun _ => rfl, fun _ => rfl, by
          simp [bind, St.bind, clientList, hl, ha, logPrintf, record, clientDeleteAllOf, hd, pure]⟩
      | some x =>
        exact ⟨a, some x, some (.wrap (.api x) ("delete AppRollouts of tenant " ++ t.Name)), s3,
          "Deleting " ++ toString a.length ++ " AppRollouts in order to delete tenant " ++ t.Name,
          ha, by simp, by simp, by
          simp [bind, St.bind, clientList, hl, ha, logPrintf, record, clientDeleteAllOf, hd, pure]⟩
    · have ha0 : a = [] := by
        cases a with
        | nil => rfl
        | cons x xs => simp at ha
      subst ha0
      rcases hc : e.list .ChartAssignment (some (TenantMainNamespace t.Name)) s2 with ⟨cres, s3⟩
      cases cres with
      | error aerr =>
        right; right; left
        exact ⟨aerr, s3, by simp [bind, St.bind, clientList, hl, hc, pure]⟩
      | ok c =>
        by_cases hcl : c.length > 0
        · right; right; right; left
          exact ⟨c, s3, "Waiting for " ++ toString c.length
            ++ " ChartAssignments to be deleted for tenant " ++ t.Name, hcl, by
            simp [bind, St.bind, clientList, hl, hc, hcl, logPrintf, record, pure]⟩
        · have hc0 : c = [] := by
            cases c with
            | nil => rfl
            | cons x xs => simp at hcl
          subst hc0
          right; right; right; right
          exact ⟨s3, by simp [bind, St.bind, clientList, hl, hc, pure]⟩

/-- The facts about a pass over a tenant in deletion. -/
theorem Reconcile_deleted (fuel : Nat) (e : Env σ) (r : Reconciler) (request : String) (s : σ)
    (t : Tenant) (hget : (e.get .Tenant "" request s).1 = .ok t)
    (hdel : t.DeletionTimestamp ≠ none) :
    ((∀ ev ∈ ioLog (runReconcile fuel e r request s).2.trace, ev.failed = false) →
      0 < workloadsSeen (ioLog (runReconcile fuel e r request s).2.trace) →
      (runReconcile fuel e r request s).1 = .ok ({ RequeueAfter := requeueFast }, none)
      ∧ tenantUpdates (ioLog (runReconcile fuel e r request s).2.trace) = [])
    ∧ (tenantUpdates (ioLog (runReconcile fuel e r request s).2.trace) ≠ [] →
        workloadsSeen (ioLog (runReconcile fuel e r request s).2.trace) = 0
        ∧ tenantUpdates (ioLog (runReconcile fuel e r request s).2.trace)
          = [{ t with Finalizers := stringsDelete t.Finalizers finalizer }])
    ∧ (0 < ((ioLog (runReconcile fuel e r request s).2.trace).map IOEvent.appRollouts).sum →
        deleteRequests (ioLog (runReconcile fuel e r request s).2.trace)
          = [(Kind.AppRollout, TenantMainNamespace t.Name)])
    ∧ (((ioLog (runReconcile fuel e r request s).2.trace).map IOEvent.appRollouts).sum = 0 →
        deleteRequests (ioLog (runReconcile fuel e r request s).2.trace) = [])
    ∧ (∀ out, (runReconcile fuel e r request s).1 = .ok out →
        out.1.RequeueAfter ≠ requeueSlow) := by
  unfold runReconcile Reconcile
  rcases hg : e.get .Tenant "" request s with ⟨res, s1⟩
  rw [hg] at hget
  simp only at hget
  subst hget
  simp only [bind, St.bind, lift, clientGet, hg, List.nil_append, List.map_cons, List.map_nil]
  rw [if_pos hdel]
  simp only [bind, St.bind, lift, logPrintf, record, step, mark, pure]
  rcases ensureDeleted_cases e t s1 with ⟨aerr, s2, h⟩ | ⟨a, derr, err, s3, msg, ha, hd1, hd2, h⟩
    | ⟨aerr, s3, h⟩ | ⟨c, s3, msg, hc, h⟩ | ⟨s3, h⟩
  · rw [h]
    simp [workloadsSeen, IOEvent.failed, IOEvent.appRollouts, IOEvent.chartAssignments,
      tenantUpdates, deleteRequests, requeueSlow, requeueFast, Minute, Second]
  · rw [h]
    have hne : ¬ a = [] := by
      intro h0
      subst h0
      simp at ha
    cases err with
    | none =>
      have := hd2 rfl
      subst this
      simp [hne, workloadsSeen, IOEvent.failed, IOEvent.appRollouts, IOEvent.chartAssignments,
        tenantUpdates, deleteRequests, requeueSlow, requeueFast, Minute, Second]
    | some x =>
      cases derr with
      | none => exact absurd (hd1 rfl) (by simp)
      | some y =>
        simp [hne, workloadsSeen, IOEvent.failed, IOEvent.appRollouts, IOEvent.chartAssignments,
          tenantUpdates, deleteRequests, requeueSlow, requeueFast, Minute, Second]
  · rw [h]
    simp [workloadsSeen, IOEvent.failed, IOEvent.appRollouts, IOEvent.chartAssignments,
      tenantUpdates, deleteRequests, requeueSlow, requeueFast, Minute, Second]
  · rw [h]
    simp [workloadsSeen, IOEvent.failed, IOEvent.appRollouts, IOEvent.chartAssignments,
      tenantUpdates, deleteRequests, requeueSlow, requeueFast, Minute, Second]
  · rw [h]
    by_cases hcs : containsString t.Finalizers finalizer = true
    · rcases hu : e.update .Tenant
        { t with Finalizers := stringsDelete t.Finalizers finalizer } s3 with ⟨ures, s4⟩
      cases ures <;>
        simp [hcs, hu, bind, St.bind, lift, logPrintf, record, pure, clientUpdate,
          workloadsSeen, IOEvent.failed, IOEvent.appRollouts, IOEvent.chartAssignments,
          tenantUpdates, deleteRequests, requeueSlow, requeueFast, Minute, Second]
    · simp [hcs, bind, St.bind, lift, logPrintf, record, pure,
        workloadsSeen, IOEvent.failed, IOEvent.appRollouts, IOEvent.chartAssignments,
        tenantUpdates, deleteRequests, requeueSlow, requeueFast, Minute, Second]

end Deletion

/-! ## The finalizer -/

section Finalizer

variable {σ : Type}

theorem containsString_iff (l : List String) (x : String) :
    containsString l x = true ↔ x ∈ l := by
  induction l with
  | nil => simp [containsString]
  | cons y ys ih =>
    by_cases h : y = x
    · simp [containsString, h]
    · have h1 : ¬ x = y := fun h2 => h h2.symm
      simp [containsString, h, h1, ih]

theorem count_append_new (l : List String) (x : String) (h : containsString l x = false) :
    (l ++ [x]).count x = 1 := by
  have h1 : x ∉ l := by
    intro hm
    rw [(containsString_iff l x).2 hm] at h
    exact absurd h (by simp)
  simp [List.count_append, List.count_eq_zero_of_not_mem h1]

/-- The pass over a tenant that is not in deletion, up to the first step
function. -/
theorem Reconcile_not_deleted (fuel : Nat) (e : Env σ) (r : Reconciler) (request : String)
    (s : σ) (t : Tenant) (hget : (e.get .Tenant "" request s).1 = .ok t)
    (hnd : t.DeletionTimestamp = none) :
    (containsString t.Finalizers finalizer = false →
      (∀ aerr, (e.update .Tenant { t with Finalizers := t.Finalizers ++ [finalizer] }
            (e.get .Tenant "" request s).2).1 = .error aerr →
          runReconcile fuel e r request s
            = (.ok ({}, some (.wrap (.api aerr) ("add finalizer to tenant " ++ t.Name))),
               ⟨(e.update .Tenant { t with Finalizers := t.Finalizers ++ [finalizer] }
                  (e.get .Tenant "" request s).2).2,
                [.io (.Get .Tenant "" request (.ok t)),
                 .io (.Log ("Adding finalizer to tenant " ++ t.Name)),
                 .io (.Update .Tenant { t with Finalizers := t.Finalizers ++ [finalizer] }
                   (.error aerr))]⟩))
      ∧ (∀ t2, (e.update .Tenant { t with Finalizers := t.Finalizers ++ [finalizer] }
            (e.get .Tenant "" request s).2).1 = .ok t2 →
          runReconcile fuel e r request s
            = reconcileEnsure fuel e r t2
               ⟨(e.update .Tenant { t with Finalizers := t.Finalizers ++ [finalizer] }
                  (e.get .Tenant "" request s).2).2,
                [.io (.Get .Tenant "" request (.ok t)),
                 .io (.Log ("Adding finalizer to tenant " ++ t.Name)),
                 .io (.Update .Tenant { t with Finalizers := t.Finalizers ++ [finalizer] }
                   (.ok t2))]⟩))
    ∧ (containsString t.Finalizers finalizer = true →
        runReconcile fuel e r request s
          = reconcileEnsure fuel e r t
             ⟨(e.get .Tenant "" request s).2, [.io (.Get .Tenant "" request (.ok t))]⟩) := by
  unfold runReconcile Reconcile
  rcases hg : e.get .Tenant "" request s with ⟨res, s1⟩
  rw [hg] at hget
  simp only at hget
  subst hget
  simp only [bind, St.bind, lift, clientGet, hg, List.nil_append, List.map_cons, List.map_nil]
  have hdel : ¬ t.DeletionTimestamp ≠ none := by simp [hnd]
  rw [if_neg hdel]
  refine ⟨?_, ?_⟩
  · intro hc
    have hfin : (!containsString t.Finalizers finalizer) = true := by simp [hc]
    rw [if_pos hfin]
    rcases hu : e.update .Tenant { t with Finalizers := t.Finalizers ++ [finalizer] } s1
      with ⟨ures, s2⟩
    simp only [bind, St.bind, lift, logPrintf, record, clientUpdate, hu, List.nil_append,
      List.map_cons, List.map_nil, List.cons_append]
    refine ⟨?_, ?_⟩
    · intro aerr ha
      subst ha
      rfl
    · intro t2 ha
      subst ha
      rfl
  · intro hc
    have hfin : ¬ (!containsString t.Finalizers finalizer) = true := by simp [hc]
    rw [if_neg hfin]

end Finalizer

/-! ## Maps, and what two step functions do -/

section Maps

theorem read_mapSet_same (d : List (String × String)) (k v : String) :
    GoMap.read (some (mapSet d k v)) k = v := by
  induction d with
  | nil => simp [mapSet, GoMap.read]
  | cons kv kvs ih =>
    by_cases h : kv.1 = k
    · simp [mapSet, GoMap.read, h]
    · simp only [mapSet, h, if_false]
      simp only [GoMap.read, List.find?_cons] at ih ⊢
      have : (kv.1 == k) = false := by simpa using h
      rw [this]
      exact ih

theorem read_mapSet_other (d : List (String × String)) (k k1 v : String) (hne : k1 ≠ k) :
    GoMap.read (some (mapSet d k v)) k1 = GoMap.read (some d) k1 := by
  induction d with
  | nil =>
    have : (k == k1) = false := by simpa using Ne.symm hne
    simp [mapSet, GoMap.read, List.find?_cons, this]
  | cons kv kvs ih =>
    by_cases h : kv.1 = k
    · have h1 : (kv.1 == k1) = false := by
        rw [h]
        simpa using Ne.symm hne
      have h2 : (k == k1) = false := by simpa using Ne.symm hne
      simp [mapSet, GoMap.read, h, List.find?_cons, h1, h2]
    · simp only [mapSet, h, if_false]
      simp only [GoMap.read, List.find?_cons] at ih ⊢
      cases hk : (kv.1 == k1)
      · simpa using ih
      · rfl

@[simp] theorem configMapWrites_nil : configMapWrites [] = [] := rfl

theorem configMapWrites_append (a b : List IOEvent) :
    configMapWrites (a ++ b) = configMapWrites a ++ configMapWrites b := by
  induction a with
  | nil => rfl
  | cons ev evs ih =>
    cases ev with
    | Create k o res => cases k <;> simp [configMapWrites, ih]
    | Update k o res => cases k <;> simp [configMapWrites, ih]
    | _ => simp [configMapWrites, ih]

end Maps

section Inner

variable {σ : Type}

set_option maxRecDepth 100000 in
/-- Every config map `ensureRobotSetupConfig` asks the store to create or to
update carries, under `tenant_domain`, the tenant domain in the status of the
tenant the function is called on. -/
theorem ensureRobotSetupConfig_writes (e : Env σ) (t : Tenant) (api : σ) :
    wp (ensureRobotSetupConfig e t)
      (fun _ w => ∀ cm ∈ configMapWrites w.trace,
        cm.Data.read "tenant_domain" = t.Status.TenantDomain ∧ cm.Data.read "tenant" = t.Name)
      (fun w => ∀ cm ∈ configMapWrites w.trace,
        cm.Data.read "tenant_domain" = t.Status.TenantDomain ∧ cm.Data.read "tenant" = t.Name)
      ⟨api, []⟩ := by
  unfold ensureRobotSetupConfig
  repeat' (first
    | with_reducible apply wp_pure
    | with_reducible apply wp_goPanic
    | with_reducible apply wp_logPrintf
    | with_reducible apply wp_clientGet
    | with_reducible apply wp_clientCreate
    | with_reducible apply wp_clientUpdate
    | with_reducible apply wp_setConditionM
    | with_reducible apply wp_bind
    | with_reducible apply wp_ite
    | intro _
    | (show wp _ _ _ _; split))
  all_goals
    simp_all [configMapWrites_append, configMapWrites, read_mapSet_same, read_mapSet_other]

set_option maxRecDepth 100000 in
/-- When the loop of `ensurePullSecret` returns a `MissingServiceAccountError`,
the tenant it returns has the PullSecret condition False. -/
theorem ensurePullSecretLoop_missing (e : Env σ) (templateSecret : Secret)
    (namespaces : List String) :
    ∀ (t : Tenant) (api : σ) (tr : List IOEvent),
    wp (ensurePullSecretLoop e templateSecret namespaces t)
      (fun out _ => ∀ err, out.2 = some err → err.isMissingServiceAccountError = true →
        conditionOf out.1 TenantConditionPullSecret
          = some (ConditionFalse, "Missing default service account"))
      (fun _ => True) ⟨api, tr⟩ := by
  induction namespaces with
  | nil =>
    intro t api tr
    simp only [ensurePullSecretLoop]
    repeat' (first
      | with_reducible apply wp_pure
      | with_reducible apply wp_setConditionM
      | with_reducible apply wp_bind
      | intro _)
    all_goals simp_all
  | cons ns rest ih =>
    intro t api tr
    simp only [ensurePullSecretLoop]
    repeat' (first
      | exact ih _ _ _
      | exact True.intro
      | with_reducible apply wp_pure
      | with_reducible apply wp_logPrintf
      | with_reducible apply wp_clientGet
      | with_reducible apply wp_clientCreate
      | with_reducible apply wp_clientUpdate
      | with_reducible apply wp_setConditionM
      | with_reducible apply wp_bind
      | with_reducible apply wp_ite
      | intro _
      | (show wp _ _ _ _; split))
    all_goals
      clear ih
      simp only [Option.some.injEq] at *
      subst_vars
      simp_all [GoError.isMissingServiceAccountError, conditionOf_setCondition_same]

set_option maxRecDepth 100000 in
/-- When `ensurePullSecret` returns a `MissingServiceAccountError`, the tenant
it returns has the PullSecret condition False. -/
theorem ensurePullSecret_missing (e : Env σ) (t : Tenant) (api : σ) (tr : List IOEvent) :
    wp (ensurePullSecret e t)
      (fun out _ => ∀ err, out.2 = some err → err.isMissingServiceAccountError = true →
        conditionOf out.1 TenantConditionPullSecret
          = some (ConditionFalse, "Missing default service account"))
      (fun _ => True) ⟨api, tr⟩ := by
  unfold ensurePullSecret
  repeat' (first
    | exact ensurePullSecretLoop_missing _ _ _ _ _ _
    | exact True.intro
    | with_reducible apply wp_pure
    | with_reducible apply wp_clientGet
    | with_reducible apply wp_setConditionM
    | with_reducible apply wp_bind
    | with_reducible apply wp_ite
    | intro _
    | (show wp _ _ _ _; split))
  all_goals
    simp only [Option.some.injEq] at *
    subst_vars
    simp_all [GoError.isMissingServiceAccountError]

end Inner

/-! ## The last failure of a log with one failure -/

section OneFailure

theorem mem_logOf (steps : List Step) (log : List (Step × Option GoError))
    (x : Step × Option GoError) : x ∈ logOf steps log ↔ x ∈ log ∧ x.1 ∈ steps := by
  simp [logOf, List.mem_filter]

theorem lastFailure_eq_some (log : List (Step × Option GoError)) (err : GoError)
    (hmem : ∃ x ∈ log, x.2 = some err) (hall : ∀ x ∈ log, x.2 = none ∨ x.2 = some err) :
    lastFailure log = some err := by
  induction log using List.reverseRecOn with
  | nil =>
    rcases hmem with ⟨x, hx, _⟩
    exact absurd hx (by simp)
  | append_singleton l a ih =>
    rcases a with ⟨st, e1⟩
    rw [lastFailure_append_singleton]
    cases e1 with
    | some e2 =>
      have h := hall (st, some e2) (by simp)
      simp at h
      subst h
      rfl
    | none =>
      rw [keepLast_none]
      apply ih
      · rcases hmem with ⟨x, hx, hx2⟩
        rcases List.mem_append.1 hx with h | h
        · exact ⟨x, h, hx2⟩
        · simp at h
          subst h
          simp at hx2
      · intro x hx
        exact hall x (List.mem_append_left _ hx)

end OneFailure

/-! ## The claims -/

section Claims

variable {σ : Type}

/-- What a pass that returns returns, by its step log. -/
theorem Reconcile_returns (fuel : Nat) (e : Env σ) (r : Reconciler) (request : String) (s : σ)
    (out : Result × Option GoError) (hout : (runReconcile fuel e r request s).1 = .ok out) :
    (∀ err, (stepLog (runReconcile fuel e r request s).2.trace).getLast?
          = some (Step.updateTenantStatus, some err) →
        (Step.collectRobots, none) ∈ stepLog (runReconcile fuel e r request s).2.trace →
        out = ({}, some err))
    ∧ ((stepLog (runReconcile fuel e r request s).2.trace).getLast?
          = some (Step.updateTenantStatus, none) →
        (Step.collectRobots, none) ∈ stepLog (runReconcile fuel e r request s).2.trace →
        out.2 = lastFailure (logOf ensureSteps (stepLog (runReconcile fuel e r request s).2.trace))
          ∧ out.1 = (if out.2 = none then { RequeueAfter := requeueSlow } else {}))
    ∧ (out.1.RequeueAfter = requeueSlow →
        lastFailure (stepLog (runReconcile fuel e r request s).2.trace) = none
        ∧ (stepLog (runReconcile fuel e r request s).2.trace).getLast?
          = some (Step.updateTenantStatus, none))
    ∧ (lastFailure (stepLog (runReconcile fuel e r request s).2.trace) = none →
        (stepLog (runReconcile fuel e r request s).2.trace).getLast?
          = some (Step.updateTenantStatus, none) →
        out = ({ RequeueAfter := requeueSlow }, none)) := by
  have h := Reconcile_wpL fuel e r request s (reconcileEnsure_result fuel e r)
    (by
      intro out cl log h1 _ h3
      apply Post.intro
      refine ⟨?_, ?_, ?_, ?_⟩
      · intro err hl _
        exact absurd (h1 _ (getLast?_mem hl)) (by simp)
      · intro hl _
        exact absurd (h1 _ (getLast?_mem hl)) (by simp)
      · intro hs
        exact absurd hs h3
      · intro _ hl
        exact absurd (h1 _ (getLast?_mem hl)) (by simp))
    (by
      intro cl log h1 _
      apply Post.intro
      intro hl
      rcases hg : log.getLast? with _ | x
      · simp [hg] at hl
      · have := h1 x (getLast?_mem hg)
        simp [hg] at hl
        rw [this] at hl
        exact absurd hl (by simp))
  rw [hout] at h
  exact Post.elim h

/-- A pass that does not return did not end with a status write that
returned. -/
theorem Reconcile_abnormal (fuel : Nat) (e : Env σ) (r : Reconciler) (request : String) (s : σ)
    (hout : ∀ out, (runReconcile fuel e r request s).1 ≠ .ok out) :
    (stepLog (runReconcile fuel e r request s).2.trace).getLast?.map Prod.fst
      ≠ some Step.updateTenantStatus := by
  have h := Reconcile_wpL fuel e r request s (reconcileEnsure_result fuel e r)
    (Q := fun out cl log => Post (
        (∀ err, log.getLast? = some (Step.updateTenantStatus, some err) →
          (Step.collectRobots, none) ∈ log → out = ({}, some err))
        ∧ (log.getLast? = some (Step.updateTenantStatus, none) →
            (Step.collectRobots, none) ∈ log →
            out.2 = lastFailure (logOf ensureSteps log)
              ∧ out.1 = (if out.2 = none then { RequeueAfter := requeueSlow } else {}))
        ∧ (out.1.RequeueAfter = requeueSlow →
            lastFailure log = none ∧ log.getLast? = some (Step.updateTenantStatus, none))
        ∧ (lastFailure log = none → log.getLast? = some (Step.updateTenantStatus, none) →
            out = ({ RequeueAfter := requeueSlow }, none))))
    (by
      intro out cl log h1 _ h3
      apply Post.intro
      refine ⟨?_, ?_, ?_, ?_⟩
      · intro err hl _
        exact absurd (h1 _ (getLast?_mem hl)) (by simp)
      · intro hl _
        exact absurd (h1 _ (getLast?_mem hl)) (by simp)
      · intro hs
        exact absurd hs h3
      · intro _ hl
        exact absurd (h1 _ (getLast?_mem hl)) (by simp))
    (by
      intro cl log h1 _
      apply Post.intro
      intro hl
      rcases hg : log.getLast? with _ | x
      · simp [hg] at hl
      · have := h1 x (getLast?_mem hg)
        simp [hg] at hl
        rw [this] at hl
        exact absurd hl (by simp))
  rcases hres : (runReconcile fuel e r request s).1 with out | msg | _
  · exact absurd hres (hout out)
  · rw [hres] at h
    exact Post.elim h
  · rw [hres] at h
    exact Post.elim h

/-- A pass whose last step function to return is the status write returns. -/
theorem Reconcile_returns_after_status_write (fuel : Nat) (e : Env σ) (r : Reconciler)
    (request : String) (s : σ) (x : Option GoError)
    (hlast : (stepLog (runReconcile fuel e r request s).2.trace).getLast? = some (Step.updateTenantStatus, x)) :
    ∃ out, (runReconcile fuel e r request s).1 = .ok out := by
  rcases hres : (runReconcile fuel e r request s).1 with out | msg | _
  · exact ⟨out, rfl⟩
  · have h := Reconcile_abnormal fuel e r request s (by rw [hres]; intro out; simp)
    rw [hlast] at h
    exact absurd rfl h
  · have h := Reconcile_abnormal fuel e r request s (by rw [hres]; intro out; simp)
    rw [hlast] at h
    exact absurd rfl h

/-- The order of the calls in a pass that returns after `collectRobots`
succeeded. -/
theorem Reconcile_order (fuel : Nat) (e : Env σ) (r : Reconciler) (request : String) (s : σ)
    (out : Result × Option GoError) (hout : (runReconcile fuel e r request s).1 = .ok out)
    (hcr : (Step.collectRobots, none) ∈ stepLog (runReconcile fuel e r request s).2.trace) :
    (entered (runReconcile fuel e r request s).2.trace).take 7
      = [.ensureNamespace, .collectTenantNamespaces, .collectRobots,
          .ensureServiceAccount, .ensurePermissions, .ensureRobotSetupConfig, .ensurePullSecret]
    ∧ (∀ x ∈ (entered (runReconcile fuel e r request s).2.trace).drop 7,
        x ∈ [Step.ensureDNS, .ensureCertificate, .ensureGateway, .updateTenantStatus])
    ∧ (r.tenantSpecificGateways = true →
        ((entered (runReconcile fuel e r request s).2.trace).drop 7).head?
          = some Step.ensureDNS) := by
  have h := Reconcile_wpL fuel e r request s (reconcileEnsure_order fuel e r)
    (by
      intro out cl log h1 _ _
      apply Post.intro
      intro hc
      exact absurd (h1 _ hc) (by simp))
    (by
      intro cl log _ _
      exact True.intro)
  rw [hout] at h
  exact Post.elim h hcr

/-- C1 (amended): in a pass over a tenant that is not in deletion in which
`ensureNamespace`, `collectTenantNamespaces` and `collectRobots` succeeded (the
success of `collectRobots` implies the other two), if the pass returns,
`Reconcile` has called `ensureServiceAccount`, `ensurePermissions`,
`ensureRobotSetupConfig` and `ensurePullSecret` in this order, whatever each of
them returned, and then `ensureDNS` if tenant-specific gateways are enabled;
and if the status write at the end succeeds, the pass returns, and the error
it returns is the error of the last of the steps `ensureServiceAccount`,
`ensurePermissions`, `ensureRobotSetupConfig`, `ensurePullSecret`, `ensureDNS`,
`ensureCertificate` and `ensureGateway` that failed, and nil only if none of
these failed. -/
theorem C1_ensure_steps_run_and_last_error_returned (fuel : Nat) (e : Env σ) (r : Reconciler)
    (request : String) (s : σ)
    (hcr : (Step.collectRobots, none) ∈ stepLog (runReconcile fuel e r request s).2.trace) :
    (∀ out, (runReconcile fuel e r request s).1 = .ok out →
      ∃ rest, entered (runReconcile fuel e r request s).2.trace
        = [.ensureNamespace, .collectTenantNamespaces, .collectRobots,
            .ensureServiceAccount, .ensurePermissions, .ensureRobotSetupConfig,
            .ensurePullSecret] ++ rest
      ∧ (r.tenantSpecificGateways = true → rest.head? = some Step.ensureDNS))
    ∧ ((stepLog (runReconcile fuel e r request s).2.trace).getLast? = some (Step.updateTenantStatus, none) →
        (∃ res, (runReconcile fuel e r request s).1 = .ok (res, lastFailure (logOf ensureSteps (stepLog (runReconcile fuel e r request s).2.trace))))
        ∧ (lastFailure (logOf ensureSteps (stepLog (runReconcile fuel e r request s).2.trace)) = none
            ↔ ∀ x ∈ logOf ensureSteps (stepLog (runReconcile fuel e r request s).2.trace), x.2 = none)) := by
  refine ⟨?_, ?_⟩
  · intro out hout
    have ho := Reconcile_order fuel e r request s out hout hcr
    refine ⟨(entered (runReconcile fuel e r request s).2.trace).drop 7, ?_, ho.2.2⟩
    rw [← ho.1]
    exact (List.take_append_drop 7 _).symm
  · intro hl
    rcases Reconcile_returns_after_status_write fuel e r request s _ hl with ⟨out, hout⟩
    have h2 := ((Reconcile_returns fuel e r request s out hout).2.1 hl hcr).1
    refine ⟨⟨out.1, ?_⟩, lastFailure_eq_none _⟩
    rw [hout, ← h2]

set_option maxRecDepth 100000 in
/-- C1, counterexample to the claim as stated: with tenant-specific gateways,
on a store that rejects the certificate, the namespaces and the collections
succeed, the status write succeeds and none of `ensureServiceAccount`,
`ensurePermissions`, `ensureRobotSetupConfig`, `ensurePullSecret` and
`ensureDNS` fails, yet `Reconcile` returns an error: that of
`ensureCertificate`. -/
theorem C1_counterexample :
    (Step.ensureNamespace, none) ∈ stepLog (passOn gatewayReconciler noCertificateStore)
    ∧ (Step.collectTenantNamespaces, none) ∈ stepLog (passOn gatewayReconciler noCertificateStore)
    ∧ (Step.collectRobots, none) ∈ stepLog (passOn gatewayReconciler noCertificateStore)
    ∧ (stepLog (passOn gatewayReconciler noCertificateStore)).getLast?
        = some (Step.updateTenantStatus, none)
    ∧ lastFailure (logOf [.ensureServiceAccount, .ensurePermissions, .ensureRobotSetupConfig,
        .ensurePullSecret, .ensureDNS] (stepLog (passOn gatewayReconciler noCertificateStore)))
        = none
    ∧ resultOn gatewayReconciler noCertificateStore
        = .ok ({}, some (.wrap (.api (errForbidden "t-test-tenant-tls"))
            "update t-test-tenant-tls certificate")) := by
  decide!

set_option maxRecDepth 100000 in
/-- C1, the amended statement on a store that rejects service accounts:
`ensureServiceAccount` fails, the steps after it are called all the same, and
the error returned is the one of `ensurePullSecret`, the last step that
failed. -/
theorem C1_witness :
    (Step.ensureServiceAccount, some (.api (errForbidden "robot-service")))
        ∈ stepLog (passOn testReconciler { readyStore with forbidden := [.ServiceAccount] })
    ∧ lastFailure (logOf ensureSteps
        (stepLog (passOn testReconciler { readyStore with forbidden := [.ServiceAccount] })))
        = some (.api (errForbidden "default"))
    ∧ (∃ rest, entered (passOn testReconciler { readyStore with forbidden := [.ServiceAccount] })
        = [.ensureNamespace, .collectTenantNamespaces, .collectRobots,
            .ensureServiceAccount, .ensurePermissions, .ensureRobotSetupConfig,
            .ensurePullSecret] ++ rest
        ∧ (testReconciler.tenantSpecificGateways = true → rest.head? = some Step.ensureDNS))
    ∧ (∃ res, resultOn testReconciler { readyStore with forbidden := [.ServiceAccount] }
        = .ok (res, lastFailure (logOf ensureSteps (stepLog
            (passOn testReconciler { readyStore with forbidden := [.ServiceAccount] }))))) :=
  ⟨by decide!, by decide!,
    (C1_ensure_steps_run_and_last_error_returned 100 fakeEnv testReconciler "test-tenant"
      { readyStore with forbidden := [.ServiceAccount] } (by decide!)).1
      ({}, some (.api (errForbidden "default"))) (by decide!),
    ((C1_ensure_steps_run_and_last_error_returned 100 fakeEnv testReconciler "test-tenant"
      { readyStore with forbidden := [.ServiceAccount] } (by decide!)).2 (by decide!)).1⟩

/-- C2: in every pass, if `ensureDNS` returns an error then `ensureCertificate`
and `ensureGateway` are not called, and the tenant whose status the pass
writes has the Certificate and the Gateway condition False with the message
"No DNS record for the tenant created" and "No DNS record and/or TLS
certificate for the tenant created"; if `ensureDNS` succeeds and
`ensureCertificate` returns an error then `ensureGateway` is not called and
that tenant has the Gateway condition False with the second message;
`ensureGateway` is called only when both succeeded. -/
theorem C2_gateway_chain (fuel : Nat) (e : Env σ) (r : Reconciler) (request : String) (s : σ) :
    (∀ err, (Step.ensureDNS, some err) ∈ stepLog (runReconcile fuel e r request s).2.trace →
      Step.ensureCertificate ∉ entered (runReconcile fuel e r request s).2.trace
      ∧ Step.ensureGateway ∉ entered (runReconcile fuel e r request s).2.trace
      ∧ ∀ out, (runReconcile fuel e r request s).1 = .ok out →
          (∃ t1, (Step.updateTenantStatus, t1) ∈ calls (runReconcile fuel e r request s).2.trace)
          ∧ ∀ t1, (Step.updateTenantStatus, t1) ∈ calls (runReconcile fuel e r request s).2.trace →
              conditionOf t1 TenantConditionCertificate
                = some (ConditionFalse, "No DNS record for the tenant created")
              ∧ conditionOf t1 TenantConditionGateway = some (ConditionFalse,
                  "No DNS record and/or TLS certificate for the tenant created"))
    ∧ (∀ err, (Step.ensureDNS, none) ∈ stepLog (runReconcile fuel e r request s).2.trace →
        (Step.ensureCertificate, some err) ∈ stepLog (runReconcile fuel e r request s).2.trace →
        Step.ensureGateway ∉ entered (runReconcile fuel e r request s).2.trace
        ∧ ∀ out, (runReconcile fuel e r request s).1 = .ok out →
            (∃ t1, (Step.updateTenantStatus, t1) ∈ calls (runReconcile fuel e r request s).2.trace)
            ∧ ∀ t1, (Step.updateTenantStatus, t1) ∈
                  calls (runReconcile fuel e r request s).2.trace →
                conditionOf t1 TenantConditionGateway = some (ConditionFalse,
                  "No DNS record and/or TLS certificate for the tenant created"))
    ∧ (Step.ensureGateway ∈ entered (runReconcile fuel e r request s).2.trace →
        (Step.ensureDNS, none) ∈ stepLog (runReconcile fuel e r request s).2.trace
        ∧ (Step.ensureCertificate, none) ∈ stepLog (runReconcile fuel e r request s).2.trace) := by
  have h := Reconcile_wpL fuel e r request s (reconcileEnsure_gateways fuel e r)
    (by
      intro out cl log h1 h2
      intro _
      apply Post.intro
      refine ⟨?_, ?_, ?_⟩
      · intro err hm
        exact absurd (h1 _ hm) (by simp)
      · intro err hm
        exact absurd (h1 _ hm) (by simp)
      · intro hm
        exact absurd (h2 _ hm) (by simp))
    (by
      intro cl log h1 h2
      apply Post.intro
      refine ⟨?_, ?_, ?_⟩
      · intro err hm
        exact absurd (h1 _ hm) (by simp)
      · intro err hm
        exact absurd (h1 _ hm) (by simp)
      · intro hm
        exact absurd (h2 _ hm) (by simp))
  unfold entered
  rcases hres : (runReconcile fuel e r request s).1 with out | msg | _
  · rw [hres] at h
    have h0 := Post.elim h
    refine ⟨?_, ?_, h0.2.2⟩
    · intro err hm
      have h1 := h0.1 err hm
      refine ⟨h1.1, h1.2.1, ?_⟩
      intro _ _
      exact h1.2.2
    · intro err hd hm
      have h1 := h0.2.1 err hd hm
      refine ⟨h1.1, ?_⟩
      intro _ _
      exact h1.2
  · rw [hres] at h
    have h0 := Post.elim h
    refine ⟨?_, ?_, h0.2.2⟩
    · intro err hm
      have h1 := h0.1 err hm
      refine ⟨h1.1, h1.2, ?_⟩
      intro out ho
      exact absurd ho (by simp)
    · intro err hd hm
      refine ⟨h0.2.1 err hd hm, ?_⟩
      intro out ho
      exact absurd ho (by simp)
  · rw [hres] at h
    have h0 := Post.elim h
    refine ⟨?_, ?_, h0.2.2⟩
    · intro err hm
      have h1 := h0.1 err hm
      refine ⟨h1.1, h1.2, ?_⟩
      intro out ho
      exact absurd ho (by simp)
    · intro err hd hm
      refine ⟨h0.2.1 err hd hm, ?_⟩
      intro out ho
      exact absurd ho (by simp)

set_option maxRecDepth 100000 in
/-- C2 on the store that holds the tenant only, where `ensureDNS` fails for
want of a load balancer, and on the store that rejects the certificate. -/
theorem C2_witness :
    (Step.ensureDNS, some (.wrap (.api (errNotFound istioLBServiceName))
        "get Istio loadbalancer service")) ∈ stepLog (passOn gatewayReconciler newTenantStore)
    ∧ Step.ensureCertificate ∉ entered (passOn gatewayReconciler newTenantStore)
    ∧ Step.ensureGateway ∉ entered (passOn gatewayReconciler noCertificateStore) :=
  ⟨by decide!,
    ((C2_gateway_chain 100 fakeEnv gatewayReconciler "test-tenant" newTenantStore).1
      (.wrap (.api (errNotFound istioLBServiceName)) "get Istio loadbalancer service")
      (by decide!)).1,
    ((C2_gateway_chain 100 fakeEnv gatewayReconciler "test-tenant" noCertificateStore).2.1
      (.wrap (.api (errForbidden "t-test-tenant-tls")) "update t-test-tenant-tls certificate")
      (by decide!) (by decide!)).1⟩

set_option maxRecDepth 100000 in
/-- C4, counterexample to the claim as stated: the tenant is in deletion and a
ChartAssignment remains in its main namespace; the pass sees it, makes no
delete request, and the ChartAssignment is still in the store after the
pass. -/
theorem C4_counterexample :
    deletedTenant.DeletionTimestamp ≠ none
    ∧ chartAssignmentStore.chartAssignments.map (fun c => c.Namespace)
        = [TenantMainNamespace deletedTenant.Name]
    ∧ workloadsSeen (ioLog (passOn testReconciler chartAssignmentStore)) = 1
    ∧ deleteRequests (ioLog (passOn testReconciler chartAssignmentStore)) = []
    ∧ (runReconcile 100 fakeEnv testReconciler "test-tenant"
        chartAssignmentStore).2.api.chartAssignments = chartAssignmentStore.chartAssignments := by
  decide!

/-- C5: for a tenant without a deletion timestamp, `containsString` tells
whether the finalizer occurs in the list of finalizers. If it does not,
`Reconcile` appends it, so that it occurs once, and asks the store to update
the tenant right after fetching it: if the update fails, the pass ends there
with the error of the update, wrapped, and has called no step function; if it
succeeds, the pass continues with the ensure steps on the tenant the store
answered with. If the finalizer is there already, the pass continues with the
ensure steps on the tenant as it was fetched, without a request to update
it. -/
theorem C5_finalizer_added_once_before_ensure_steps (fuel : Nat) (e : Env σ) (r : Reconciler)
    (request : String) (s : σ) (t : Tenant)
    (hget : (e.get .Tenant "" request s).1 = .ok t) (hnd : t.DeletionTimestamp = none) :
    (containsString t.Finalizers finalizer = true ↔ finalizer ∈ t.Finalizers)
    ∧ (containsString t.Finalizers finalizer = false →
        (t.Finalizers ++ [finalizer]).count finalizer = 1
        ∧ (∀ aerr, (e.update .Tenant { t with Finalizers := t.Finalizers ++ [finalizer] }
              (e.get .Tenant "" request s).2).1 = .error aerr →
            (runReconcile fuel e r request s) = (.ok ({}, some (.wrap (.api aerr) ("add finalizer to tenant " ++ t.Name))),
                 ⟨(e.update .Tenant { t with Finalizers := t.Finalizers ++ [finalizer] }
                    (e.get .Tenant "" request s).2).2,
                  [.io (.Get .Tenant "" request (.ok t)),
                   .io (.Log ("Adding finalizer to tenant " ++ t.Name)),
                   .io (.Update .Tenant { t with Finalizers := t.Finalizers ++ [finalizer] }
                     (.error aerr))]⟩)
            ∧ entered (runReconcile fuel e r request s).2.trace = [])
        ∧ (∀ t2, (e.update .Tenant { t with Finalizers := t.Finalizers ++ [finalizer] }
              (e.get .Tenant "" request s).2).1 = .ok t2 →
            (runReconcile fuel e r request s) = reconcileEnsure fuel e r t2
                 ⟨(e.update .Tenant { t with Finalizers := t.Finalizers ++ [finalizer] }
                    (e.get .Tenant "" request s).2).2,
                  [.io (.Get .Tenant "" request (.ok t)),
                   .io (.Log ("Adding finalizer to tenant " ++ t.Name)),
                   .io (.Update .Tenant { t with Finalizers := t.Finalizers ++ [finalizer] }
                     (.ok t2))]⟩))
    ∧ (containsString t.Finalizers finalizer = true →
        (runReconcile fuel e r request s) = reconcileEnsure fuel e r t
             ⟨(e.get .Tenant "" request s).2, [.io (.Get .Tenant "" request (.ok t))]⟩) := by
  have h := Reconcile_not_deleted fuel e r request s t hget hnd
  refine ⟨containsString_iff _ _, ?_, h.2⟩
  intro hc
  refine ⟨count_append_new _ _ hc, ?_, (h.1 hc).2⟩
  intro aerr ha
  have h1 := (h.1 hc).1 aerr ha
  refine ⟨h1, ?_⟩
  rw [h1]
  rfl

set_option maxRecDepth 100000 in
/-- C5 on the store of `TestReconcileOne`, where the tenant has no finalizer
yet, and on a store that rejects the update of the tenant. -/
theorem C5_witness :
    (testTenant.Finalizers ++ [finalizer]).count finalizer = 1
    ∧ tenantUpdates (ioLog (passOn testReconciler newTenantStore))
        = [{ testTenant with Finalizers := [finalizer] }]
    ∧ entered (passOn testReconciler { newTenantStore with forbidden := [.Tenant] }) = [] :=
  ⟨((C5_finalizer_added_once_before_ensure_steps 100 fakeEnv testReconciler "test-tenant"
      newTenantStore testTenant rfl rfl).2.1 (by decide)).1,
    by decide!,
    (((C5_finalizer_added_once_before_ensure_steps 100 fakeEnv testReconciler "test-tenant"
      { newTenantStore with forbidden := [.Tenant] } testTenant rfl rfl).2.1 (by decide)).2.1
        (errForbidden "test-tenant") rfl).2⟩

/-- C6 (amended): in a pass in which `collectRobots` succeeded, if the status
write at the end of the pass fails, `Reconcile` returns the error of the
status write with an empty result, whether or not an ensure step failed;
`updateTenantStatus` also writes the error to the log. -/
theorem C6_status_write_error_is_returned (fuel : Nat) (e : Env σ) (r : Reconciler)
    (request : String) (s : σ) (err : GoError)
    (hcr : (Step.collectRobots, none) ∈ stepLog (runReconcile fuel e r request s).2.trace)
    (hlast : (stepLog (runReconcile fuel e r request s).2.trace).getLast? = some (Step.updateTenantStatus, some err)) :
    (runReconcile fuel e r request s).1 = .ok ({}, some err)
    ∧ ∀ (t : Tenant) (w : IOWorld σ) (aerr : ApiError),
        (e.statusUpdate t w.api).1 = .error aerr →
        updateTenantStatus e t w = (.ok (t, some (.api aerr)),
          { api := (e.statusUpdate t w.api).2,
            trace := w.trace ++ [.StatusUpdate t (.error aerr),
              .Log ("Update of tenant status " ++ t.Name ++ " failed: " ++ aerr.msg)] }) := by
  refine ⟨?_, ?_⟩
  · rcases Reconcile_returns_after_status_write fuel e r request s _ hlast with ⟨out, hout⟩
    rw [hout, (Reconcile_returns fuel e r request s out hout).1 err hlast hcr]
  · intro t w aerr ha
    simp [updateTenantStatus, bind, St.bind, clientStatusUpdate, ha, logPrintf, record, pure]

set_option maxRecDepth 100000 in
/-- C6, counterexample to the claim as stated: on a store that rejects status
writes and on which every ensure step succeeds, `Reconcile` returns the error
of the status write, not a nil error; and on the store that rejects service
accounts as well, it returns the error of the status write, not the error of
the last ensure step that failed. -/
theorem C6_counterexample :
    (stepLog (passOn testReconciler noStatusStore)).getLast?
        = some (Step.updateTenantStatus, some (.api (errForbidden "test-tenant")))
    ∧ lastFailure (logOf ensureSteps (stepLog (passOn testReconciler noStatusStore))) = none
    ∧ resultOn testReconciler noStatusStore
        = .ok ({}, some (.api (errForbidden "test-tenant")))
    ∧ lastFailure (logOf ensureSteps (stepLog (passOn testReconciler noStatusNoAccountStore)))
        = some (.api (errForbidden "default"))
    ∧ resultOn testReconciler noStatusNoAccountStore
        = .ok ({}, some (.api (errForbidden "test-tenant"))) := by
  decide!

set_option maxRecDepth 100000 in
/-- C6, the amended statement on the store that rejects status writes and
service accounts: the pass returns the error of the status write. -/
theorem C6_witness :
    (Step.ensureServiceAccount, some (.api (errForbidden "robot-service")))
        ∈ stepLog (passOn testReconciler noStatusNoAccountStore)
    ∧ resultOn testReconciler noStatusNoAccountStore
        = .ok ({}, some (.api (errForbidden "test-tenant"))) :=
  ⟨by decide!,
    (C6_status_write_error_is_returned 100 fakeEnv testReconciler "test-tenant"
      noStatusNoAccountStore (.api (errForbidden "test-tenant")) (by decide!) (by decide!)).1⟩

set_option maxRecDepth 100000 in
/-- C7, counterexample to the claim as stated: with tenant-specific gateways,
on a store on which every step succeeds, `ensureRobotSetupConfig` is called
before `ensurePullSecret`, `ensureDNS`, `ensureCertificate` and `ensureGateway`,
the config map is written with an empty `tenant_domain`, and the tenant domain
`ensureDNS` resolves in this pass, which the status write carries, is
`test-tenant.t.domain.local`. -/
theorem C7_counterexample :
    entered (passOn gatewayReconciler gatewayStore)
      = [.ensureNamespace, .collectTenantNamespaces, .collectRobots, .ensureServiceAccount,
          .ensurePermissions, .ensureRobotSetupConfig, .ensurePullSecret, .ensureDNS,
          .ensureCertificate, .ensureGateway, .updateTenantStatus]
    ∧ (∀ x ∈ stepLog (passOn gatewayReconciler gatewayStore), x.2 = none)
    ∧ (configMapWrites (ioLog (passOn gatewayReconciler gatewayStore))).map
        (fun cm => cm.Data.read "tenant_domain") = [""]
    ∧ (statusWrites (ioLog (passOn gatewayReconciler gatewayStore))).map
        (fun t => t.Status.TenantDomain) = ["test-tenant.t.domain.local"] := by
  decide!

set_option maxRecDepth 100000 in
/-- C8, counterexample to the claim as stated: on a store that holds the
templates but not yet the default service accounts, `ensurePullSecret` returns
a `MissingServiceAccountError`, no other step fails, and `Reconcile` returns
that error with `RequeueAfter = 0`, not a nil error with `requeueFast`. -/
theorem C8_counterexample :
    (∀ x ∈ stepLog (passOn testReconciler noDefaultAccountStore), x.2 ≠ none →
      x = (Step.ensurePullSecret, some (.missingServiceAccount
        "ServiceAccount \"t-test-tenant:default\" not yet created")))
    ∧ (Step.ensurePullSecret, some (.missingServiceAccount
        "ServiceAccount \"t-test-tenant:default\" not yet created"))
        ∈ stepLog (passOn testReconciler noDefaultAccountStore)
    ∧ resultOn testReconciler noDefaultAccountStore
        = .ok ({ RequeueAfter := 0 }, some (.missingServiceAccount
            "ServiceAccount \"t-test-tenant:default\" not yet created"))
    ∧ resultOn testReconciler noDefaultAccountStore
        ≠ .ok ({ RequeueAfter := requeueFast }, none) := by
  decide!

/-- C9: if every step function of a pass that returned returned no error and
the last of them is the status write, `Reconcile` returns a nil error and
`RequeueAfter = requeueSlow`, which is 3 minutes; and a pass that returns
`requeueSlow` returns a nil error, is not over a tenant in deletion, and in it
every step function that returned returned no error, the last of them the
status write. -/
theorem C9_requeueSlow_iff_all_succeeded (fuel : Nat) (e : Env σ) (r : Reconciler)
    (request : String) (s : σ) :
    ((∀ x ∈ stepLog (runReconcile fuel e r request s).2.trace, x.2 = none) →
      (stepLog (runReconcile fuel e r request s).2.trace).getLast? = some (Step.updateTenantStatus, none) →
      (runReconcile fuel e r request s).1 = .ok ({ RequeueAfter := requeueSlow }, none))
    ∧ (∀ out, (runReconcile fuel e r request s).1 = .ok out → out.1.RequeueAfter = requeueSlow →
        out.2 = none
        ∧ (∀ x ∈ stepLog (runReconcile fuel e r request s).2.trace, x.2 = none)
        ∧ (stepLog (runReconcile fuel e r request s).2.trace).getLast? = some (Step.updateTenantStatus, none)
        ∧ (∀ t, (e.get .Tenant "" request s).1 = .ok t → t.DeletionTimestamp = none))
    ∧ requeueSlow = 3 * 60 * 1000000000 := by
  refine ⟨?_, ?_, ?_⟩
  · intro hall hlast
    rcases hres : (runReconcile fuel e r request s).1 with out | msg | _
    · have h := (Reconcile_returns fuel e r request s out hres).2.2.2
        ((lastFailure_eq_none _).2 hall) hlast
      rw [h]
    · have h := Reconcile_abnormal fuel e r request s (by rw [hres]; intro out; simp)
      rw [hlast] at h
      exact absurd rfl h
    · have h := Reconcile_abnormal fuel e r request s (by rw [hres]; intro out; simp)
      rw [hlast] at h
      exact absurd rfl h
  · intro out hres hslow
    have h := (Reconcile_returns fuel e r request s out hres).2.2.1 hslow
    have hall := (lastFailure_eq_none _).1 h.1
    have h4 := (Reconcile_returns fuel e r request s out hres).2.2.2 h.1 h.2
    refine ⟨by rw [h4], hall, h.2, ?_⟩
    intro t hget
    by_contra hdel
    exact (Reconcile_deleted fuel e r request s t hget hdel).2.2.2.2 out hres hslow
  · decide

set_option maxRecDepth 100000 in
/-- C9 on a store on which every step succeeds. -/
theorem C9_witness :
    (∀ x ∈ stepLog (passOn testReconciler readyStore), x.2 = none)
    ∧ (stepLog (passOn testReconciler readyStore)).getLast?
        = some (Step.updateTenantStatus, none)
    ∧ resultOn testReconciler readyStore = .ok ({ RequeueAfter := requeueSlow }, none) :=
  ⟨by decide!, by decide!,
    (C9_requeueSlow_iff_all_succeeded 100 fakeEnv testReconciler "test-tenant" readyStore).1
      (by decide!) (by decide!)⟩

end Claims

/-! ## Conditions: what `setCondition` does to the list -/

section ConditionList

theorem updateCondition_LastTransitionTime (now : Time) (c : TenantCondition)
    (v : ConditionStatus) (msg : String) :
    (updateCondition now c v msg).LastTransitionTime
      = if c.Status ≠ v then now else c.LastTransitionTime := by
  unfold updateCondition
  by_cases h1 : c.Status = v <;> by_cases h2 : c.Message = msg <;> simp [h1, h2]

theorem updateCondition_LastUpdateTime (now : Time) (c : TenantCondition)
    (v : ConditionStatus) (msg : String) :
    (updateCondition now c v msg).LastUpdateTime
      = if c.Status ≠ v ∨ c.Message ≠ msg then now else c.LastUpdateTime := by
  unfold updateCondition
  by_cases h1 : c.Status = v <;> by_cases h2 : c.Message = msg <;> simp [h1, h2]

/-- The update of a condition with the status and the message it has already
changes nothing. -/
theorem updateCondition_same (now : Time) (c : TenantCondition) (v : ConditionStatus)
    (msg : String) (h1 : c.Status = v) (h2 : c.Message = msg) :
    updateCondition now c v msg = c := by
  unfold updateCondition
  subst h1
  subst h2
  simp

/-- On a list whose first entry of type `tc` is `c`, `setCondition` updates
`c` in place. -/
theorem setConditionIn_split (now : Time) (tc : TenantConditionType) (v : ConditionStatus)
    (msg : String) (pre post : List TenantCondition) (c : TenantCondition)
    (hty : c.Type_ = tc) (hpre : ∀ x ∈ pre, x.Type_ ≠ tc) :
    setConditionIn now tc v msg (pre ++ c :: post)
      = pre ++ updateCondition now c v msg :: post := by
  induction pre with
  | nil => simp [setConditionIn, hty]
  | cons x xs ih =>
    have hx : x.Type_ ≠ tc := hpre x (by simp)
    have hxs : ∀ y ∈ xs, y.Type_ ≠ tc := fun y hy => hpre y (by simp [hy])
    simp [setConditionIn, hx, ih hxs]

/-- On a list without an entry of type `tc`, `setCondition` appends one. -/
theorem setConditionIn_new (now : Time) (tc : TenantConditionType) (v : ConditionStatus)
    (msg : String) (cs : List TenantCondition) (h : ∀ x ∈ cs, x.Type_ ≠ tc) :
    setConditionIn now tc v msg cs
      = cs ++ [{ Type_ := tc, LastUpdateTime := now, LastTransitionTime := now,
                 Status := v, Message := msg }] := by
  induction cs with
  | nil => simp [setConditionIn]
  | cons x xs ih =>
    have hx : x.Type_ ≠ tc := h x (by simp)
    have hxs : ∀ y ∈ xs, y.Type_ ≠ tc := fun y hy => h y (by simp [hy])
    simp [setConditionIn, hx, ih hxs]

/-- The types of the conditions after `setCondition`. -/
theorem setConditionIn_types (now : Time) (tc : TenantConditionType) (v : ConditionStatus)
    (msg : String) (cs : List TenantCondition) :
    (setConditionIn now tc v msg cs).map (fun c => c.Type_)
      = if tc ∈ cs.map (fun c => c.Type_) then cs.map (fun c => c.Type_)
        else cs.map (fun c => c.Type_) ++ [tc] := by
  induction cs with
  | nil => simp [setConditionIn]
  | cons x xs ih =>
    by_cases hx : x.Type_ = tc
    · simp [setConditionIn, hx, updateCondition_Type]
    · have hx1 : ¬ tc = x.Type_ := fun h => hx h.symm
      simp only [setConditionIn, ne_eq, hx, not_false_eq_true, if_true, List.map_cons, ih,
        List.mem_cons, hx1, false_or]
      split <;> simp

theorem setConditionIn_nodup (now : Time) (tc : TenantConditionType) (v : ConditionStatus)
    (msg : String) (cs : List TenantCondition) (h : (cs.map (fun c => c.Type_)).Nodup) :
    ((setConditionIn now tc v msg cs).map (fun c => c.Type_)).Nodup := by
  rw [setConditionIn_types]
  split
  · exact h
  · rename_i hn
    exact List.Nodup.append h (List.nodup_singleton tc) (by simpa using hn)

/-- Entries of another type stay where they are and as they are. -/
theorem setConditionIn_getElem? (now : Time) (tc : TenantConditionType) (v : ConditionStatus)
    (msg : String) (cs : List TenantCondition) :
    ∀ (i : Nat) (c : TenantCondition), cs[i]? = some c → c.Type_ ≠ tc →
      (setConditionIn now tc v msg cs)[i]? = some c := by
  induction cs with
  | nil =>
    intro i c h
    simp at h
  | cons x xs ih =>
    intro i c h hne
    by_cases hx : x.Type_ = tc
    · cases i with
      | zero =>
        simp at h
        subst h
        exact absurd hx hne
      | succ j =>
        simp [setConditionIn, hx] at h ⊢
        exact h
    · cases i with
      | zero =>
        simp at h
        subst h
        simp [setConditionIn, hx]
      | succ j =>
        simp [setConditionIn, hx] at h ⊢
        exact ih j c h hne

/-- A second call of `setCondition` with the same type, status and message
changes nothing. -/
theorem setConditionIn_idem (now1 now2 : Time) (tc : TenantConditionType)
    (v : ConditionStatus) (msg : String) (cs : List TenantCondition) :
    setConditionIn now2 tc v msg (setConditionIn now1 tc v msg cs)
      = setConditionIn now1 tc v msg cs := by
  induction cs with
  | nil => simp [setConditionIn, updateCondition]
  | cons x xs ih =>
    by_cases hx : x.Type_ = tc
    · have h1 : (updateCondition now1 x v msg).Type_ = tc := by
        rw [updateCondition_Type]
        exact hx
      have h2 : setConditionIn now1 tc v msg (x :: xs) = updateCondition now1 x v msg :: xs := by
        simp [setConditionIn, hx]
      rw [h2]
      simp only [setConditionIn, ne_eq, h1, not_true_eq_false, if_false]
      rw [updateCondition_same now2 _ v msg (updateCondition_Status _ _ _ _)
        (updateCondition_Message _ _ _ _)]
    · simp [setConditionIn, hx, ih]

/-- The first entry of type `tc` of a list that has one. -/
theorem exists_first_of_type (tc : TenantConditionType) (cs : List TenantCondition)
    (h : tc ∈ cs.map (fun c => c.Type_)) :
    ∃ pre c post, cs = pre ++ c :: post ∧ c.Type_ = tc ∧ ∀ x ∈ pre, x.Type_ ≠ tc := by
  induction cs with
  | nil => simp at h
  | cons x xs ih =>
    by_cases hx : x.Type_ = tc
    · exact ⟨[], x, xs, rfl, hx, by simp⟩
    · have hx1 : ¬ tc = x.Type_ := fun h1 => hx h1.symm
      simp only [List.map_cons, List.mem_cons, hx1, false_or] at h
      rcases ih h with ⟨pre, c, post, h1, h2, h3⟩
      refine ⟨x :: pre, c, post, by simp [h1], h2, ?_⟩
      intro y hy
      rcases List.mem_cons.1 hy with h4 | h4
      · rw [h4]
        exact hx
      · exact h3 y h4

/-- For a type other than the one set, `inCondition` sees no change. -/
theorem any_setConditionIn_other (now : Time) (tc tc1 : TenantConditionType)
    (v : ConditionStatus) (msg : String) (cs : List TenantCondition) (hne : tc1 ≠ tc) :
    (setConditionIn now tc v msg cs).any
        (fun cond => decide (cond.Type_ = tc1 ∧ cond.Status = ConditionTrue))
      = cs.any (fun cond => decide (cond.Type_ = tc1 ∧ cond.Status = ConditionTrue)) := by
  induction cs with
  | nil => simp [setConditionIn, Ne.symm hne]
  | cons x xs ih =>
    by_cases hx : x.Type_ = tc
    · have h1 : ¬ x.Type_ = tc1 := fun h2 => hne (h2.symm.trans hx)
      have h3 : ¬ (updateCondition now x v msg).Type_ = tc1 := by
        rw [updateCondition_Type]
        exact h1
      have hp1 : decide ((updateCondition now x v msg).Type_ = tc1
          ∧ (updateCondition now x v msg).Status = ConditionTrue) = false := by simp [h3]
      have hp2 : decide (x.Type_ = tc1 ∧ x.Status = ConditionTrue) = false := by simp [h1]
      have h4 : setConditionIn now tc v msg (x :: xs) = updateCondition now x v msg :: xs := by
        simp [setConditionIn, hx]
      rw [h4, List.any_cons, List.any_cons, hp1, hp2]
    · simp only [setConditionIn, ne_eq, hx, not_false_eq_true, if_true, List.any_cons, ih]

/-- For the type set, on a list with one entry per type at most, `inCondition`
sees the status set. -/
theorem any_setConditionIn_same (now : Time) (tc : TenantConditionType)
    (v : ConditionStatus) (msg : String) (cs : List TenantCondition)
    (h : (cs.map (fun c => c.Type_)).Nodup) :
    (setConditionIn now tc v msg cs).any
        (fun cond => decide (cond.Type_ = tc ∧ cond.Status = ConditionTrue)) = true
      ↔ v = ConditionTrue := by
  induction cs with
  | nil => simp [setConditionIn]
  | cons x xs ih =>
    simp only [List.map_cons, List.nodup_cons] at h
    by_cases hx : x.Type_ = tc
    · have h1 : (updateCondition now x v msg).Type_ = tc := by
        rw [updateCondition_Type]
        exact hx
      have h2 : ∀ y ∈ xs, ¬ y.Type_ = tc := by
        intro y hy hyt
        apply h.1
        rw [hx, ← hyt]
        exact List.mem_map.2 ⟨y, hy, rfl⟩
      have h3 : xs.any (fun cond => decide (cond.Type_ = tc ∧ cond.Status = ConditionTrue))
          = false := by
        rw [List.any_eq_false]
        intro y hy
        simp [h2 y hy]
      simp only [setConditionIn, ne_eq, hx, not_true_eq_false, if_false, List.any_cons, h3,
        Bool.or_false, h1, true_and, updateCondition_Status, decide_eq_true_eq]
    · simp only [setConditionIn, ne_eq, hx, not_false_eq_true, if_true, List.any_cons,
        false_and, decide_False, Bool.false_or]
      exact ih h.2

end ConditionList

/-! ## The webhook -/

section Webhook

variable {σ : Type}

theorem denyOtherTenants_none (items : List Tenant) :
    denyOtherTenants items = none ↔ ∀ t ∈ items, t.Name = DefaultTenantName := by
  induction items with
  | nil => simp [denyOtherTenants]
  | cons t ts ih =>
    by_cases h : t.Name = DefaultTenantName
    · simp [denyOtherTenants, h, ih]
    · simp [denyOtherTenants, h]

theorem denyOtherTenants_some (items : List Tenant) (r : Response)
    (h : denyOtherTenants items = some r) :
    r = Errored StatusBadRequest
      (.new "Delete all other tenants before creating the default tenant") := by
  induction items with
  | nil => simp [denyOtherTenants] at h
  | cons t ts ih =>
    by_cases h1 : t.Name = DefaultTenantName
    · simp only [denyOtherTenants, ne_eq, h1, not_true_eq_false, if_false] at h
      exact ih h
    · simp only [denyOtherTenants, ne_eq, h1, not_false_eq_true, if_true, Option.some.injEq] at h
      exact h.symm

theorem denyDefaultTenant_none (items : List Tenant) :
    denyDefaultTenant items = none ↔ ∀ t ∈ items, t.Name ≠ DefaultTenantName := by
  induction items with
  | nil => simp [denyDefaultTenant]
  | cons t ts ih =>
    by_cases h : t.Name = DefaultTenantName
    · simp [denyDefaultTenant, h]
    · simp [denyDefaultTenant, h, ih]

theorem denyDefaultTenant_some (items : List Tenant) (r : Response)
    (h : denyDefaultTenant items = some r) :
    r = Errored StatusBadRequest
      (.new "Delete default tenant before creating other tenants") := by
  induction items with
  | nil => simp [denyDefaultTenant] at h
  | cons t ts ih =>
    by_cases h1 : t.Name = DefaultTenantName
    · simp only [denyDefaultTenant, h1, if_true, Option.some.injEq] at h
      exact h.symm
    · simp only [denyDefaultTenant, h1, if_false] at h
      exact ih h

/-- The response of `Handle` to a request that decodes, when the tenants can
be listed. -/
theorem Handle_response (v : tenantValidator) (e : Env σ) (req : Request) (w : IOWorld σ)
    (tenant : Tenant) (items : List Tenant) (hdec : req.decoded = .ok tenant)
    (hlist : (e.list .Tenant none w.api).1 = .ok items) :
    (Handle v e req w).1 = .ok (
      match (if tenant.Name = DefaultTenantName ∧ req.Operation ≠ Delete
          then denyOtherTenants items else none) with
      | some resp => resp
      | none =>
        match (if tenant.Name ≠ DefaultTenantName ∧ req.Operation ≠ Delete
            then denyDefaultTenant items else none) with
        | some resp => resp
        | none =>
          if (!v.tenantSpecificGateways) = true ∧ tenant.Spec.TenantDomain ≠ "" then
            Errored StatusBadRequest
              (.new "TenantDomain must be empty when tenant specific gateways are disabled")
          else Allowed "") := by
  unfold Handle
  rcases hl : e.list .Tenant none w.api with ⟨res, s1⟩
  rw [hl] at hlist
  simp only at hlist
  subst hlist
  simp only [hdec, bind, St.bind, clientList, hl]
  rcases h1 : (if tenant.Name = DefaultTenantName ∧ req.Operation ≠ Delete
      then denyOtherTenants items else none) with _ | r1
  · rcases h2 : (if tenant.Name ≠ DefaultTenantName ∧ req.Operation ≠ Delete
        then denyDefaultTenant items else none) with _ | r2
    · simp only []
      split <;> rfl
    · rfl
  · rfl

theorem denyOtherTenants_of_exists (items : List Tenant)
    (h : ∃ t ∈ items, t.Name ≠ DefaultTenantName) :
    denyOtherTenants items = some (Errored StatusBadRequest
      (.new "Delete all other tenants before creating the default tenant")) := by
  rcases h1 : denyOtherTenants items with _ | r
  · rcases h with ⟨t, ht, hne⟩
    exact absurd ((denyOtherTenants_none items).1 h1 t ht) hne
  · rw [denyOtherTenants_some items r h1]

theorem denyDefaultTenant_of_exists (items : List Tenant)
    (h : ∃ t ∈ items, t.Name = DefaultTenantName) :
    denyDefaultTenant items = some (Errored StatusBadRequest
      (.new "Delete default tenant before creating other tenants")) := by
  rcases h1 : denyDefaultTenant items with _ | r
  · rcases h with ⟨t, ht, he⟩
    exact absurd he ((denyDefaultTenant_none items).1 h1 t ht)
  · rw [denyDefaultTenant_some items r h1]

/-- The response of `Handle` to a request other than a delete request, by the
rule that decides it. -/
theorem Handle_cases (v : tenantValidator) (e : Env σ) (req : Request) (w : IOWorld σ)
    (tenant : Tenant) (items : List Tenant) (hnd : req.Operation ≠ Delete)
    (hdec : req.decoded = .ok tenant)
    (hlist : (e.list .Tenant none w.api).1 = .ok items) :
    ∃ resp, (Handle v e req w).1 = .ok resp
      ∧ (tenant.Name = DefaultTenantName → (∃ t ∈ items, t.Name ≠ DefaultTenantName) →
          resp = Errored StatusBadRequest
            (.new "Delete all other tenants before creating the default tenant"))
      ∧ (tenant.Name ≠ DefaultTenantName → (∃ t ∈ items, t.Name = DefaultTenantName) →
          resp = Errored StatusBadRequest
            (.new "Delete default tenant before creating other tenants"))
      ∧ (¬ (tenant.Name = DefaultTenantName ∧ ∃ t ∈ items, t.Name ≠ DefaultTenantName) →
          ¬ (tenant.Name ≠ DefaultTenantName ∧ ∃ t ∈ items, t.Name = DefaultTenantName) →
          resp = if v.tenantSpecificGateways = false ∧ tenant.Spec.TenantDomain ≠ "" then
              Errored StatusBadRequest
                (.new "TenantDomain must be empty when tenant specific gateways are disabled")
            else Allowed "") := by
  refine ⟨_, Handle_response v e req w tenant items hdec hlist, ?_, ?_, ?_⟩
  · intro hn hex
    rw [if_pos ⟨hn, hnd⟩, denyOtherTenants_of_exists items hex]
  · intro hn hex
    have h1 : ¬ (tenant.Name = DefaultTenantName ∧ req.Operation ≠ Delete) := fun h => hn h.1
    rw [if_neg h1, if_pos ⟨hn, hnd⟩, denyDefaultTenant_of_exists items hex]
  · intro h1 h2
    have hg : ((!v.tenantSpecificGateways) = true ∧ tenant.Spec.TenantDomain ≠ "")
        ↔ (v.tenantSpecificGateways = false ∧ tenant.Spec.TenantDomain ≠ "") := by
      cases v.tenantSpecificGateways <;> simp
    by_cases hn : tenant.Name = DefaultTenantName
    · have ho : denyOtherTenants items = none := by
        rw [denyOtherTenants_none]
        intro t ht
        by_contra hne
        exact h1 ⟨hn, t, ht, hne⟩
      have h3 : ¬ (tenant.Name ≠ DefaultTenantName ∧ req.Operation ≠ Delete) :=
        fun h => h.1 hn
      rw [if_pos ⟨hn, hnd⟩, ho, if_neg h3]
      simp only [hg]
    · have h3 : ¬ (tenant.Name = DefaultTenantName ∧ req.Operation ≠ Delete) := fun h => hn h.1
      have ho : denyDefaultTenant items = none := by
        rw [denyDefaultTenant_none]
        intro t ht he
        exact h2 ⟨hn, t, ht, he⟩
      rw [if_neg h3, if_pos ⟨hn, hnd⟩, ho]
      simp only [hg]

end Webhook

/-! ## Routing of namespace events -/

section Enqueue

variable {σ : Type}

theorem HasPrefix_iff (s p : String) : HasPrefix s p = true ↔ ∃ rest : String, s = p ++ rest := by
  unfold HasPrefix
  rw [ List.isPrefixOf_iff_prefix]
  constructor
  · rintro ⟨r, hr⟩
    refine ⟨String.mk r, ?_⟩
    apply String.ext
    simp [String.data_append, hr]
  · rintro ⟨rest, hr⟩
    refine ⟨rest.data, ?_⟩
    rw [hr, String.data_append]

theorem enqueueLoop_eq (rest : String) (items : List Tenant) (q : List String) :
    enqueueLoop rest items q
      = q ++ (items.filter (fun t => HasPrefix rest t.Name)).map (fun t => t.Name) := by
  induction items generalizing q with
  | nil => simp [enqueueLoop]
  | cons t ts ih =>
    by_cases h : HasPrefix rest t.Name = true
    · simp [enqueueLoop, h, ih]
    · simp [enqueueLoop, h, ih]

theorem cutDash_tenantPrefix (r : List Char) :
    cutDash ('t' :: '-' :: r) = some (['t'], r) := by
  simp [cutDash]

/-- What `enqueueFromNamespaceName` adds to the queue, when the tenants can be
listed. -/
theorem enqueueFromNamespaceName_eq (e : Env σ) (ns : String) (w : IOWorld σ)
    (items : List Tenant) (hlist : (e.list .Tenant none w.api).1 = .ok items) :
    (enqueueFromNamespaceName e ns w).1
      = .ok ((items.filter (fun t => HasPrefix ns (TenantPrefix ++ t.Name))).map
          (fun t => t.Name)) := by
  unfold enqueueFromNamespaceName
  by_cases hp : HasPrefix ns TenantPrefix = true
  · rw [if_pos hp]
    have hd : ∃ r, ns.data = 't' :: '-' :: r := by
      rcases (HasPrefix_iff _ _).1 hp with ⟨rest, hr⟩
      exact ⟨rest.data, by rw [hr, String.data_append]; rfl⟩
    rcases hd with ⟨r, hr⟩
    have hs : SplitN ns = ["t", String.mk r] := by
      simp [SplitN, hr, cutDash_tenantPrefix]
    rcases hl : e.list .Tenant none w.api with ⟨res, s1⟩
    rw [hl] at hlist
    simp only at hlist
    subst hlist
    have hf : ∀ t : Tenant, HasPrefix (String.mk r) t.Name
        = HasPrefix ns (TenantPrefix ++ t.Name) := by
      intro t
      unfold HasPrefix
      rw [hr, String.data_append]
      rfl
    simp [hs, bind, St.bind, clientList, hl, pure, enqueueLoop_eq, hf]
  · rw [if_neg hp]
    have hf : ∀ t : Tenant, HasPrefix ns (TenantPrefix ++ t.Name) = false := by
      intro t
      rcases hq : HasPrefix ns (TenantPrefix ++ t.Name) with _ | _
      · rfl
      · exfalso
        apply hp
        rcases (HasPrefix_iff _ _).1 hq with ⟨rest, hr⟩
        exact (HasPrefix_iff _ _).2 ⟨t.Name ++ rest, by rw [hr, String.append_assoc]⟩
    simp [hf, pure]

end Enqueue

/-! ## The collection steps -/

section Collect

variable {σ : Type}

/-- Code that neither panics nor diverges returns. -/
theorem wp_total {S α : Type} {m : St S α} {Q : α → S → Prop} {s : S}
    (h : wp m Q (fun _ => False) s) : ∃ a, (m s).1 = .ok a ∧ Q a (m s).2 := by
  unfold wp at h
  rcases hm : m s with ⟨r, s1⟩
  rw [hm] at h
  cases r with
  | ok a => exact ⟨a, rfl, h⟩
  | panic p => exact absurd h id
  | diverge => exact absurd h id

theorem namespaceUpdates_append (a b : List IOEvent) :
    namespaceUpdates (a ++ b) = namespaceUpdates a ++ namespaceUpdates b := by
  induction a with
  | nil => rfl
  | cons ev evs ih =>
    cases ev with
    | Update k o res => cases k <;> simp [namespaceUpdates, ih]
    | _ => simp [namespaceUpdates, ih]

/-- The loop of `collectTenantNamespaces`: it returns; it asks the store for
nothing but updates of namespaces; and when no update fails it has asked for
the update of each listed namespace, in order, and has collected the names of
the namespaces of the tenant. -/
theorem collectTenantNamespacesLoop_spec (e : Env σ) (t : Tenant)
    (app main rc : String) (nss : List Namespace) :
    ∀ (acc : List String) (api : σ) (tr : List IOEvent),
    wp (collectTenantNamespacesLoop e t app main rc nss acc)
      (fun out w =>
        (∀ names, out = .ok names →
          namespaceUpdates w.trace = namespaceUpdates tr ++ nss.map (fun ns =>
              if isTenantNamespace app main rc ns.Name
              then { ns with toObjectMeta := setLabel ns.toObjectMeta tenantLabel t.Name }
              else ns)
          ∧ names = acc ++ (nss.filter (fun ns => isTenantNamespace app main rc ns.Name)).map
              (fun ns => ns.Name))
        ∧ ((∀ ev ∈ tr, ev.isListOrNamespaceUpdate = true) →
            ∀ ev ∈ w.trace, ev.isListOrNamespaceUpdate = true)
        ∧ ∃ more, w.trace = tr ++ more)
      (fun _ => False) ⟨api, tr⟩ := by
  induction nss with
  | nil =>
    intro acc api tr
    simp only [collectTenantNamespacesLoop]
    apply wp_pure
    refine ⟨by simp, by simp, [], by simp⟩
  | cons ns rest ih =>
    intro acc api tr
    simp only [collectTenantNamespacesLoop]
    apply wp_bind
    apply wp_clientUpdate
    intro res api1
    cases res with
    | error err =>
      apply wp_pure
      refine ⟨?_, ?_, ?_⟩
      · intro names h
        cases h
      · intro hall ev hev
        rcases List.mem_append.1 hev with h | h
        · exact hall ev h
        · simp only [List.mem_singleton] at h
          subst h
          rfl
      · exact ⟨_, rfl⟩
    | ok o =>
      apply wp_mono (ih _ api1 _)
      · intro out w1 hq
        refine ⟨?_, ?_, ?_⟩
        · intro names hn
          have h1 := hq.1 names hn
          by_cases hit : isTenantNamespace app main rc ns.Name = true
          · simpa [namespaceUpdates_append, namespaceUpdates, hit] using h1
          · simpa [namespaceUpdates_append, namespaceUpdates, hit] using h1
        · intro hall
          apply hq.2.1
          intro ev hev
          rcases List.mem_append.1 hev with h | h
          · exact hall ev h
          · simp only [List.mem_singleton] at h
            subst h
            rfl
        · rcases hq.2.2 with ⟨more, hm⟩
          exact ⟨_, by rw [hm, List.append_assoc]⟩
      · intro w1 hf
        exact hf

/-- The updates `collectTenantNamespaces` asks for, restricted to the
namespaces of the tenant. -/
theorem filter_map_labelled (t : Tenant) (l : List Namespace) :
    (l.map (labelled t)).filter (fun n => ofTenant t n.Name)
      = (l.filter (fun n => ofTenant t n.Name)).map (labelled t) := by
  induction l with
  | nil => rfl
  | cons n ns ih =>
    have hn : (labelled t n).Name = n.Name := by
      unfold labelled
      simp only []
      repeat' split
      all_goals rfl
    by_cases h : ofTenant t n.Name = true
    · simp [List.filter_cons, hn, h, ih]
    · simp [List.filter_cons, hn, h, ih]

/-- What `collectTenantNamespaces` does. -/
theorem collectTenantNamespaces_spec (e : Env σ) (t : Tenant) (api : σ) :
    wp (collectTenantNamespaces e t)
      (fun out w =>
        (∀ ev ∈ w.trace, ev.isListOrNamespaceUpdate = true)
        ∧ out.1 = { t with Status := { t.Status with
            TenantNamespaces := out.1.Status.TenantNamespaces } }
        ∧ (out.2 = none → ∃ l, w.trace.head? = some (.List .Namespace none (.ok l))
            ∧ (namespaceUpdates w.trace).filter (fun n => ofTenant t n.Name)
                = (l.filter (fun n => ofTenant t n.Name)).map (labelled t)
            ∧ out.1.Status.TenantNamespaces
                = (l.filter (fun n => ofTenant t n.Name)).map (fun n => n.Name)))
      (fun _ => False) ⟨api, []⟩ := by
  unfold collectTenantNamespaces
  apply wp_bind
  apply wp_clientList
  intro res api1
  cases res with
  | error err =>
    apply wp_pure
    simp [IOEvent.isListOrNamespaceUpdate]
  | ok l =>
    apply wp_bind
    apply wp_mono (collectTenantNamespacesLoop_spec e t _ _ _ l [] api1 _)
    · intro out w1 hq
      have hall := hq.2.1 (by simp [IOEvent.isListOrNamespaceUpdate])
      cases out with
      | error err =>
        apply wp_pure
        exact ⟨hall, rfl, by simp⟩
      | ok names =>
        apply wp_pure
        have h1 := hq.1 names rfl
        refine ⟨hall, rfl, ?_⟩
        intro _
        refine ⟨l, ?_, ?_, ?_⟩
        · rcases hq.2.2 with ⟨more, hm⟩
          rw [hm]
          rfl
        · have h2 := h1.1
          simp only [List.nil_append, namespaceUpdates] at h2
          have h3 : namespaceUpdates w1.trace = l.map (labelled t) := by
            rw [h2]
            rfl
          rw [h3, filter_map_labelled]
        · rw [h1.2]
          rfl
    · intro w1 hf
      exact hf

/-- What `collectRobots` does. -/
theorem collectRobots_spec (e : Env σ) (t : Tenant) (api : σ) :
    wp (collectRobots e t)
      (fun out w =>
        (∀ ev ∈ w.trace, ev.isList = true)
        ∧ out.1 = { t with Status := { t.Status with
            Robots := out.1.Status.Robots, RobotClusters := out.1.Status.RobotClusters } })
      (fun _ => False) ⟨api, []⟩ := by
  unfold collectRobots
  apply wp_bind
  apply wp_clientList
  intro res api1
  cases res with
  | error err =>
    apply wp_pure
    simp [IOEvent.isList]
  | ok l =>
    apply wp_bind
    apply wp_clientList
    intro res2 api2
    cases res2 with
    | error err =>
      apply wp_pure
      simp [IOEvent.isList]
    | ok l2 =>
      apply wp_pure
      simp [IOEvent.isList]

end Collect

/-! ## The claims on collection, routing, admission and conditions -/

section Claims2

variable {σ : Type}

theorem isWrite_of_isList (ev : IOEvent) (h : ev.isList = true) : ev.isWrite = false := by
  cases ev <;> first | rfl | simp [IOEvent.isList] at h

set_option maxRecDepth 100000 in
/-- C11, counterexample to the claim as stated: on a store that holds the
main namespace of the tenant, `collectTenantNamespaces` issues one write, the
update of that namespace with the label of the tenant, and the namespace in
the store is changed by it. -/
theorem C11_counterexample :
    ((collectTenantNamespaces fakeEnv testTenant ⟨namespaceStore, []⟩).2.trace.filter
        IOEvent.isWrite).length = 1
    ∧ namespaceUpdates (collectTenantNamespaces fakeEnv testTenant ⟨namespaceStore, []⟩).2.trace
        = [{ Name := "t-test-tenant", Labels := some [(tenantLabel, "test-tenant")] }]
    ∧ namespaceStore.namespaces = [{ Name := "t-test-tenant" }]
    ∧ (collectTenantNamespaces fakeEnv testTenant ⟨namespaceStore, []⟩).2.api.namespaces
        = [{ Name := "t-test-tenant", Labels := some [(tenantLabel, "test-tenant")] }] := by
  decide!

/-- C12 (amended): when the tenants can be listed, `enqueueFromNamespaceName`
enqueues, in the order listed, the tenants T for which the namespace name
begins with the tenant prefix `t-` followed by the name of T, whatever
follows: a name is enqueued if and only if it is the name of a listed tenant
and the namespace name is `t-`, the name and any rest. No delimiter is
required after the name of the tenant, and the main namespace of the default
tenant is not looked at. -/
theorem C12_enqueue_by_tenant_name (e : Env σ) (ns : String) (w : IOWorld σ)
    (items : List Tenant) (hlist : (e.list .Tenant none w.api).1 = .ok items) :
    (enqueueFromNamespaceName e ns w).1
      = .ok ((items.filter (fun t => HasPrefix ns (TenantPrefix ++ t.Name))).map
          (fun t => t.Name))
    ∧ ∀ name : String,
        name ∈ (items.filter (fun t => HasPrefix ns (TenantPrefix ++ t.Name))).map
          (fun t => t.Name)
        ↔ (∃ t ∈ items, t.Name = name) ∧ ∃ rest : String, ns = TenantPrefix ++ name ++ rest := by
  refine ⟨enqueueFromNamespaceName_eq e ns w items hlist, ?_⟩
  intro name
  simp only [List.mem_map, List.mem_filter]
  constructor
  · rintro ⟨t, ⟨ht, hp⟩, hn⟩
    subst hn
    exact ⟨⟨t, ht, rfl⟩, (HasPrefix_iff _ _).1 hp⟩
  · rintro ⟨⟨t, ht, hn⟩, hr⟩
    subst hn
    exact ⟨t, ⟨ht, (HasPrefix_iff _ _).2 hr⟩, rfl⟩

set_option maxRecDepth 100000 in
/-- C12, counterexample to the claim as stated: with the tenants `abc` and
`abc-xyz`, an event for the namespace `t-abc-xyz-app-1` enqueues `abc` as well
as `abc-xyz`; and an event for `t-abcd`, which is neither the main namespace
`t-abc` nor begins with `t-abc-`, enqueues `abc`. -/
theorem C12_counterexample :
    (enqueueFromNamespaceName fakeEnv "t-abc-xyz-app-1" ⟨twoTenantStore, []⟩).1
        = .ok ["abc", "abc-xyz"]
    ∧ (enqueueFromNamespaceName fakeEnv "t-abcd" ⟨twoTenantStore, []⟩).1 = .ok ["abc"]
    ∧ "t-abcd" ≠ TenantMainNamespace "abc"
    ∧ HasPrefix "t-abcd" (TenantMainNamespace "abc" ++ "-") = false := by
  decide!

set_option maxRecDepth 100000 in
/-- C12, the amended statement on the store with the tenants `abc` and
`abc-xyz`. -/
theorem C12_witness :
    (enqueueFromNamespaceName fakeEnv "t-abc-xyz-app-1" ⟨twoTenantStore, []⟩).1
      = .ok ((twoTenantStore.tenants.filter
          (fun t => HasPrefix "t-abc-xyz-app-1" (TenantPrefix ++ t.Name))).map (fun t => t.Name)) :=
  (C12_enqueue_by_tenant_name fakeEnv "t-abc-xyz-app-1" ⟨twoTenantStore, []⟩
    twoTenantStore.tenants rfl).1

/-- C13: for a create or update request that decodes, when the tenants can be
listed, `Handle` returns a response; it denies, with a reason that is not
empty, the default tenant if a tenant with another name is listed, and a
tenant with another name if the default tenant is listed; if neither is the
case and tenant-specific gateways are enabled or the tenant has no tenant
domain, it allows the request. So a request that is allowed for the default
tenant finds only the default tenant listed, and a request that is allowed for
another tenant finds no default tenant listed. -/
theorem C13_default_tenant_is_exclusive (v : tenantValidator) (e : Env σ) (req : Request)
    (w : IOWorld σ) (tenant : Tenant) (items : List Tenant)
    (hop : req.Operation = Create ∨ req.Operation = Update)
    (hdec : req.decoded = .ok tenant)
    (hlist : (e.list .Tenant none w.api).1 = .ok items) :
    ∃ resp, (Handle v e req w).1 = .ok resp
      ∧ (tenant.Name = DefaultTenantName → (∃ t ∈ items, t.Name ≠ DefaultTenantName) →
          resp.Allowed = false ∧ resp.Message ≠ "")
      ∧ (tenant.Name ≠ DefaultTenantName → (∃ t ∈ items, t.Name = DefaultTenantName) →
          resp.Allowed = false ∧ resp.Message ≠ "")
      ∧ (¬ (tenant.Name = DefaultTenantName ∧ ∃ t ∈ items, t.Name ≠ DefaultTenantName) →
          ¬ (tenant.Name ≠ DefaultTenantName ∧ ∃ t ∈ items, t.Name = DefaultTenantName) →
          (v.tenantSpecificGateways = true ∨ tenant.Spec.TenantDomain = "") →
          resp = Allowed "")
      ∧ (resp.Allowed = true →
          (tenant.Name = DefaultTenantName → ∀ t ∈ items, t.Name = DefaultTenantName)
          ∧ (tenant.Name ≠ DefaultTenantName → ∀ t ∈ items, t.Name ≠ DefaultTenantName)) := by
  have hnd : req.Operation ≠ Delete := by
    rcases hop with h | h
    · rw [h]
      decide
    · rw [h]
      decide
  rcases Handle_cases v e req w tenant items hnd hdec hlist with ⟨resp, hr, h1, h2, h3⟩
  refine ⟨resp, hr, ?_, ?_, ?_, ?_⟩
  · intro hn hex
    rw [h1 hn hex]
    exact ⟨rfl, by decide⟩
  · intro hn hex
    rw [h2 hn hex]
    exact ⟨rfl, by decide⟩
  · intro n1 n2 hg
    rw [h3 n1 n2]
    rcases hg with hg | hg
    · simp [hg]
    · simp [hg]
  · intro ha
    refine ⟨?_, ?_⟩
    · intro hn t ht
      by_contra hne
      rw [h1 hn ⟨t, ht, hne⟩] at ha
      exact absurd ha (by decide)
    · intro hn t ht he
      rw [h2 hn ⟨t, ht, he⟩] at ha
      exact absurd ha (by decide)

set_option maxRecDepth 100000 in
/-- C13 on a store that holds the default tenant: the creation of the tenant
`abc` is denied with a reason. -/
theorem C13_witness :
    ∃ resp, (Handle {} fakeEnv { Operation := Create, decoded := .ok { Name := "abc" } }
        ⟨defaultTenantStore, []⟩).1 = .ok resp
      ∧ resp.Allowed = false ∧ resp.Message ≠ "" := by
  rcases C13_default_tenant_is_exclusive {} fakeEnv
    { Operation := Create, decoded := .ok { Name := "abc" } } ⟨defaultTenantStore, []⟩
    { Name := "abc" } defaultTenantStore.tenants (Or.inl rfl) rfl rfl with ⟨resp, hr, _, h2, _⟩
  exact ⟨resp, hr, h2 (by decide) ⟨{ Name := DefaultTenantName }, by decide, rfl⟩⟩

/-- C14: for a create or update request that decodes, when the tenants can be
listed, `Handle` returns a response; with tenant-specific gateways disabled it
denies, with a reason that is not empty, every tenant whose tenant domain is
not empty; with tenant-specific gateways enabled, or with an empty tenant
domain, a denial comes from one of the two rules on the default tenant, and
the request is allowed when neither applies. -/
theorem C14_domain_rule (v : tenantValidator) (e : Env σ) (req : Request)
    (w : IOWorld σ) (tenant : Tenant) (items : List Tenant)
    (hop : req.Operation = Create ∨ req.Operation = Update)
    (hdec : req.decoded = .ok tenant)
    (hlist : (e.list .Tenant none w.api).1 = .ok items) :
    ∃ resp, (Handle v e req w).1 = .ok resp
      ∧ (v.tenantSpecificGateways = false → tenant.Spec.TenantDomain ≠ "" →
          resp.Allowed = false ∧ resp.Message ≠ "")
      ∧ ((v.tenantSpecificGateways = true ∨ tenant.Spec.TenantDomain = "") →
          (resp.Allowed = false ↔
            (tenant.Name = DefaultTenantName ∧ ∃ t ∈ items, t.Name ≠ DefaultTenantName)
            ∨ (tenant.Name ≠ DefaultTenantName ∧ ∃ t ∈ items, t.Name = DefaultTenantName))) := by
  have hnd : req.Operation ≠ Delete := by
    rcases hop with h | h
    · rw [h]
      decide
    · rw [h]
      decide
  rcases Handle_cases v e req w tenant items hnd hdec hlist with ⟨resp, hr, h1, h2, h3⟩
  refine ⟨resp, hr, ?_, ?_⟩
  · intro hg hd
    by_cases c1 : tenant.Name = DefaultTenantName ∧ ∃ t ∈ items, t.Name ≠ DefaultTenantName
    · rw [h1 c1.1 c1.2]
      exact ⟨rfl, by decide⟩
    · by_cases c2 : tenant.Name ≠ DefaultTenantName ∧ ∃ t ∈ items, t.Name = DefaultTenantName
      · rw [h2 c2.1 c2.2]
        exact ⟨rfl, by decide⟩
      · rw [h3 c1 c2, if_pos ⟨hg, hd⟩]
        exact ⟨rfl, by decide⟩
  · intro hg
    constructor
    · intro ha
      by_contra hc
      have c1 : ¬ (tenant.Name = DefaultTenantName ∧ ∃ t ∈ items, t.Name ≠ DefaultTenantName) :=
        fun h => hc (Or.inl h)
      have c2 : ¬ (tenant.Name ≠ DefaultTenantName ∧ ∃ t ∈ items, t.Name = DefaultTenantName) :=
        fun h => hc (Or.inr h)
      have hne : ¬ (v.tenantSpecificGateways = false ∧ tenant.Spec.TenantDomain ≠ "") := by
        rintro ⟨g1, g2⟩
        rcases hg with hg | hg
        · rw [hg] at g1
          exact absurd g1 (by decide)
        · exact g2 hg
      rw [h3 c1 c2, if_neg hne] at ha
      exact absurd ha (by decide)
    · rintro (c1 | c2)
      · rw [h1 c1.1 c1.2]
        rfl
      · rw [h2 c2.1 c2.2]
        rfl

set_option maxRecDepth 100000 in
/-- C14 on a store that holds a tenant with a tenant domain of its own: with
tenant-specific gateways disabled its update is denied with a reason. -/
theorem C14_witness :
    ∃ resp, (Handle { tenantSpecificGateways := false } fakeEnv
        { Operation := Update, decoded := .ok domainTenant } ⟨domainTenantStore, []⟩).1 = .ok resp
      ∧ resp.Allowed = false ∧ resp.Message ≠ "" := by
  rcases C14_domain_rule { tenantSpecificGateways := false } fakeEnv
    { Operation := Update, decoded := .ok domainTenant } ⟨domainTenantStore, []⟩
    domainTenant domainTenantStore.tenants (Or.inr rfl) rfl rfl with ⟨resp, hr, h1, _⟩
  exact ⟨resp, hr, h1 rfl (by decide)⟩

/-- C16: on a tenant whose first condition of type `tc` is `c`, `setCondition`
replaces `c` in place by a condition of type `tc` with the status and the
message given, whose `LastTransitionTime` is `now` if the status of `c` differs
from `v`, and the `LastTransitionTime` of `c` if the status of `c` is `v`,
whether or not the message changes. -/
theorem C16_lastTransitionTime (now : Time) (t : Tenant) (tc : TenantConditionType)
    (v : ConditionStatus) (msg : String) (pre post : List TenantCondition) (c : TenantCondition)
    (hc : t.Status.Conditions = pre ++ c :: post) (hty : c.Type_ = tc)
    (hpre : ∀ x ∈ pre, x.Type_ ≠ tc) :
    ∃ c1, (setCondition now t tc v msg).Status.Conditions = pre ++ c1 :: post
      ∧ c1.Type_ = tc ∧ c1.Status = v ∧ c1.Message = msg
      ∧ (c.Status ≠ v → c1.LastTransitionTime = now)
      ∧ (c.Status = v → c1.LastTransitionTime = c.LastTransitionTime) := by
  refine ⟨updateCondition now c v msg, ?_, ?_, rfl, rfl, ?_, ?_⟩
  · simp only [setCondition, hc]
    exact setConditionIn_split now tc v msg pre post c hty hpre
  · rw [updateCondition_Type]
    exact hty
  · intro h
    rw [updateCondition_LastTransitionTime, if_pos h]
  · intro h
    rw [updateCondition_LastTransitionTime, if_neg (not_not.2 h)]

/-- C16 on the tenant with the pending condition: the change of the status
sets `LastTransitionTime`, the change of the message alone does not. -/
theorem C16_witness :
    (∃ c1, (setCondition 7 pendingTenant TenantConditionNamespace ConditionTrue "pending"
        ).Status.Conditions = [] ++ c1 :: pendingTenant.Status.Conditions.tail
      ∧ c1.LastTransitionTime = 7)
    ∧ (∃ c1, (setCondition 7 pendingTenant TenantConditionNamespace ConditionFalse "other"
        ).Status.Conditions = [] ++ c1 :: pendingTenant.Status.Conditions.tail
      ∧ c1.LastTransitionTime = 1) := by
  refine ⟨?_, ?_⟩
  · rcases C16_lastTransitionTime 7 pendingTenant TenantConditionNamespace ConditionTrue
      "pending" [] pendingTenant.Status.Conditions.tail pendingCondition rfl rfl (by simp)
      with ⟨c1, h1, _, _, _, h5, _⟩
    exact ⟨c1, h1, h5 (by decide)⟩
  · rcases C16_lastTransitionTime 7 pendingTenant TenantConditionNamespace ConditionFalse
      "other" [] pendingTenant.Status.Conditions.tail pendingCondition rfl rfl (by simp)
      with ⟨c1, h1, _, _, _, _, h6⟩
    exact ⟨c1, h1, h6 rfl⟩

/-- C17: on a tenant whose first condition of type `tc` is `c`, `setCondition`
replaces `c` in place by a condition whose `LastUpdateTime` is `now` if the
status of `c` differs from `v` or its message differs from `msg`, and the
`LastUpdateTime` of `c` if both are equal; and on every tenant a second call
with the same type, status and message changes nothing, so neither
`LastUpdateTime` nor `LastTransitionTime`. -/
theorem C17_lastUpdateTime (now : Time) (t : Tenant) (tc : TenantConditionType)
    (v : ConditionStatus) (msg : String) (pre post : List TenantCondition) (c : TenantCondition)
    (hc : t.Status.Conditions = pre ++ c :: post) (hty : c.Type_ = tc)
    (hpre : ∀ x ∈ pre, x.Type_ ≠ tc) :
    (∃ c1, (setCondition now t tc v msg).Status.Conditions = pre ++ c1 :: post
      ∧ c1.Type_ = tc ∧ c1.Status = v ∧ c1.Message = msg
      ∧ (c.Status ≠ v ∨ c.Message ≠ msg → c1.LastUpdateTime = now)
      ∧ (c.Status = v → c.Message = msg →
          c1.LastUpdateTime = c.LastUpdateTime ∧ c1.LastTransitionTime = c.LastTransitionTime))
    ∧ ∀ (t2 : Tenant) (now1 now2 : Time),
        setCondition now2 (setCondition now1 t2 tc v msg) tc v msg
          = setCondition now1 t2 tc v msg := by
  refine ⟨⟨updateCondition now c v msg, ?_, ?_, rfl, rfl, ?_, ?_⟩, ?_⟩
  · simp only [setCondition, hc]
    exact setConditionIn_split now tc v msg pre post c hty hpre
  · rw [updateCondition_Type]
    exact hty
  · intro h
    rw [updateCondition_LastUpdateTime, if_pos h]
  · intro h1 h2
    rw [updateCondition_same now c v msg h1 h2]
    exact ⟨rfl, rfl⟩
  · intro t2 now1 now2
    simp only [setCondition, setConditionIn_idem]

/-- C17 on the tenant with the pending condition: the change of the message
alone sets `LastUpdateTime`. -/
theorem C17_witness :
    ∃ c1, (setCondition 7 pendingTenant TenantConditionNamespace ConditionFalse "other"
        ).Status.Conditions = [] ++ c1 :: pendingTenant.Status.Conditions.tail
      ∧ c1.LastUpdateTime = 7 := by
  rcases (C17_lastUpdateTime 7 pendingTenant TenantConditionNamespace ConditionFalse
      "other" [] pendingTenant.Status.Conditions.tail pendingCondition rfl rfl (by simp)).1
      with ⟨c1, h1, _, _, _, h5, _⟩
  exact ⟨c1, h1, h5 (Or.inr (by decide))⟩

/-- C18: if no type occurs twice in the conditions of a tenant, none occurs
twice after `setCondition`, for all arguments; and every sequence of calls of
`setCondition` on a tenant without conditions yields conditions in which no
type occurs twice. -/
theorem C18_one_condition_per_type (now : Time) (t : Tenant) (tc : TenantConditionType)
    (v : ConditionStatus) (msg : String)
    (h : (t.Status.Conditions.map (fun c => c.Type_)).Nodup) :
    ((setCondition now t tc v msg).Status.Conditions.map (fun c => c.Type_)).Nodup
    ∧ ∀ (t0 : Tenant) (calls : List (Time × TenantConditionType × ConditionStatus × String)),
        t0.Status.Conditions = [] →
        ((calls.foldl (fun t1 c => setCondition c.1 t1 c.2.1 c.2.2.1 c.2.2.2) t0
          ).Status.Conditions.map (fun c => c.Type_)).Nodup := by
  refine ⟨setConditionIn_nodup now tc v msg _ h, ?_⟩
  intro t0 calls h0
  have hgen : ∀ (cl : List (Time × TenantConditionType × ConditionStatus × String))
      (t1 : Tenant), (t1.Status.Conditions.map (fun c => c.Type_)).Nodup →
      ((cl.foldl (fun t1 c => setCondition c.1 t1 c.2.1 c.2.2.1 c.2.2.2) t1
        ).Status.Conditions.map (fun c => c.Type_)).Nodup := by
    intro cl
    induction cl with
    | nil =>
      intro t1 h1
      exact h1
    | cons c cs ih =>
      intro t1 h1
      exact ih _ (setConditionIn_nodup c.1 c.2.1 c.2.2.1 c.2.2.2 _ h1)
  exact hgen calls t0 (by rw [h0]; exact List.nodup_nil)

/-- C18 on the tenant with the pending condition. -/
theorem C18_witness :
    ((setCondition 7 pendingTenant TenantConditionGateway ConditionTrue "ready"
      ).Status.Conditions.map (fun c => c.Type_)).Nodup :=
  (C18_one_condition_per_type 7 pendingTenant TenantConditionGateway ConditionTrue "ready"
    (by decide)).1

/-- C19: `setCondition` keeps every entry of another type at its position and
as it is; if the list has an entry of type `tc`, the length of the list and
the type at every position stay the same; if it has none, the result is the
old list with one entry of type `tc`, with the status and the message given,
appended at the end. -/
theorem C19_update_in_place (now : Time) (t : Tenant) (tc : TenantConditionType)
    (v : ConditionStatus) (msg : String) :
    (∀ (i : Nat) (c : TenantCondition), t.Status.Conditions[i]? = some c → c.Type_ ≠ tc →
      (setCondition now t tc v msg).Status.Conditions[i]? = some c)
    ∧ (tc ∈ t.Status.Conditions.map (fun c => c.Type_) →
        (setCondition now t tc v msg).Status.Conditions.length = t.Status.Conditions.length
        ∧ (setCondition now t tc v msg).Status.Conditions.map (fun c => c.Type_)
            = t.Status.Conditions.map (fun c => c.Type_))
    ∧ (tc ∉ t.Status.Conditions.map (fun c => c.Type_) →
        ∃ c1, (setCondition now t tc v msg).Status.Conditions = t.Status.Conditions ++ [c1]
          ∧ c1.Type_ = tc ∧ c1.Status = v ∧ c1.Message = msg) := by
  refine ⟨setConditionIn_getElem? now tc v msg _, ?_, ?_⟩
  · intro hm
    have ht := setConditionIn_types now tc v msg t.Status.Conditions
    rw [if_pos hm] at ht
    refine ⟨?_, ht⟩
    have hl := congrArg List.length ht
    simpa using hl
  · intro hm
    refine ⟨_, setConditionIn_new now tc v msg _ ?_, rfl, rfl, rfl⟩
    intro x hx hxt
    exact hm (List.mem_map.2 ⟨x, hx, hxt⟩)

/-- C19 on the tenant with the pending condition: a condition of a new type
is appended, a condition of a type that is there keeps the list as long as it
is. -/
theorem C19_witness :
    (∃ c1, (setCondition 7 pendingTenant TenantConditionGateway ConditionTrue "ready"
        ).Status.Conditions = pendingTenant.Status.Conditions ++ [c1]
      ∧ c1.Type_ = TenantConditionGateway ∧ c1.Status = ConditionTrue ∧ c1.Message = "ready")
    ∧ (setCondition 7 pendingTenant TenantConditionNamespace ConditionTrue "ready"
        ).Status.Conditions.length = pendingTenant.Status.Conditions.length :=
  ⟨(C19_update_in_place 7 pendingTenant TenantConditionGateway ConditionTrue "ready").2.2
      (by decide),
    ((C19_update_in_place 7 pendingTenant TenantConditionNamespace ConditionTrue "ready").2.1
      (by decide)).1⟩

/-- C20: on a tenant in whose conditions no type occurs twice, after
`setCondition(t, tc, v, msg)` the value of `inCondition(t, tc)` is true if and
only if `v` is `ConditionTrue`, and `inCondition` for every other type is as
before. -/
theorem C20_inCondition_after_setCondition (now : Time) (t : Tenant)
    (tc : TenantConditionType) (v : ConditionStatus) (msg : String)
    (h : (t.Status.Conditions.map (fun c => c.Type_)).Nodup) :
    (inCondition (setCondition now t tc v msg) tc = true ↔ v = ConditionTrue)
    ∧ ∀ tc1, tc1 ≠ tc →
        inCondition (setCondition now t tc v msg) tc1 = inCondition t tc1 := by
  refine ⟨?_, ?_⟩
  · simp only [inCondition, setCondition]
    exact any_setConditionIn_same now tc v msg _ h
  · intro tc1 hne
    simp only [inCondition, setCondition]
    exact any_setConditionIn_other now tc tc1 v msg _ hne

/-- C20 on the tenant with the pending condition and on a tenant without
conditions. -/
theorem C20_witness :
    (inCondition (setCondition 7 pendingTenant TenantConditionNamespace ConditionTrue "ready")
        TenantConditionNamespace = true ↔ ConditionTrue = ConditionTrue)
    ∧ (inCondition (setCondition 7 testTenant TenantConditionNamespace ConditionFalse "pending")
        TenantConditionNamespace = true ↔ ConditionFalse = ConditionTrue) :=
  ⟨(C20_inCondition_after_setCondition 7 pendingTenant TenantConditionNamespace ConditionTrue
      "ready" (by decide)).1,
    (C20_inCondition_after_setCondition 7 testTenant TenantConditionNamespace ConditionFalse
      "pending" (by decide)).1⟩

end Claims2

/-! ## Names of the namespaces of a tenant -/

section Names

theorem data_injective {s t : String} (h : s.data = t.data) : s = t := String.ext h

theorem TenantMainNamespace_default : TenantMainNamespace DefaultTenantName = "default" := by
  decide

theorem TenantMainNamespace_other (n : String) (h : n ≠ DefaultTenantName) :
    TenantMainNamespace n = "t-" ++ n := by
  simp [TenantMainNamespace, h, TenantPrefix]

theorem RobotConfigNamespace_default : RobotConfigNamespace "default" = "robot-config" := by
  decide

theorem RobotConfigNamespace_other (m : String) (h : m ≠ "default") :
    RobotConfigNamespace m = m ++ "-robot-config" := by
  simp only [RobotConfigNamespace, h, if_false, RobotConfigCloudNamespace]
  rw [String.append_assoc]
  rfl

/-- A name that begins with the tenant prefix is not `default`. -/
theorem tenantPrefix_ne_default (n : String) : "t-" ++ n ≠ "default" := by
  intro h
  have h1 := congrArg String.data h
  rw [String.data_append] at h1
  have h2 := congrArg List.head? h1
  have h3 : ("t-".data ++ n.data).head? = some 't' := rfl
  rw [h3] at h2
  exact absurd h2 (by decide)

theorem data_TenantMainNamespace_other (n : String) (h : n ≠ DefaultTenantName) :
    (TenantMainNamespace n).data = 't' :: '-' :: n.data := by
  rw [TenantMainNamespace_other n h, String.data_append]
  rfl

theorem data_RobotConfigNamespace_main (n : String) (h : n ≠ DefaultTenantName) :
    (RobotConfigNamespace (TenantMainNamespace n)).data
      = 't' :: '-' :: (n.data ++ "-robot-config".data) := by
  rw [TenantMainNamespace_other n h, RobotConfigNamespace_other _ (tenantPrefix_ne_default n),
    String.data_append, String.data_append]
  rfl

theorem HasPrefix_of_data {s p : String} {rest : List Char} (h : s.data = p.data ++ rest) :
    HasPrefix s p = true := by
  unfold HasPrefix
  rw [ List.isPrefixOf_iff_prefix]
  exact ⟨rest, h.symm⟩

theorem data_of_HasPrefix {s p : String} (h : HasPrefix s p = true) :
    ∃ rest, s.data = p.data ++ rest := by
  unfold HasPrefix at h
  rw [ List.isPrefixOf_iff_prefix] at h
  rcases h with ⟨rest, hr⟩
  exact ⟨rest, hr.symm⟩

/-- The function `TenantMainNamespace` is injective. -/
theorem TenantMainNamespace_injective (x y : String)
    (h : TenantMainNamespace x = TenantMainNamespace y) : x = y := by
  by_cases hx : x = DefaultTenantName
  · by_cases hy : y = DefaultTenantName
    · rw [hx, hy]
    · rw [hx, TenantMainNamespace_default, TenantMainNamespace_other y hy] at h
      exact absurd h.symm (tenantPrefix_ne_default y)
  · by_cases hy : y = DefaultTenantName
    · rw [hy, TenantMainNamespace_default, TenantMainNamespace_other x hx] at h
      exact absurd h (tenantPrefix_ne_default x)
    · have h1 := congrArg String.data h
      rw [data_TenantMainNamespace_other x hx, data_TenantMainNamespace_other y hy] at h1
      simp only [List.cons.injEq, true_and] at h1
      exact data_injective h1

/-- The names attributed to a tenant other than the default tenant begin with
`t-` and the name of the tenant. -/
theorem owned_form (n x : String) (hn : n ≠ DefaultTenantName)
    (h : x = TenantMainNamespace n ∨ x = RobotConfigNamespace (TenantMainNamespace n)
      ∨ HasPrefix x (TenantMainNamespace n ++ "-app-") = true) :
    ∃ rest, x.data = 't' :: '-' :: (n.data ++ rest) := by
  rcases h with h | h | h
  · exact ⟨[], by rw [h, data_TenantMainNamespace_other n hn, List.append_nil]⟩
  · exact ⟨"-robot-config".data, by rw [h, data_RobotConfigNamespace_main n hn]⟩
  · rcases data_of_HasPrefix h with ⟨rest, hr⟩
    refine ⟨"-app-".data ++ rest, ?_⟩
    rw [hr, String.data_append, data_TenantMainNamespace_other n hn]
    simp

/-- The names attributed to the default tenant do not begin with `t`. -/
theorem default_form (x : String)
    (h : x = "default" ∨ x = "robot-config" ∨ HasPrefix x "app-" = true) :
    x.data.head? ≠ some 't' := by
  rcases h with h | h | h
  · rw [h]
    decide
  · rw [h]
    decide
  · rcases data_of_HasPrefix h with ⟨rest, hr⟩
    rw [hr]
    have : ("app-".data ++ rest).head? = some 'a' := rfl
    rw [this]
    decide

/-- Two names neither of which is a prefix of the other are not both at the
start of one string. -/
theorem no_common_extension (a b : String) (h1 : HasPrefix a b = false)
    (h2 : HasPrefix b a = false) (r1 r2 : List Char) (h : a.data ++ r1 = b.data ++ r2) :
    False := by
  have ha : a.data <+: a.data ++ r1 := List.prefix_append _ _
  have hb : b.data <+: a.data ++ r1 := by
    rw [h]
    exact List.prefix_append _ _
  rcases List.prefix_or_prefix_of_prefix ha hb with ⟨r, hr⟩ | ⟨r, hr⟩
  · rw [HasPrefix_of_data hr.symm] at h2
    exact absurd h2 (by decide)
  · rw [HasPrefix_of_data hr.symm] at h1
    exact absurd h1 (by decide)

/-- What it is for a name to be attributed to a tenant by
`collectTenantNamespaces`. -/
theorem ofTenant_iff (t : Tenant) (x : String) :
    ofTenant t x = true ↔
      x = TenantMainNamespace t.Name ∨ x = RobotConfigNamespace (TenantMainNamespace t.Name)
      ∨ HasPrefix x (if t.Name = DefaultTenantName then "app-"
          else TenantMainNamespace t.Name ++ "-app-") = true := by
  unfold ofTenant isTenantNamespace
  simp only [Bool.or_eq_true, decide_eq_true_eq]
  tauto

/-- No name is attributed to two tenants whose names are distinct and not a
prefix of one another. -/
theorem ofTenant_disjoint (ta tb : Tenant) (x : String) (hab : ta.Name ≠ tb.Name)
    (h1 : HasPrefix ta.Name tb.Name = false) (h2 : HasPrefix tb.Name ta.Name = false)
    (ha : ofTenant ta x = true) (hb : ofTenant tb x = true) : False := by
  rw [ofTenant_iff] at ha hb
  by_cases da : ta.Name = DefaultTenantName
  · by_cases db : tb.Name = DefaultTenantName
    · exact hab (da.trans db.symm)
    · rw [if_neg db] at hb
      rcases owned_form tb.Name x db hb with ⟨r, hr⟩
      rw [if_pos da, da, TenantMainNamespace_default, RobotConfigNamespace_default] at ha
      have := default_form x ha
      rw [hr] at this
      exact this rfl
  · rw [if_neg da] at ha
    rcases owned_form ta.Name x da ha with ⟨r1, hr1⟩
    by_cases db : tb.Name = DefaultTenantName
    · rw [if_pos db, db, TenantMainNamespace_default, RobotConfigNamespace_default] at hb
      have := default_form x hb
      rw [hr1] at this
      exact this rfl
    · rw [if_neg db] at hb
      rcases owned_form tb.Name x db hb with ⟨r2, hr2⟩
      rw [hr1] at hr2
      simp only [List.cons.injEq, true_and] at hr2
      exact no_common_extension ta.Name tb.Name h1 h2 r1 r2 hr2

end Names

/-! ## The reference to the pull secret -/

section PullSecretReference

end PullSecretReference

/-! ## Routing by the namespace of an object -/

section ObjectNamespace

theorem TrimPrefix_main (n : String) : TrimPrefix (TenantMainNamespace n) TenantPrefix = n := by
  by_cases hn : n = DefaultTenantName
  · rw [hn]
    decide
  · have hd := data_TenantMainNamespace_other n hn
    have hp : HasPrefix (TenantMainNamespace n) TenantPrefix = true :=
      @HasPrefix_of_data _ _ n.data (by rw [hd]; rfl)
    unfold TrimPrefix
    rw [if_pos hp, hd]
    rfl

end ObjectNamespace

/-! ## Random strings -/

section Random

variable {σ : Type}

theorem len_letterBytes : len letterBytes = 26 := by decide

theorem letter_mem (idx : Nat) (h : idx < 26) :
    letterBytes.data.getD idx 'a' ∈ letterBytes.data := by
  revert idx
  decide

theorem letter_utf8Size (c : Char) (h : c ∈ letterBytes.data) : c.utf8Size = 1 := by
  revert c
  decide

/-- A string of letters has as many bytes as characters. -/
theorem len_letters (l : List Char) (h : ∀ c ∈ l, c ∈ letterBytes.data) :
    len (String.mk l) = l.length := by
  unfold len
  rw [String.utf8ByteSize_mk]
  induction l with
  | nil => rfl
  | cons c cs ih =>
    have hc := letter_utf8Size c (h c (by simp))
    have hcs := ih (fun x hx => h x (by simp [hx]))
    simp only [String.utf8Len_cons, hcs, hc, List.length_cons]

theorem len_append (s t : String) : len (s ++ t) = len s + len t := by
  unfold len
  rcases s with ⟨a⟩
  rcases t with ⟨b⟩
  show String.utf8ByteSize (String.mk (a ++ b)) = _
  simp [String.utf8ByteSize_mk, String.utf8Len_append]

/-- The loop of `RandomString`: when it returns, the builder has grown by
`i + 1` letters and nothing is on the trace. -/
theorem randomStringLoop_spec (e : Env σ) (fuel : Nat) :
    ∀ (i : Int) (cache remain : Nat) (sb : List Char) (api : σ) (tr : List IOEvent),
    wp (randomStringLoop e fuel i cache remain sb)
      (fun s w => w.trace = tr ∧ s.data.length = sb.length + (i + 1).toNat
        ∧ ((∀ c ∈ sb, c ∈ letterBytes.data) → ∀ c ∈ s.data, c ∈ letterBytes.data))
      (fun w => w.trace = tr) ⟨api, tr⟩ := by
  induction fuel with
  | zero =>
    intro i cache remain sb api tr
    simp only [randomStringLoop]
    apply wp_ite
    · intro _
      apply wp_goDiverge
      rfl
    · intro hi
      apply wp_pure
      refine ⟨rfl, ?_, fun h => h⟩
      have : (i + 1).toNat = 0 := by omega
      simp [this]
  | succ fuel ih =>
    intro i cache remain sb api tr
    simp only [randomStringLoop]
    apply wp_ite
    · intro hi
      apply wp_bind
      apply wp_ite
      · intro _
        apply wp_bind
        apply wp_srcInt63
        intro x api1
        apply wp_pure
        apply wp_mono (ih _ _ _ _ api1 tr)
        · intro s w hq
          refine ⟨hq.1, ?_, ?_⟩
          · rw [hq.2.1]
            split
            · rename_i hw
              simp only [List.length_append, List.length_singleton]
              omega
            · rfl
          · intro hsb
            apply hq.2.2
            split
            · rename_i hw
              intro c hc
              rcases List.mem_append.1 hc with h | h
              · exact hsb c h
              · simp only [List.mem_singleton] at h
                rw [h]
                apply letter_mem
                simpa [len_letterBytes] using hw
            · exact hsb
        · intro w h
          exact h
      · intro _
        apply wp_pure
        apply wp_mono (ih _ _ _ _ api tr)
        · intro s w hq
          refine ⟨hq.1, ?_, ?_⟩
          · rw [hq.2.1]
            split
            · rename_i hw
              simp only [List.length_append, List.length_singleton]
              omega
            · rfl
          · intro hsb
            apply hq.2.2
            split
            · rename_i hw
              intro c hc
              rcases List.mem_append.1 hc with h | h
              · exact hsb c h
              · simp only [List.mem_singleton] at h
                rw [h]
                apply letter_mem
                simpa [len_letterBytes] using hw
            · exact hsb
        · intro w h
          exact h
    · intro hi
      apply wp_pure
      refine ⟨rfl, ?_, fun h => h⟩
      have : (i + 1).toNat = 0 := by omega
      simp [this]

/-- What `RandomString` returns, when it returns: `n` letters; nothing is put
on the trace. -/
theorem RandomString_spec (e : Env σ) (fuel : Nat) (n : Int) (api : σ) (tr : List IOEvent) :
    wp (RandomString fuel e n)
      (fun s w => w.trace = tr ∧ s.data.length = n.toNat
        ∧ ∀ c ∈ s.data, c ∈ letterBytes.data)
      (fun w => w.trace = tr) ⟨api, tr⟩ := by
  unfold RandomString
  apply wp_ite
  · intro _
    apply wp_goPanic
    rfl
  · intro hn
    apply wp_bind
    apply wp_srcInt63
    intro x api1
    apply wp_mono (randomStringLoop_spec e fuel _ _ _ _ api1 tr)
    · intro s w hq
      refine ⟨hq.1, ?_, hq.2.2 (by simp)⟩
      rw [hq.2.1]
      simp
    · intro w h
      exact h

/-- What `generateTenantDomain` returns, when it returns: an error if the
tenant subdomain has more than 61 bytes, and otherwise a random label of
letters followed by the tenant subdomain, 62 bytes in all. -/
theorem generateTenantDomain_spec (e : Env σ) (fuel : Nat) (r : Reconciler) (api : σ)
    (tr : List IOEvent) :
    wp (generateTenantDomain fuel e r)
      (fun g w => w.trace = tr ∧
        ((∀ err, g = .error err → 61 < len (".t." ++ r.domain))
        ∧ (∀ d, g = .ok d → len (".t." ++ r.domain) ≤ 61
            ∧ len d = 62
            ∧ ∃ label : String, d = label ++ (".t." ++ r.domain)
              ∧ label.length = 62 - len (".t." ++ r.domain)
              ∧ ∀ c ∈ label.data, c ∈ letterBytes.data)))
      (fun w => w.trace = tr) ⟨api, tr⟩ := by
  unfold generateTenantDomain
  apply wp_ite
  · intro h
    apply wp_pure
    refine ⟨rfl, ?_, ?_⟩
    · intro _ _
      exact h
    · intro d hd
      cases hd
  · intro h
    apply wp_bind
    apply wp_pure
    apply wp_bind
    apply wp_mono (RandomString_spec e fuel _ api tr)
    · intro s w hq
      apply wp_pure
      refine ⟨hq.1, ?_, ?_⟩
      · intro err he
        cases he
      · intro d hd
        cases hd
        have hl : s.data.length = 62 - len (".t." ++ r.domain) := by
          rw [hq.2.1]
          omega
        have hs : len s = s.data.length := len_letters s.data hq.2.2
        refine ⟨by omega, ?_, s, rfl, hl, hq.2.2⟩
        rw [len_append, hs, hl]
        omega
    · intro w h
      exact h

/-- The rule for `generateTenantDomain` inside a step function. -/
theorem wp_generateTenantDomain {e : Env σ} {fuel : Nat} {r : Reconciler}
    {Q : Except GoError String → IOWorld σ → Prop} {A : IOWorld σ → Prop}
    {api : σ} {tr : List IOEvent}
    (hErr : ∀ (err : GoError) (api1 : σ), Q (.error err) ⟨api1, tr⟩)
    (hOk : ∀ (d : String) (api1 : σ), len d = 62 → Q (.ok d) ⟨api1, tr⟩)
    (hA : ∀ api1 : σ, A ⟨api1, tr⟩) :
    wp (generateTenantDomain fuel e r) Q A ⟨api, tr⟩ := by
  apply wp_mono (generateTenantDomain_spec e fuel r api tr)
  · intro g w hq
    rcases w with ⟨api1, tr1⟩
    have ht : tr1 = tr := hq.1
    subst ht
    cases g with
    | error err => exact hErr err api1
    | ok d => exact hOk d api1 (hq.2.2 d rfl).2.1
  · intro w hq
    rcases w with ⟨api1, tr1⟩
    have ht : tr1 = tr := hq
    subst ht
    exact hA api1

theorem dnsEntryWrites_append (a b : List IOEvent) :
    dnsEntryWrites (a ++ b) = dnsEntryWrites a ++ dnsEntryWrites b := by
  induction a with
  | nil => rfl
  | cons ev evs ih =>
    cases ev with
    | Create k o res => cases k <;> simp [dnsEntryWrites, ih]
    | Update k o res => cases k <;> simp [dnsEntryWrites, ih]
    | _ => simp [dnsEntryWrites, ih]

set_option maxRecDepth 100000 in
set_option maxHeartbeats 1000000 in
/-- What `ensureDNS` records when it returns no error: a tenant domain of 62
bytes at most, if the tenant domain in the status it started from has 62 bytes
at most; and the DNS name it asks the store for is `*.` and that domain. -/
theorem ensureDNS_spec (e : Env σ) (fuel : Nat) (r : Reconciler) (t : Tenant) (api : σ) :
    wp (ensureDNS fuel e r t)
      (fun out w => out.2 = none →
        (len t.Status.TenantDomain ≤ 62 → len out.1.Status.TenantDomain ≤ 62)
        ∧ (∃ d, dnsEntryWrites w.trace = [d]
            ∧ d.Spec.DNSName = "*." ++ out.1.Status.TenantDomain)
        ∧ (len (getDefaultTenantDomain r t) ≤ 62 →
            out.1.Status.TenantDomain = getDefaultTenantDomain r t)
        ∧ (62 < len (getDefaultTenantDomain r t) →
            Contains t.Status.TenantDomain (".t." ++ r.domain) = true →
            out.1.Status.TenantDomain = t.Status.TenantDomain))
      (fun _ => True) ⟨api, []⟩ := by
  unfold ensureDNS
  repeat' (first
    | exact True.intro
    | with_reducible apply wp_pure
    | with_reducible apply wp_logPrintf
    | with_reducible apply wp_clientGet
    | with_reducible apply wp_clientCreate
    | with_reducible apply wp_clientUpdate
    | with_reducible apply wp_setConditionM
    | with_reducible apply wp_generateTenantDomain
    | with_reducible apply wp_bind
    | with_reducible apply wp_ite
    | intro _
    | (show wp _ _ _ _; split))
  all_goals
    simp_all [dnsEntryWrites_append, dnsEntryWrites, setCondition]

/-- The loop of `RandomString` returns when the fuel suffices, on a random
source every value of which begins with the index of a letter. -/
theorem randomStringLoop_returns (e : Env σ) (Inv : σ → Prop)
    (hsrc : ∀ s, Inv s → (e.int63 s).1 &&& letterIdxMask < 26 ∧ Inv (e.int63 s).2)
    (fuel : Nat) :
    ∀ (i : Int) (cache remain : Nat) (sb : List Char) (w : IOWorld σ),
    Inv w.api → remain + 12 * (i + 1).toNat ≤ fuel →
    ∃ s w1, randomStringLoop e fuel i cache remain sb w = (.ok s, w1) ∧ Inv w1.api := by
  induction fuel with
  | zero =>
    intro i cache remain sb w hinv hf
    have hi : ¬ i ≥ 0 := by omega
    simp only [randomStringLoop, hi, if_false]
    exact ⟨_, _, rfl, hinv⟩
  | succ fuel ih =>
    intro i cache remain sb w hinv hf
    by_cases hi : i ≥ 0
    · by_cases hr : remain = 0
      · have hs := hsrc w.api hinv
        have hw : decide ((e.int63 w.api).1 &&& letterIdxMask < len letterBytes) = true := by
          rw [len_letterBytes]
          simpa using hs.1
        rcases ih (i - 1) ((e.int63 w.api).1 >>> letterIdxBits) (letterIdxMax - 1)
          (sb ++ [letterBytes.data.getD ((e.int63 w.api).1 &&& letterIdxMask) 'a'])
          ⟨(e.int63 w.api).2, w.trace⟩ hs.2
          (by
            have : letterIdxMax - 1 = 11 := by decide
            rw [this]
            omega) with ⟨s, w1, h1, h2⟩
        refine ⟨s, w1, ?_, h2⟩
        simp only [randomStringLoop, hi, if_true, hr, bind, St.bind, srcInt63, pure, hw]
        exact h1
      · rcases ih
          (if decide (cache &&& letterIdxMask < len letterBytes) = true then i - 1 else i)
          (cache >>> letterIdxBits) (remain - 1)
          (if decide (cache &&& letterIdxMask < len letterBytes) = true
            then sb ++ [letterBytes.data.getD (cache &&& letterIdxMask) 'a'] else sb)
          w hinv
          (by
            split
            · omega
            · omega) with ⟨s, w1, h1, h2⟩
        refine ⟨s, w1, ?_, h2⟩
        simp only [randomStringLoop, hi, if_true, hr, if_false, bind, St.bind, pure]
        exact h1
    · simp only [randomStringLoop, hi, if_false]
      exact ⟨_, _, rfl, hinv⟩

/-- On such a source `RandomString(n)` returns for `n >= 0` when the fuel
suffices. -/
theorem RandomString_returns (e : Env σ) (Inv : σ → Prop)
    (hsrc : ∀ s, Inv s → (e.int63 s).1 &&& letterIdxMask < 26 ∧ Inv (e.int63 s).2)
    (fuel : Nat) (n : Int) (w : IOWorld σ) (hn : 0 ≤ n) (hinv : Inv w.api)
    (hf : 12 * n.toNat + 12 ≤ fuel) :
    ∃ s w1, RandomString fuel e n w = (.ok s, w1) ∧ Inv w1.api := by
  have hs := hsrc w.api hinv
  rcases randomStringLoop_returns e Inv hsrc fuel (n - 1) (e.int63 w.api).1 letterIdxMax []
    ⟨(e.int63 w.api).2, w.trace⟩ hs.2
    (by
      have : letterIdxMax = 12 := by decide
      rw [this]
      omega) with ⟨s, w1, h1, h2⟩
  refine ⟨s, w1, ?_, h2⟩
  have hn1 : ¬ n < 0 := by omega
  simp only [RandomString, hn1, if_false, bind, St.bind, srcInt63]
  exact h1

end Random

/-! ## The claims on names, random strings, the domain and the config map -/

section Claims3

variable {σ : Type}

/-- C21: `TenantMainNamespace("default") = "default"` and
`RobotConfigNamespace("default") = "robot-config"`; for every other tenant name
`n`, `TenantMainNamespace(n) = "t-" ++ n`, and for every other main namespace
`m`, `RobotConfigNamespace(m) = m ++ "-robot-config"`. -/
theorem C21_default_tenant_base_namespaces :
    TenantMainNamespace "default" = "default"
    ∧ RobotConfigNamespace "default" = "robot-config"
    ∧ (∀ n : String, n ≠ "default" → TenantMainNamespace n = "t-" ++ n)
    ∧ (∀ m : String, m ≠ "default" → RobotConfigNamespace m = m ++ "-robot-config")
    ∧ DefaultTenantName = "default" ∧ TenantPrefix = "t-"
    ∧ RobotConfigCloudNamespace = "robot-config" :=
  ⟨TenantMainNamespace_default, RobotConfigNamespace_default,
    fun n h => TenantMainNamespace_other n h, fun m h => RobotConfigNamespace_other m h,
    rfl, rfl, rfl⟩

/-- C21 on the tenant `abc`. -/
theorem C21_witness :
    TenantMainNamespace "abc" = "t-" ++ "abc"
    ∧ RobotConfigNamespace "t-abc" = "t-abc" ++ "-robot-config" :=
  ⟨C21_default_tenant_base_namespaces.2.2.1 "abc" (by decide),
    C21_default_tenant_base_namespaces.2.2.2.1 "t-abc" (by decide)⟩

theorem RobotConfigNamespace_ne_default (x : String) : RobotConfigNamespace x ≠ "default" := by
  by_cases hx : x = "default"
  · rw [hx]
    decide
  · rw [RobotConfigNamespace_other x hx]
    intro h
    have h1 := congrArg String.length h
    rw [String.length_append] at h1
    have h2 : "-robot-config".length = 13 := by decide
    have h3 : "default".length = 7 := by decide
    omega

/-- C22 (amended): the two functions are not idempotent. Applying
`TenantMainNamespace` twice yields the same as applying it once only for
`default`; for every other `x` the second application puts `t-` in front once
more. Applying `RobotConfigNamespace` twice appends `-robot-config` once more,
for every `x`, and so never yields the same as applying it once. -/
theorem C22_namespace_functions_not_idempotent (x : String) :
    (TenantMainNamespace (TenantMainNamespace x) = TenantMainNamespace x ↔ x = "default")
    ∧ (x ≠ "default" →
        TenantMainNamespace (TenantMainNamespace x) = "t-" ++ TenantMainNamespace x)
    ∧ RobotConfigNamespace (RobotConfigNamespace x) = RobotConfigNamespace x ++ "-robot-config"
    ∧ RobotConfigNamespace (RobotConfigNamespace x) ≠ RobotConfigNamespace x := by
  have hlen : ∀ y : String, "t-" ++ y ≠ y := by
    intro y h
    have h1 := congrArg String.length h
    rw [String.length_append] at h1
    have h2 : "t-".length = 2 := by decide
    omega
  have h2 : x ≠ "default" →
      TenantMainNamespace (TenantMainNamespace x) = "t-" ++ TenantMainNamespace x := by
    intro hx
    rw [TenantMainNamespace_other x hx]
    exact TenantMainNamespace_other _ (tenantPrefix_ne_default x)
  have h3 : RobotConfigNamespace (RobotConfigNamespace x)
      = RobotConfigNamespace x ++ "-robot-config" :=
    RobotConfigNamespace_other _ (RobotConfigNamespace_ne_default x)
  refine ⟨?_, h2, h3, ?_⟩
  · constructor
    · intro h
      by_contra hx
      rw [h2 hx] at h
      exact hlen _ h
    · intro hx
      rw [hx]
      decide
  · rw [h3]
    intro h
    have h1 := congrArg String.length h
    rw [String.length_append] at h1
    have h4 : "-robot-config".length = 13 := by decide
    omega

/-- C22, counterexample to the claim as stated: for `abc` the second
application of `TenantMainNamespace` yields `t-t-abc`, not `t-abc`, and the
second application of `RobotConfigNamespace` to `default` yields
`robot-config-robot-config`, not `robot-config`. -/
theorem C22_counterexample :
    TenantMainNamespace "abc" = "t-abc"
    ∧ TenantMainNamespace (TenantMainNamespace "abc") = "t-t-abc"
    ∧ TenantMainNamespace (TenantMainNamespace "abc") ≠ TenantMainNamespace "abc"
    ∧ RobotConfigNamespace "default" = "robot-config"
    ∧ RobotConfigNamespace (RobotConfigNamespace "default") = "robot-config-robot-config"
    ∧ RobotConfigNamespace (RobotConfigNamespace "default") ≠ RobotConfigNamespace "default" := by
  decide

/-- C22, the amended statement on `abc`. -/
theorem C22_witness :
    TenantMainNamespace (TenantMainNamespace "abc") = "t-" ++ TenantMainNamespace "abc" :=
  (C22_namespace_functions_not_idempotent "abc").2.1 (by decide)

/-- C23: for two distinct tenant names neither of which is a prefix of the
other, the main namespace and the robot-config namespace of the one differ
from the main namespace and the robot-config namespace of the other; and
`TenantMainNamespace` is injective on all names. -/
theorem C23_namespaces_collision_free (a b : String) (hab : a ≠ b)
    (h1 : HasPrefix a b = false) (h2 : HasPrefix b a = false) :
    TenantMainNamespace a ≠ TenantMainNamespace b
    ∧ TenantMainNamespace a ≠ RobotConfigNamespace (TenantMainNamespace b)
    ∧ RobotConfigNamespace (TenantMainNamespace a) ≠ TenantMainNamespace b
    ∧ RobotConfigNamespace (TenantMainNamespace a)
        ≠ RobotConfigNamespace (TenantMainNamespace b)
    ∧ ∀ x y : String, TenantMainNamespace x = TenantMainNamespace y → x = y := by
  have key : ∀ x : String,
      (x = TenantMainNamespace a ∨ x = RobotConfigNamespace (TenantMainNamespace a)) →
      (x = TenantMainNamespace b ∨ x = RobotConfigNamespace (TenantMainNamespace b)) →
      False := by
    intro x ha hb
    apply ofTenant_disjoint { Name := a } { Name := b } x hab h1 h2
    · rw [ofTenant_iff]
      rcases ha with h | h
      · exact Or.inl h
      · exact Or.inr (Or.inl h)
    · rw [ofTenant_iff]
      rcases hb with h | h
      · exact Or.inl h
      · exact Or.inr (Or.inl h)
  refine ⟨?_, ?_, ?_, ?_, TenantMainNamespace_injective⟩
  · intro h
    exact key _ (Or.inl rfl) (Or.inl h)
  · intro h
    exact key _ (Or.inl rfl) (Or.inr h)
  · intro h
    exact key _ (Or.inr rfl) (Or.inl h)
  · intro h
    exact key _ (Or.inr rfl) (Or.inr h)

/-- C23 on the tenants `abc` and `xyz`, and on the default tenant and
`abc`. -/
theorem C23_witness :
    TenantMainNamespace "abc" ≠ RobotConfigNamespace (TenantMainNamespace "xyz")
    ∧ RobotConfigNamespace (TenantMainNamespace "default") ≠ TenantMainNamespace "abc" :=
  ⟨(C23_namespaces_collision_free "abc" "xyz" (by decide) (by decide) (by decide)).2.1,
    (C23_namespaces_collision_free "default" "abc" (by decide) (by decide) (by decide)).2.2.1⟩

/-- C26: for `n >= 0`, whatever the random source yields, a result of
`RandomString(n)` is a string of exactly `n` characters, and of `n` bytes, all
of them letters of `letterBytes`; and the call returns when the fuel suffices,
on every random source each value of which begins with the index of a
letter. -/
theorem C26_RandomString_length (fuel : Nat) (e : Env σ) (n : Int) (w : IOWorld σ)
    (hn : 0 ≤ n) :
    (∀ s, (RandomString fuel e n w).1 = .ok s →
      s.length = n.toNat ∧ (len s : Int) = n ∧ ∀ c ∈ s.data, c ∈ letterBytes.data)
    ∧ (∀ Inv : σ → Prop, Inv w.api →
        (∀ x, Inv x → (e.int63 x).1 &&& letterIdxMask < 26 ∧ Inv (e.int63 x).2) →
        12 * n.toNat + 12 ≤ fuel →
        ∃ s, (RandomString fuel e n w).1 = .ok s) := by
  refine ⟨?_, ?_⟩
  · intro s hs
    have h := wp_ok (RandomString_spec e fuel n w.api w.trace) hs
    have hl : len s = s.data.length := len_letters s.data h.2.2
    refine ⟨h.2.1, ?_, h.2.2⟩
    rw [hl, h.2.1]
    omega
  · intro Inv hinv hsrc hf
    rcases RandomString_returns e Inv hsrc fuel n w hn hinv hf with ⟨s, w1, h, _⟩
    exact ⟨s, by rw [h]⟩

set_option maxRecDepth 100000 in
/-- C26 on a random source that replays two values and yields 0 from then
on. -/
theorem C26_witness :
    (RandomString 100 fakeEnv 10 ⟨longNameStore, []⟩).1 = .ok "lgbwydbaaa"
    ∧ "lgbwydbaaa".length = (10 : Int).toNat :=
  ⟨by decide!,
    ((C26_RandomString_length 100 fakeEnv 10 ⟨longNameStore, []⟩ (by decide)).1
      "lgbwydbaaa" (by decide!)).1⟩

/-- C27: `generateTenantDomain` returns an error if the tenant subdomain `.t.`
and the cluster domain has more than 61 bytes, and only then; a domain it
returns has exactly 62 bytes and is a label of letters of `letterBytes`, as
many as 62 less the length of the tenant subdomain and so one at least,
followed by the tenant subdomain; and with a tenant subdomain of 61 bytes at
most it returns a domain when the fuel suffices, on every random source each
value of which begins with the index of a letter. -/
theorem C27_generateTenantDomain (fuel : Nat) (e : Env σ) (r : Reconciler) (w : IOWorld σ) :
    (61 < len (".t." ++ r.domain) →
      ∃ err, (generateTenantDomain fuel e r w).1 = .ok (.error err))
    ∧ (∀ err, (generateTenantDomain fuel e r w).1 = .ok (.error err) →
        61 < len (".t." ++ r.domain))
    ∧ (∀ d, (generateTenantDomain fuel e r w).1 = .ok (.ok d) →
        len (".t." ++ r.domain) ≤ 61 ∧ len d = 62
        ∧ ∃ label : String, d = label ++ (".t." ++ r.domain)
          ∧ label.length = 62 - len (".t." ++ r.domain) ∧ 0 < label.length
          ∧ ∀ c ∈ label.data, c ∈ letterBytes.data)
    ∧ (len (".t." ++ r.domain) ≤ 61 → ∀ Inv : σ → Prop, Inv w.api →
        (∀ x, Inv x → (e.int63 x).1 &&& letterIdxMask < 26 ∧ Inv (e.int63 x).2) →
        12 * (62 - len (".t." ++ r.domain)) + 12 ≤ fuel →
        ∃ d, (generateTenantDomain fuel e r w).1 = .ok (.ok d)) := by
  refine ⟨?_, ?_, ?_, ?_⟩
  · intro h
    have hg : len (".t." ++ r.domain) > 61 := h
    simp only [generateTenantDomain, hg, if_true, pure]
    exact ⟨_, rfl⟩
  · intro err he
    exact (wp_ok (generateTenantDomain_spec e fuel r w.api w.trace) he).2.1 err rfl
  · intro d hd
    have h := (wp_ok (generateTenantDomain_spec e fuel r w.api w.trace) hd).2.2 d rfl
    rcases h with ⟨h1, h2, label, h3, h4, h5⟩
    exact ⟨h1, h2, label, h3, h4, by omega, h5⟩
  · intro hl Inv hinv hsrc hf
    have hg : ¬ len (".t." ++ r.domain) > 61 := by omega
    rcases RandomString_returns e Inv hsrc fuel ((62 : Int) - len (".t." ++ r.domain)) w
      (by omega) hinv (by omega) with ⟨s, w1, h, _⟩
    refine ⟨s ++ (".t." ++ r.domain), ?_⟩
    simp only [generateTenantDomain, hg, if_false, bind, St.bind, pure, h]

set_option maxRecDepth 100000 in
/-- C27 on the cluster domain `domain.local`, and on a cluster domain of 60
bytes. -/
theorem C27_witness :
    (generateTenantDomain 100 fakeEnv testReconciler ⟨longNameStore, []⟩).1
        = .ok (.ok "lgbwydbaaarfnaaaaaaaaaaaaaaaaaaaaaaaaaaaaaaaaaa.t.domain.local")
    ∧ len "lgbwydbaaarfnaaaaaaaaaaaaaaaaaaaaaaaaaaaaaaaaaa.t.domain.local" = 62
    ∧ ∃ err, (generateTenantDomain 100 fakeEnv
        { domain := "a-cluster-domain-that-is-as-long-as-sixty-bytes-in-all.local" }
        ⟨longNameStore, []⟩).1 = .ok (.error err) :=
  ⟨by decide!,
    ((C27_generateTenantDomain 100 fakeEnv testReconciler ⟨longNameStore, []⟩).2.2.1
      "lgbwydbaaarfnaaaaaaaaaaaaaaaaaaaaaaaaaaaaaaaaaa.t.domain.local" (by decide!)).2.1,
    (C27_generateTenantDomain 100 fakeEnv
      { domain := "a-cluster-domain-that-is-as-long-as-sixty-bytes-in-all.local" }
      ⟨longNameStore, []⟩).1 (by decide)⟩

set_option maxRecDepth 100000 in
/-- C28, the code at the failing input: when the template of the robot-setup
config map is in the store and its `Data` is the nil map,
`ensureRobotSetupConfig` panics on the write to the map, and so does the
`Reconcile` pass; with an empty map that is not nil it returns no error. -/
theorem C28_nil_data_panics :
    (fakeEnv.get .ConfigMap RobotConfigCloudNamespace RobotSetupConfigmap nilDataStore).1
        = .ok { Name := RobotSetupConfigmap, Namespace := RobotConfigCloudNamespace,
                Data := none }
    ∧ (ensureRobotSetupConfig fakeEnv testTenant ⟨nilDataStore, []⟩).1
        = .panic "assignment to entry in nil map"
    ∧ resultOn testReconciler nilDataStore = .panic "assignment to entry in nil map"
    ∧ (ensureRobotSetupConfig fakeEnv testTenant ⟨emptyDataStore, []⟩).1
        = .ok (setCondition 0 testTenant TenantConditionRobotSetup ConditionTrue
            "Robot-setup config synchronized", none) := by
  refine ⟨rfl, ?_, ?_, ?_⟩
  · decide!
  · decide!
  · decide!

/-- C29: for every tenant name `n`, the default tenant included, the main
namespace of `n` without the prefix `t-` is `n`, so that
`enqueueFromObjectNamespace` adds exactly one request, with the name `n`, for an
object in the main namespace of the tenant `n`. -/
theorem C29_object_namespace_routes_to_tenant (n : String) :
    TrimPrefix (TenantMainNamespace n) TenantPrefix = n
    ∧ enqueueFromObjectNamespace (TenantMainNamespace n) = [n] := by
  refine ⟨TrimPrefix_main n, ?_⟩
  unfold enqueueFromObjectNamespace
  rw [TrimPrefix_main]

/-- C30: when `collectTenantNamespaces` returns no error, the status of the
tenant holds, in the order listed by the store, the names of the listed
namespaces that are the main namespace of the tenant, its robot-config
namespace, or begin with its app prefix (`app-` for the default tenant, the
main namespace and `-app-` otherwise), and no other name; and for two tenants
with distinct names neither of which is a prefix of the other, no name is
attributed to both. -/
theorem C30_tenant_namespaces_recorded (e : Env σ) (t : Tenant) (api : σ) :
    (∃ t1 err, (collectTenantNamespaces e t ⟨api, []⟩).1 = .ok (t1, err)
      ∧ (err = none → ∃ l,
          (collectTenantNamespaces e t ⟨api, []⟩).2.trace.head?
            = some (.List .Namespace none (.ok l))
          ∧ t1.Status.TenantNamespaces
              = (l.filter (fun n => ofTenant t n.Name)).map (fun n => n.Name)))
    ∧ (∀ x : String, ofTenant t x = true ↔
        x = TenantMainNamespace t.Name ∨ x = RobotConfigNamespace (TenantMainNamespace t.Name)
        ∨ HasPrefix x (if t.Name = DefaultTenantName then "app-"
            else TenantMainNamespace t.Name ++ "-app-") = true)
    ∧ (∀ (ta tb : Tenant) (x : String), ta.Name ≠ tb.Name →
        HasPrefix ta.Name tb.Name = false → HasPrefix tb.Name ta.Name = false →
        ¬ (ofTenant ta x = true ∧ ofTenant tb x = true)) := by
  refine ⟨?_, ofTenant_iff t, ?_⟩
  · rcases wp_total (collectTenantNamespaces_spec e t api) with ⟨⟨t1, err⟩, hr, hq⟩
    refine ⟨t1, err, hr, ?_⟩
    intro he
    rcases hq.2.2 he with ⟨l, h1, _, h3⟩
    exact ⟨l, h1, h3⟩
  · intro ta tb x hab h1 h2 h
    exact ofTenant_disjoint ta tb x hab h1 h2 h.1 h.2

set_option maxRecDepth 100000 in
/-- C30 on a store that holds the main namespace of the test tenant, the
namespace of another tenant and an app namespace of the test tenant. -/
theorem C30_witness :
    (∃ t1, (collectTenantNamespaces fakeEnv testTenant
        ⟨{ namespaceStore with namespaces := [{ Name := "t-test-tenant" }, { Name := "t-other" },
            { Name := "t-test-tenant-app-1" }] }, []⟩).1 = .ok (t1, none)
      ∧ t1.Status.TenantNamespaces = ["t-test-tenant", "t-test-tenant-app-1"])
    ∧ ¬ (ofTenant { Name := "abc" } "t-abc-app-1" = true
        ∧ ofTenant { Name := "xyz" } "t-abc-app-1" = true) :=
  ⟨⟨{ testTenant with Status := { testTenant.Status with
        TenantNamespaces := ["t-test-tenant", "t-test-tenant-app-1"] } }, by decide!, by decide!⟩,
    (C30_tenant_namespaces_recorded fakeEnv testTenant namespaceStore).2.2
      { Name := "abc" } { Name := "xyz" } "t-abc-app-1" (by decide) (by decide) (by decide)⟩

end Claims3

section DeletionRuns

variable {σ : Type}

/-- A pass over a tenant in deletion, up to the call of `ensureDeleted`. -/
theorem Reconcile_deleted_eq (fuel : Nat) (e : Env σ) (r : Reconciler) (request : String) (s : σ)
    (t : Tenant) (hget : (e.get .Tenant "" request s).1 = .ok t)
    (hdel : t.DeletionTimestamp ≠ none) :
    runReconcile fuel e r request s
      = ((do
          let (deleted, err) ← step .ensureDeleted t Prod.snd (ensureDeleted e t)
          match err with
          | some err => return ({}, some (.wrap err ("delete tenant " ++ t.Name)))
          | none =>
            if !deleted then
              return ({ RequeueAfter := requeueFast }, none)
            else if containsString t.Finalizers finalizer then do
              lift (logPrintf ("Removing finalizer from tenant " ++ t.Name))
              let t := { t with Finalizers := stringsDelete t.Finalizers finalizer }
              let res ← lift (clientUpdate e .Tenant t)
              match res with
              | .error err =>
                return ({}, some (.wrap (.api err) ("remove finalizer from tenant " ++ t.Name)))
              | .ok t =>
                lift (logPrintf ("Tenant " ++ t.Name ++ " deleted"))
                return ({}, none)
            else do
              lift (logPrintf ("Tenant " ++ t.Name ++ " deleted"))
              return ({}, none)) : R σ (Result × Option GoError))
          ⟨(e.get .Tenant "" request s).2,
            [.io (.Get .Tenant "" request (.ok t)),
             .io (.Log ("Ensure clean-up of tenant " ++ t.Name))]⟩ := by
  unfold runReconcile Reconcile
  rcases hg : e.get .Tenant "" request s with ⟨res, s1⟩
  rw [hg] at hget
  simp only at hget
  subst hget
  simp only [bind, St.bind, lift, clientGet, hg, List.nil_append, List.map_cons, List.map_nil]
  rw [if_pos hdel]
  simp only [bind, St.bind, lift, logPrintf, record, List.nil_append, List.map_cons,
    List.map_nil, List.cons_append]
  first | rfl | done

/-- The pass over a tenant in deletion whose main namespace holds AppRollouts:
the requests it makes, and what it returns. -/
theorem Reconcile_deleted_appRollouts (fuel : Nat) (e : Env σ) (r : Reconciler)
    (request : String) (s : σ) (t : Tenant) (a : List AppRollout)
    (hget : (e.get .Tenant "" request s).1 = .ok t) (hdel : t.DeletionTimestamp ≠ none)
    (hl : (e.list .AppRollout (some (TenantMainNamespace t.Name))
      (e.get .Tenant "" request s).2).1 = .ok a)
    (ha : a ≠ []) :
    ioLog (runReconcile fuel e r request s).2.trace
      = [.Get .Tenant "" request (.ok t),
         .Log ("Ensure clean-up of tenant " ++ t.Name),
         .List .AppRollout (some (TenantMainNamespace t.Name)) (.ok a),
         .Log ("Deleting " ++ toString a.length ++ " AppRollouts in order to delete tenant "
           ++ t.Name),
         .DeleteAllOf .AppRollout (TenantMainNamespace t.Name)
           (e.deleteAllOf .AppRollout (TenantMainNamespace t.Name)
             (e.list .AppRollout (some (TenantMainNamespace t.Name))
               (e.get .Tenant "" request s).2).2).1]
    ∧ (runReconcile fuel e r request s).2.api
        = (e.deleteAllOf .AppRollout (TenantMainNamespace t.Name)
            (e.list .AppRollout (some (TenantMainNamespace t.Name))
              (e.get .Tenant "" request s).2).2).2
    ∧ ((e.deleteAllOf .AppRollout (TenantMainNamespace t.Name)
          (e.list .AppRollout (some (TenantMainNamespace t.Name))
            (e.get .Tenant "" request s).2).2).1 = none →
        (runReconcile fuel e r request s).1 = .ok ({ RequeueAfter := requeueFast }, none))
    ∧ (∀ x, (e.deleteAllOf .AppRollout (TenantMainNamespace t.Name)
          (e.list .AppRollout (some (TenantMainNamespace t.Name))
            (e.get .Tenant "" request s).2).2).1 = some x →
        (runReconcile fuel e r request s).1 = .ok ({}, some (.wrap
          (.wrap (.api x) ("delete AppRollouts of tenant " ++ t.Name))
          ("delete tenant " ++ t.Name)))) := by
  rw [Reconcile_deleted_eq fuel e r request s t hget hdel]
  rcases hl1 : e.list .AppRollout (some (TenantMainNamespace t.Name))
    (e.get .Tenant "" request s).2 with ⟨lres, s2⟩
  rw [hl1] at hl
  simp only at hl
  subst hl
  have hlen : a.length > 0 := by
    cases a with
    | nil => exact absurd rfl ha
    | cons x xs => simp
  rcases hd : e.deleteAllOf .AppRollout (TenantMainNamespace t.Name) s2 with ⟨derr, s3⟩
  cases derr with
  | none =>
    simp [bind, St.bind, step, mark, lift, ensureDeleted, clientList, hl1, hlen, logPrintf,
      record, clientDeleteAllOf, hd, pure]
  | some x =>
    simp [bind, St.bind, step, mark, lift, ensureDeleted, clientList, hl1, hlen, logPrintf,
      record, clientDeleteAllOf, hd, pure]

/-- The pass over a tenant in deletion whose main namespace holds no
AppRollout, but ChartAssignments: the requests it makes, and what it
returns. -/
theorem Reconcile_deleted_chartAssignments (fuel : Nat) (e : Env σ) (r : Reconciler)
    (request : String) (s : σ) (t : Tenant) (c : List ChartAssignment)
    (hget : (e.get .Tenant "" request s).1 = .ok t) (hdel : t.DeletionTimestamp ≠ none)
    (hl : (e.list .AppRollout (some (TenantMainNamespace t.Name))
      (e.get .Tenant "" request s).2).1 = .ok [])
    (hc : (e.list .ChartAssignment (some (TenantMainNamespace t.Name))
      (e.list .AppRollout (some (TenantMainNamespace t.Name))
        (e.get .Tenant "" request s).2).2).1 = .ok c)
    (hne : c ≠ []) :
    ioLog (runReconcile fuel e r request s).2.trace
      = [.Get .Tenant "" request (.ok t),
         .Log ("Ensure clean-up of tenant " ++ t.Name),
         .List .AppRollout (some (TenantMainNamespace t.Name)) (.ok []),
         .List .ChartAssignment (some (TenantMainNamespace t.Name)) (.ok c),
         .Log ("Waiting for " ++ toString c.length
           ++ " ChartAssignments to be deleted for tenant " ++ t.Name)]
    ∧ (runReconcile fuel e r request s).2.api
        = (e.list .ChartAssignment (some (TenantMainNamespace t.Name))
            (e.list .AppRollout (some (TenantMainNamespace t.Name))
              (e.get .Tenant "" request s).2).2).2
    ∧ (runReconcile fuel e r request s).1 = .ok ({ RequeueAfter := requeueFast }, none) := by
  rw [Reconcile_deleted_eq fuel e r request s t hget hdel]
  rcases hl1 : e.list .AppRollout (some (TenantMainNamespace t.Name))
    (e.get .Tenant "" request s).2 with ⟨lres, s2⟩
  rw [hl1] at hl hc
  simp only at hl hc
  subst hl
  rcases hc1 : e.list .ChartAssignment (some (TenantMainNamespace t.Name)) s2 with ⟨cres, s3⟩
  rw [hc1] at hc
  simp only at hc
  subst hc
  have hlen : c.length > 0 := by
    cases c with
    | nil => exact absurd rfl hne
    | cons x xs => simp
  simp [bind, St.bind, step, mark, lift, ensureDeleted, clientList, hl1, hc1, hlen, logPrintf,
    record, pure]

/-- A pass over a tenant in deletion asks the store to update the tenant only
after the store has answered both lists with the empty list. -/
theorem Reconcile_deleted_update (fuel : Nat) (e : Env σ) (r : Reconciler)
    (request : String) (s : σ) (t : Tenant)
    (hget : (e.get .Tenant "" request s).1 = .ok t) (hdel : t.DeletionTimestamp ≠ none)
    (hup : tenantUpdates (ioLog (runReconcile fuel e r request s).2.trace) ≠ []) :
    (e.list .AppRollout (some (TenantMainNamespace t.Name))
        (e.get .Tenant "" request s).2).1 = .ok []
    ∧ (e.list .ChartAssignment (some (TenantMainNamespace t.Name))
        (e.list .AppRollout (some (TenantMainNamespace t.Name))
          (e.get .Tenant "" request s).2).2).1 = .ok []
    ∧ (ioLog (runReconcile fuel e r request s).2.trace).take 4
        = [.Get .Tenant "" request (.ok t),
           .Log ("Ensure clean-up of tenant " ++ t.Name),
           .List .AppRollout (some (TenantMainNamespace t.Name)) (.ok []),
           .List .ChartAssignment (some (TenantMainNamespace t.Name)) (.ok [])]
    ∧ tenantUpdates (ioLog (runReconcile fuel e r request s).2.trace)
        = [{ t with Finalizers := stringsDelete t.Finalizers finalizer }] := by
  rcases hl1 : e.list .AppRollout (some (TenantMainNamespace t.Name))
    (e.get .Tenant "" request s).2 with ⟨lres, s2⟩
  cases lres with
  | error aerr =>
    exfalso
    apply hup
    rw [Reconcile_deleted_eq fuel e r request s t hget hdel]
    simp [bind, St.bind, step, mark, lift, ensureDeleted, clientList, hl1, pure, tenantUpdates]
  | ok a =>
    by_cases ha : a = []
    · subst ha
      rcases hc1 : e.list .ChartAssignment (some (TenantMainNamespace t.Name)) s2
        with ⟨cres, s3⟩
      cases cres with
      | error aerr =>
        exfalso
        apply hup
        rw [Reconcile_deleted_eq fuel e r request s t hget hdel]
        simp [bind, St.bind, step, mark, lift, ensureDeleted, clientList, hl1, hc1, pure,
          tenantUpdates]
      | ok c =>
        by_cases hc : c = []
        · subst hc
          refine ⟨rfl, rfl, ?_, ?_⟩
          · rw [Reconcile_deleted_eq fuel e r request s t hget hdel]
            by_cases hcs : containsString t.Finalizers finalizer = true
            · rcases hu : e.update .Tenant
                { t with Finalizers := stringsDelete t.Finalizers finalizer } s3 with ⟨ures, s4⟩
              cases ures <;>
                simp [bind, St.bind, step, mark, lift, ensureDeleted, clientList, hl1, hc1, pure,
                  hcs, hu, logPrintf, record, clientUpdate]
            · simp [bind, St.bind, step, mark, lift, ensureDeleted, clientList, hl1, hc1, pure,
                hcs, logPrintf, record]
          · have hup1 := hup
            rw [Reconcile_deleted_eq fuel e r request s t hget hdel] at hup1 ⊢
            by_cases hcs : containsString t.Finalizers finalizer = true
            · rcases hu : e.update .Tenant
                { t with Finalizers := stringsDelete t.Finalizers finalizer } s3 with ⟨ures, s4⟩
              cases ures <;>
                simp [bind, St.bind, step, mark, lift, ensureDeleted, clientList, hl1, hc1, pure,
                  hcs, hu, logPrintf, record, clientUpdate, tenantUpdates]
            · exfalso
              apply hup1
              simp [bind, St.bind, step, mark, lift, ensureDeleted, clientList, hl1, hc1, pure,
                hcs, logPrintf, record, tenantUpdates]
        · exfalso
          apply hup
          have h := (Reconcile_deleted_chartAssignments fuel e r request s t c hget hdel
            (by rw [hl1]) (by rw [hl1, hc1]) hc).1
          rw [h]
          simp [tenantUpdates]
    · exfalso
      apply hup
      have h := (Reconcile_deleted_appRollouts fuel e r request s t a hget hdel
        (by rw [hl1]) ha).1
      rw [h]
      simp [tenantUpdates]

/-- A pass over a tenant in deletion whose main namespace holds no AppRollout
makes no delete request. -/
theorem Reconcile_deleted_no_appRollouts (fuel : Nat) (e : Env σ) (r : Reconciler)
    (request : String) (s : σ) (t : Tenant)
    (hget : (e.get .Tenant "" request s).1 = .ok t) (hdel : t.DeletionTimestamp ≠ none)
    (hl : (e.list .AppRollout (some (TenantMainNamespace t.Name))
      (e.get .Tenant "" request s).2).1 = .ok []) :
    deleteRequests (ioLog (runReconcile fuel e r request s).2.trace) = [] := by
  have h := (Reconcile_deleted fuel e r request s t hget hdel).2.2.2.1
  apply h
  rw [Reconcile_deleted_eq fuel e r request s t hget hdel]
  rcases hl1 : e.list .AppRollout (some (TenantMainNamespace t.Name))
    (e.get .Tenant "" request s).2 with ⟨lres, s2⟩
  rw [hl1] at hl
  simp only at hl
  subst hl
  rcases hc1 : e.list .ChartAssignment (some (TenantMainNamespace t.Name)) s2 with ⟨cres, s3⟩
  cases cres with
  | error aerr =>
    simp [bind, St.bind, step, mark, lift, ensureDeleted, clientList, hl1, hc1, pure,
      IOEvent.appRollouts]
  | ok c =>
    by_cases hc : c.length > 0
    · simp [bind, St.bind, step, mark, lift, ensureDeleted, clientList, hl1, hc1, pure, hc,
        logPrintf, record, IOEvent.appRollouts]
    · have hc0 : c = [] := by
        cases c with
        | nil => rfl
        | cons x xs => simp at hc
      subst hc0
      by_cases hcs : containsString t.Finalizers finalizer = true
      · rcases hu : e.update .Tenant
          { t with Finalizers := stringsDelete t.Finalizers finalizer } s3 with ⟨ures, s4⟩
        cases ures <;>
          simp [bind, St.bind, step, mark, lift, ensureDeleted, clientList, hl1, hc1, pure,
            hcs, hu, logPrintf, record, clientUpdate, IOEvent.appRollouts]
      · simp [bind, St.bind, step, mark, lift, ensureDeleted, clientList, hl1, hc1, pure,
          hcs, logPrintf, record, IOEvent.appRollouts]

/-! ## The in-memory store in a pass over a tenant in deletion -/

theorem fakeGet_state (k : Kind) (ns name : String) (st : FakeStore) :
    (fakeGet k ns name st).2 = st := by
  unfold fakeGet
  split <;> rfl

theorem fakeList_state (k : Kind) (ns : Option String) (st : FakeStore) :
    (fakeList k ns st).2 = st := by
  unfold fakeList
  split <;> rfl

theorem filter_ne_nil_of_mem {α : Type} (l : List α) (p : α → Bool) (x : α) (hx : x ∈ l)
    (hp : p x = true) : l.filter p ≠ [] := by
  intro h
  have : x ∈ l.filter p := List.mem_filter.2 ⟨hx, hp⟩
  rw [h] at this
  exact absurd this (by simp)

theorem filter_eq_nil_of_forall {α : Type} (l : List α) (p : α → Bool)
    (h : ∀ x ∈ l, p x = false) : l.filter p = [] := by
  rw [List.filter_eq_nil_iff]
  intro x hx
  rw [h x hx]
  simp

end DeletionRuns

section DeletionClaims

variable {σ : Type}

/-- C3: in a pass over a tenant that carries a deletion timestamp, whatever
the environment: if the store holds AppRollouts in the main namespace of the
tenant (it answers the list of them with a list that is not empty) and
accepts the delete request, or if it holds no AppRollout there but
ChartAssignments, then `Reconcile` returns `RequeueAfter = requeueFast`, which
is 3 seconds, with a nil error, and asks the store neither to update the
tenant nor to write its status, so that the finalizers stay as they are. If
the pass asks the store to update the tenant, then the store holds neither:
the pass has asked for both lists and the store has answered both with the
empty list, and the one update is the removal of the finalizer. On the
in-memory store, whatever it holds: if an AppRollout or a ChartAssignment is
in the main namespace of the tenant, the pass returns `requeueFast` with a nil
error and leaves the tenants in the store as they are. -/
theorem C3_finalizer_kept_while_workloads_remain (fuel : Nat) (e : Env σ) (r : Reconciler)
    (request : String) (s : σ) (t : Tenant)
    (hget : (e.get .Tenant "" request s).1 = .ok t) (hdel : t.DeletionTimestamp ≠ none) :
    (∀ a, (e.list .AppRollout (some (TenantMainNamespace t.Name))
          (e.get .Tenant "" request s).2).1 = .ok a → a ≠ [] →
        (e.deleteAllOf .AppRollout (TenantMainNamespace t.Name)
          (e.list .AppRollout (some (TenantMainNamespace t.Name))
            (e.get .Tenant "" request s).2).2).1 = none →
        (runReconcile fuel e r request s).1 = .ok ({ RequeueAfter := requeueFast }, none)
        ∧ tenantUpdates (ioLog (runReconcile fuel e r request s).2.trace) = []
        ∧ statusWrites (ioLog (runReconcile fuel e r request s).2.trace) = [])
    ∧ (∀ c, (e.list .AppRollout (some (TenantMainNamespace t.Name))
          (e.get .Tenant "" request s).2).1 = .ok [] →
        (e.list .ChartAssignment (some (TenantMainNamespace t.Name))
          (e.list .AppRollout (some (TenantMainNamespace t.Name))
            (e.get .Tenant "" request s).2).2).1 = .ok c → c ≠ [] →
        (runReconcile fuel e r request s).1 = .ok ({ RequeueAfter := requeueFast }, none)
        ∧ (ioLog (runReconcile fuel e r request s).2.trace).filter IOEvent.isWrite = [])
    ∧ (tenantUpdates (ioLog (runReconcile fuel e r request s).2.trace) ≠ [] →
        (e.list .AppRollout (some (TenantMainNamespace t.Name))
          (e.get .Tenant "" request s).2).1 = .ok []
        ∧ (e.list .ChartAssignment (some (TenantMainNamespace t.Name))
            (e.list .AppRollout (some (TenantMainNamespace t.Name))
              (e.get .Tenant "" request s).2).2).1 = .ok []
        ∧ (ioLog (runReconcile fuel e r request s).2.trace).take 4
            = [.Get .Tenant "" request (.ok t),
               .Log ("Ensure clean-up of tenant " ++ t.Name),
               .List .AppRollout (some (TenantMainNamespace t.Name)) (.ok []),
               .List .ChartAssignment (some (TenantMainNamespace t.Name)) (.ok [])]
        ∧ tenantUpdates (ioLog (runReconcile fuel e r request s).2.trace)
            = [{ t with Finalizers := stringsDelete t.Finalizers finalizer }])
    ∧ (∀ (st : FakeStore) (t0 : Tenant), (fakeGet .Tenant "" request st).1 = .ok t0 →
        t0.DeletionTimestamp ≠ none → st.forbidden = [] →
        ((∃ x ∈ st.appRollouts, x.Namespace = TenantMainNamespace t0.Name)
          ∨ (∃ x ∈ st.chartAssignments, x.Namespace = TenantMainNamespace t0.Name)) →
        (runReconcile fuel fakeEnv r request st).1 = .ok ({ RequeueAfter := requeueFast }, none)
        ∧ (runReconcile fuel fakeEnv r request st).2.api.tenants = st.tenants)
    ∧ requeueFast = 3 * 1000000000 := by
  refine ⟨?_, ?_, ?_, ?_, by decide⟩
  · intro a hl ha hd
    have h := Reconcile_deleted_appRollouts fuel e r request s t a hget hdel hl ha
    refine ⟨h.2.2.1 hd, ?_, ?_⟩
    · rw [h.1]
      simp [tenantUpdates]
    · rw [h.1]
      simp [statusWrites]
  · intro c hl hc hne
    have h := Reconcile_deleted_chartAssignments fuel e r request s t c hget hdel hl hc hne
    refine ⟨h.2.2, ?_⟩
    rw [h.1]
    simp [IOEvent.isWrite]
  · exact Reconcile_deleted_update fuel e r request s t hget hdel
  · intro st t0 hg hd hf hex
    have hgs : (fakeEnv.get .Tenant "" request st).2 = st := fakeGet_state _ _ _ _
    by_cases ha : ∃ x ∈ st.appRollouts, x.Namespace = TenantMainNamespace t0.Name
    · rcases ha with ⟨x, hx, hxn⟩
      have hne : st.appRollouts.filter
          (fun o => decide (o.Namespace = TenantMainNamespace t0.Name)) ≠ [] :=
        filter_ne_nil_of_mem _ _ x hx (by simpa using hxn)
      have h := Reconcile_deleted_appRollouts fuel fakeEnv r request st t0 _ hg hd
        (by rw [hgs]; rfl) hne
      refine ⟨h.2.2.1 ?_, ?_⟩
      · rw [hgs]
        simp [fakeEnv, fakeList, fakeDeleteAllOf, hf]
      · rw [h.2.1, hgs]
        simp [fakeEnv, fakeList, fakeDeleteAllOf, hf, FakeStore.setObjs]
    · have hc : ∃ x ∈ st.chartAssignments, x.Namespace = TenantMainNamespace t0.Name := by
        rcases hex with h | h
        · exact absurd h ha
        · exact h
      rcases hc with ⟨x, hx, hxn⟩
      have hnil : st.appRollouts.filter
          (fun o => decide (o.Namespace = TenantMainNamespace t0.Name)) = [] := by
        apply filter_eq_nil_of_forall
        intro y hy
        have : ¬ y.Namespace = TenantMainNamespace t0.Name := fun h => ha ⟨y, hy, h⟩
        simpa using this
      have hne : st.chartAssignments.filter
          (fun o => decide (o.Namespace = TenantMainNamespace t0.Name)) ≠ [] :=
        filter_ne_nil_of_mem _ _ x hx (by simpa using hxn)
      have h := Reconcile_deleted_chartAssignments fuel fakeEnv r request st t0 _ hg hd
        (by rw [hgs]; simp only [fakeEnv, fakeList, FakeStore.objs, metaOf]; rw [hnil])
        (by rw [hgs]; rfl) hne
      refine ⟨h.2.2, ?_⟩
      rw [h.2.1, hgs]
      rfl

set_option maxRecDepth 100000 in
/-- C3 on the in-memory store that holds a tenant in deletion and one
ChartAssignment in its main namespace: the finalizer stays; and on the store
without such objects, where the finalizer goes, both lists were answered with
the empty list. -/
theorem C3_witness :
    ((runReconcile 100 fakeEnv testReconciler "test-tenant" chartAssignmentStore).1
        = .ok ({ RequeueAfter := requeueFast }, none)
      ∧ (runReconcile 100 fakeEnv testReconciler "test-tenant" chartAssignmentStore).2.api.tenants
        = chartAssignmentStore.tenants)
    ∧ (fakeEnv.list .AppRollout (some (TenantMainNamespace deletedTenant.Name))
          (fakeEnv.get .Tenant "" "test-tenant" cleanStore).2).1 = .ok [] :=
  ⟨(C3_finalizer_kept_while_workloads_remain 100 fakeEnv testReconciler "test-tenant"
      chartAssignmentStore deletedTenant rfl (by decide)).2.2.2.1 chartAssignmentStore
      deletedTenant rfl (by decide) rfl (Or.inr ⟨_, List.mem_singleton.2 rfl, by decide⟩),
    ((C3_finalizer_kept_while_workloads_remain 100 fakeEnv testReconciler "test-tenant"
      cleanStore deletedTenant rfl (by decide)).2.2.1 (by decide!)).1⟩

/-- C4 (amended): in a pass over a tenant that carries a deletion timestamp,
whatever the environment: if the store holds AppRollouts in the main namespace
of the tenant (it answers the list of them with a list that is not empty), the
pass makes exactly one delete request, for the AppRollouts of that namespace,
right after the list and the line it logs, whether or not the store accepts
it. If the store holds no AppRollout there, the pass makes no delete request;
and if it then holds ChartAssignments there, they are only waited for: the
pass logs that it waits for them, asks the store for no write at all, leaves
the store in the state in which it answered the list, and returns
`requeueFast` with a nil error. On the in-memory store, whatever it holds:
with an AppRollout in the main namespace the one delete request removes the
AppRollouts of that namespace and nothing else; with none but a
ChartAssignment there, the store after the pass is the store before it. -/
theorem C4_delete_request_for_appRollouts_only (fuel : Nat) (e : Env σ) (r : Reconciler)
    (request : String) (s : σ) (t : Tenant)
    (hget : (e.get .Tenant "" request s).1 = .ok t) (hdel : t.DeletionTimestamp ≠ none) :
    (∀ a, (e.list .AppRollout (some (TenantMainNamespace t.Name))
          (e.get .Tenant "" request s).2).1 = .ok a → a ≠ [] →
        deleteRequests (ioLog (runReconcile fuel e r request s).2.trace)
          = [(Kind.AppRollout, TenantMainNamespace t.Name)]
        ∧ ioLog (runReconcile fuel e r request s).2.trace
          = [.Get .Tenant "" request (.ok t),
             .Log ("Ensure clean-up of tenant " ++ t.Name),
             .List .AppRollout (some (TenantMainNamespace t.Name)) (.ok a),
             .Log ("Deleting " ++ toString a.length
               ++ " AppRollouts in order to delete tenant " ++ t.Name),
             .DeleteAllOf .AppRollout (TenantMainNamespace t.Name)
               (e.deleteAllOf .AppRollout (TenantMainNamespace t.Name)
                 (e.list .AppRollout (some (TenantMainNamespace t.Name))
                   (e.get .Tenant "" request s).2).2).1])
    ∧ ((e.list .AppRollout (some (TenantMainNamespace t.Name))
          (e.get .Tenant "" request s).2).1 = .ok [] →
        deleteRequests (ioLog (runReconcile fuel e r request s).2.trace) = []
        ∧ ∀ c, (e.list .ChartAssignment (some (TenantMainNamespace t.Name))
              (e.list .AppRollout (some (TenantMainNamespace t.Name))
                (e.get .Tenant "" request s).2).2).1 = .ok c → c ≠ [] →
            (runReconcile fuel e r request s).1 = .ok ({ RequeueAfter := requeueFast }, none)
            ∧ (ioLog (runReconcile fuel e r request s).2.trace).filter IOEvent.isWrite = []
            ∧ logLines (ioLog (runReconcile fuel e r request s).2.trace)
                = ["Ensure clean-up of tenant " ++ t.Name,
                   "Waiting for " ++ toString c.length
                     ++ " ChartAssignments to be deleted for tenant " ++ t.Name]
            ∧ (runReconcile fuel e r request s).2.api
                = (e.list .ChartAssignment (some (TenantMainNamespace t.Name))
                    (e.list .AppRollout (some (TenantMainNamespace t.Name))
                      (e.get .Tenant "" request s).2).2).2)
    ∧ (∀ (st : FakeStore) (t0 : Tenant), (fakeGet .Tenant "" request st).1 = .ok t0 →
        t0.DeletionTimestamp ≠ none → st.forbidden = [] →
        ((∃ x ∈ st.appRollouts, x.Namespace = TenantMainNamespace t0.Name) →
          deleteRequests (ioLog (runReconcile fuel fakeEnv r request st).2.trace)
            = [(Kind.AppRollout, TenantMainNamespace t0.Name)]
          ∧ (runReconcile fuel fakeEnv r request st).2.api
            = FakeStore.setObjs .AppRollout (st.appRollouts.filter
                (fun o => decide (o.Namespace ≠ TenantMainNamespace t0.Name))) st)
        ∧ ((∀ x ∈ st.appRollouts, x.Namespace ≠ TenantMainNamespace t0.Name) →
            (∃ x ∈ st.chartAssignments, x.Namespace = TenantMainNamespace t0.Name) →
            deleteRequests (ioLog (runReconcile fuel fakeEnv r request st).2.trace) = []
            ∧ (runReconcile fuel fakeEnv r request st).2.api = st)) := by
  refine ⟨?_, ?_, ?_⟩
  · intro a hl ha
    have h := Reconcile_deleted_appRollouts fuel e r request s t a hget hdel hl ha
    refine ⟨?_, h.1⟩
    rw [h.1]
    simp [deleteRequests]
  · intro hl
    refine ⟨Reconcile_deleted_no_appRollouts fuel e r request s t hget hdel hl, ?_⟩
    intro c hc hne
    have h := Reconcile_deleted_chartAssignments fuel e r request s t c hget hdel hl hc hne
    refine ⟨h.2.2, ?_, ?_, h.2.1⟩
    · rw [h.1]
      simp [IOEvent.isWrite]
    · rw [h.1]
      simp [logLines]
  · intro st t0 hg hd hf
    have hgs : (fakeEnv.get .Tenant "" request st).2 = st := fakeGet_state _ _ _ _
    refine ⟨?_, ?_⟩
    · rintro ⟨x, hx, hxn⟩
      have hne : st.appRollouts.filter
          (fun o => decide (o.Namespace = TenantMainNamespace t0.Name)) ≠ [] :=
        filter_ne_nil_of_mem _ _ x hx (by simpa using hxn)
      have h := Reconcile_deleted_appRollouts fuel fakeEnv r request st t0 _ hg hd
        (by rw [hgs]; rfl) hne
      refine ⟨?_, ?_⟩
      · rw [h.1]
        simp [deleteRequests]
      · rw [h.2.1, hgs]
        simp [fakeEnv, fakeList, fakeDeleteAllOf, hf, FakeStore.setObjs, FakeStore.objs, metaOf]
    · intro ha ⟨x, hx, hxn⟩
      have hnil : st.appRollouts.filter
          (fun o => decide (o.Namespace = TenantMainNamespace t0.Name)) = [] := by
        apply filter_eq_nil_of_forall
        intro y hy
        simpa using ha y hy
      have hne : st.chartAssignments.filter
          (fun o => decide (o.Namespace = TenantMainNamespace t0.Name)) ≠ [] :=
        filter_ne_nil_of_mem _ _ x hx (by simpa using hxn)
      have hl : (fakeEnv.list .AppRollout (some (TenantMainNamespace t0.Name))
          (fakeEnv.get .Tenant "" request st).2).1 = .ok [] := by
        rw [hgs]
        simp only [fakeEnv, fakeList, FakeStore.objs, metaOf]
        rw [hnil]
      have h := Reconcile_deleted_chartAssignments fuel fakeEnv r request st t0 _ hg hd hl
        (by rw [hgs]; rfl) hne
      refine ⟨Reconcile_deleted_no_appRollouts fuel fakeEnv r request st t0 hg hd hl, ?_⟩
      rw [h.2.1, hgs]
      rfl

set_option maxRecDepth 100000 in
/-- C4, the amended statement on the in-memory store that holds a tenant in
deletion and one AppRollout in its main namespace, and on the one that holds
one ChartAssignment there. -/
theorem C4_witness :
    (deleteRequests (ioLog (runReconcile 100 fakeEnv testReconciler "test-tenant"
        appRolloutStore).2.trace) = [(Kind.AppRollout, TenantMainNamespace deletedTenant.Name)]
      ∧ (runReconcile 100 fakeEnv testReconciler "test-tenant" appRolloutStore).2.api
        = FakeStore.setObjs .AppRollout (appRolloutStore.appRollouts.filter
            (fun o => decide (o.Namespace ≠ TenantMainNamespace deletedTenant.Name)))
            appRolloutStore)
    ∧ (deleteRequests (ioLog (runReconcile 100 fakeEnv testReconciler "test-tenant"
        chartAssignmentStore).2.trace) = []
      ∧ (runReconcile 100 fakeEnv testReconciler "test-tenant" chartAssignmentStore).2.api
        = chartAssignmentStore) :=
  ⟨((C4_delete_request_for_appRollouts_only 100 fakeEnv testReconciler "test-tenant"
      appRolloutStore deletedTenant rfl (by decide)).2.2 appRolloutStore deletedTenant rfl
      (by decide) rfl).1 ⟨_, List.mem_singleton.2 rfl, by decide⟩,
    ((C4_delete_request_for_appRollouts_only 100 fakeEnv testReconciler "test-tenant"
      chartAssignmentStore deletedTenant rfl (by decide)).2.2 chartAssignmentStore deletedTenant
      rfl (by decide) rfl).2 (by decide) ⟨_, List.mem_singleton.2 rfl, by decide⟩⟩

end DeletionClaims

section AdmissionClaims

variable {σ : Type}

end AdmissionClaims

section CollectionClaims

variable {σ : Type}

/-- The loop of `collectTenantNamespaces` and the answers of the store: if the
store rejects an update, the loop ends there with the error of the store,
wrapped; if the loop returns the names, the store has rejected no request. -/
theorem collectTenantNamespacesLoop_failed (e : Env σ) (t : Tenant)
    (app main rc : String) (nss : List Namespace) :
    ∀ (acc : List String) (api : σ) (tr : List IOEvent),
    wp (collectTenantNamespacesLoop e t app main rc nss acc)
      (fun out w => (∀ ev ∈ tr, ev.failed = false) →
        (∀ names, out = .ok names → ∀ ev ∈ w.trace, ev.failed = false)
        ∧ (∀ ev ∈ w.trace, ev.failed = true →
            ∃ o aerr, ev = .Update .Namespace o (.error aerr)
              ∧ out = .error (.wrap (.api aerr) "label namespace")
              ∧ w.trace.getLast? = some ev))
      (fun _ => False) ⟨api, tr⟩ := by
  induction nss with
  | nil =>
    intro acc api tr
    simp only [collectTenantNamespacesLoop]
    apply wp_pure
    intro hall
    refine ⟨fun _ _ => hall, ?_⟩
    intro ev hev hf
    rw [hall ev hev] at hf
    exact absurd hf (by simp)
  | cons ns rest ih =>
    intro acc api tr
    simp only [collectTenantNamespacesLoop]
    apply wp_bind
    apply wp_clientUpdate
    intro res api1
    cases res with
    | error err =>
      apply wp_pure
      intro hall
      refine ⟨?_, ?_⟩
      · intro names h
        cases h
      · intro ev hev hf
        rcases List.mem_append.1 hev with h | h
        · rw [hall ev h] at hf
          exact absurd hf (by simp)
        · simp only [List.mem_singleton] at h
          subst h
          exact ⟨_, err, rfl, rfl, by simp⟩
    | ok o =>
      apply wp_mono (ih _ api1 _)
      · intro out w1 hq hall
        apply hq
        intro ev hev
        rcases List.mem_append.1 hev with h | h
        · exact hall ev h
        · simp only [List.mem_singleton] at h
          subst h
          rfl
      · intro w1 hf
        exact hf

/-- The loop of `collectTenantNamespaces` returns an error only after the
store has rejected a request. -/
theorem collectTenantNamespacesLoop_error (e : Env σ) (t : Tenant)
    (app main rc : String) (nss : List Namespace) :
    ∀ (acc : List String) (api : σ) (tr : List IOEvent),
    wp (collectTenantNamespacesLoop e t app main rc nss acc)
      (fun out w => ∀ err, out = .error err → ∃ ev ∈ w.trace, ev.failed = true)
      (fun _ => False) ⟨api, tr⟩ := by
  induction nss with
  | nil =>
    intro acc api tr
    simp only [collectTenantNamespacesLoop]
    apply wp_pure
    intro err h
    cases h
  | cons ns rest ih =>
    intro acc api tr
    simp only [collectTenantNamespacesLoop]
    apply wp_bind
    apply wp_clientUpdate
    intro res api1
    cases res with
    | error err =>
      apply wp_pure
      intro _ _
      exact ⟨_, List.mem_append_right _ (List.mem_singleton.2 rfl), rfl⟩
    | ok o => exact ih _ api1 _

/-- Two conditions that hold after a run hold together. -/
theorem wp_and {S α : Type} {m : St S α} {Q1 Q2 : α → S → Prop} {A : S → Prop} {s : S}
    (h1 : wp m Q1 A s) (h2 : wp m Q2 A s) : wp m (fun a s1 => Q1 a s1 ∧ Q2 a s1) A s := by
  unfold wp at h1 h2 ⊢
  rcases hm : m s with ⟨r, s1⟩
  rw [hm] at h1 h2
  cases r with
  | ok a => exact ⟨h1, h2⟩
  | panic p => exact h1
  | diverge => exact h1

/-- What `collectTenantNamespaces` does when the store rejects a request: it
returns the error of the store, wrapped, and the tenant as it was given. -/
theorem collectTenantNamespaces_failed (e : Env σ) (t : Tenant) (api : σ) :
    wp (collectTenantNamespaces e t)
      (fun out w =>
        (∀ o aerr, IOEvent.Update .Namespace o (.error aerr) ∈ w.trace →
          out = (t, some (.wrap (.api aerr) "label namespace")))
        ∧ (∀ aerr, IOEvent.List .Namespace none (.error aerr) ∈ w.trace →
            out = (t, some (.wrap (.api aerr) "list namespaces")))
        ∧ (out.2 = none → ∀ ev ∈ w.trace, ev.failed = false)
        ∧ (out.2 ≠ none → out.1 = t ∧ ∃ ev ∈ w.trace, ev.failed = true))
      (fun _ => False) ⟨api, []⟩ := by
  unfold collectTenantNamespaces
  apply wp_bind
  apply wp_clientList
  intro res api1
  cases res with
  | error err =>
    apply wp_pure
    simp [IOEvent.failed]
  | ok l =>
    apply wp_bind
    apply wp_mono (wp_and (collectTenantNamespacesLoop_failed e t _ _ _ l [] api1 _)
      (collectTenantNamespacesLoop_error e t _ _ _ l [] api1 _))
    · intro out w1 hq2
      have hq := hq2.1
      have hqe := hq2.2
      have hq1 := hq (by simp [IOEvent.failed])
      cases out with
      | error err =>
        apply wp_pure
        refine ⟨?_, ?_, ?_, ?_⟩
        · intro o aerr hm
          rcases hq1.2 _ hm rfl with ⟨o1, aerr1, h1, h2, _⟩
          cases h1
          cases h2
          rfl
        · intro aerr hm
          rcases hq1.2 _ hm rfl with ⟨o1, aerr1, h1, _, _⟩
          cases h1
        · intro h
          cases h
        · intro _
          exact ⟨rfl, hqe err rfl⟩
      | ok names =>
        apply wp_pure
        have hall := hq1.1 names rfl
        refine ⟨?_, ?_, ?_, ?_⟩
        · intro o aerr hm
          have := hall _ hm
          simp [IOEvent.failed] at this
        · intro aerr hm
          have := hall _ hm
          simp [IOEvent.failed] at this
        · intro _
          exact hall
        · intro h
          exact absurd rfl h
    · intro w1 hf
      exact hf

/-- Go `collectRobots` returns an error exactly when the store has rejected
one of its two lists. -/
theorem collectRobots_failed (e : Env σ) (t : Tenant) (api : σ) :
    wp (collectRobots e t)
      (fun out w =>
        (out.2 = none → ∀ ev ∈ w.trace, ev.failed = false)
        ∧ (out.2 ≠ none → ∃ ev ∈ w.trace, ev.failed = true))
      (fun _ => False) ⟨api, []⟩ := by
  unfold collectRobots
  apply wp_bind
  apply wp_clientList
  intro res api1
  cases res with
  | error err =>
    apply wp_pure
    simp [IOEvent.failed]
  | ok l =>
    apply wp_bind
    apply wp_clientList
    intro res2 api2
    cases res2 with
    | error err =>
      apply wp_pure
      simp [IOEvent.failed]
    | ok l2 =>
      apply wp_pure
      simp [IOEvent.failed]

/-- C11 (amended): `collectRobots` returns, asks the store for lists only, so
that it issues no write, changes of the tenant only `Status.Robots` and
`Status.RobotClusters`, and returns an error exactly when the store has
rejected a list. `collectTenantNamespaces` returns, changes of the tenant only
`Status.TenantNamespaces`, and asks the store for nothing but the list of the
namespaces and updates of namespaces: no create, no delete. When it returns no
error, the store has rejected none of its requests, it has asked the store to
update each listed namespace of the tenant with the label of the tenant set,
in the order listed, and `Status.TenantNamespaces` holds the names of these
namespaces. When the store rejects an update of a namespace, the step fails:
it returns the error of the store, wrapped as `label namespace`, and the
tenant as it was given; and so for the list, wrapped as `list namespaces`. It
returns an error only after the store has rejected a request. -/
theorem C11_collection_writes_namespace_labels (e : Env σ) (t : Tenant) (api : σ) :
    (∃ t1 err, (collectRobots e t ⟨api, []⟩).1 = .ok (t1, err)
      ∧ (∀ ev ∈ (collectRobots e t ⟨api, []⟩).2.trace, ev.isList = true ∧ ev.isWrite = false)
      ∧ t1 = { t with Status := { t.Status with
          Robots := t1.Status.Robots, RobotClusters := t1.Status.RobotClusters } }
      ∧ (err = none → ∀ ev ∈ (collectRobots e t ⟨api, []⟩).2.trace, ev.failed = false)
      ∧ (err ≠ none → ∃ ev ∈ (collectRobots e t ⟨api, []⟩).2.trace, ev.failed = true))
    ∧ (∃ t1 err, (collectTenantNamespaces e t ⟨api, []⟩).1 = .ok (t1, err)
      ∧ (∀ ev ∈ (collectTenantNamespaces e t ⟨api, []⟩).2.trace,
          ev.isListOrNamespaceUpdate = true)
      ∧ t1 = { t with Status := { t.Status with
          TenantNamespaces := t1.Status.TenantNamespaces } }
      ∧ (err = none → ∃ l,
          (collectTenantNamespaces e t ⟨api, []⟩).2.trace.head?
            = some (.List .Namespace none (.ok l))
          ∧ (namespaceUpdates (collectTenantNamespaces e t ⟨api, []⟩).2.trace).filter
                (fun n => ofTenant t n.Name)
              = (l.filter (fun n => ofTenant t n.Name)).map (labelled t)
          ∧ t1.Status.TenantNamespaces
              = (l.filter (fun n => ofTenant t n.Name)).map (fun n => n.Name))
      ∧ (∀ o aerr, IOEvent.Update .Namespace o (.error aerr)
            ∈ (collectTenantNamespaces e t ⟨api, []⟩).2.trace →
          t1 = t ∧ err = some (.wrap (.api aerr) "label namespace"))
      ∧ (∀ aerr, IOEvent.List .Namespace none (.error aerr)
            ∈ (collectTenantNamespaces e t ⟨api, []⟩).2.trace →
          t1 = t ∧ err = some (.wrap (.api aerr) "list namespaces"))
      ∧ (err = none →
          ∀ ev ∈ (collectTenantNamespaces e t ⟨api, []⟩).2.trace, ev.failed = false)
      ∧ (err ≠ none → t1 = t
          ∧ ∃ ev ∈ (collectTenantNamespaces e t ⟨api, []⟩).2.trace, ev.failed = true)) := by
  refine ⟨?_, ?_⟩
  · rcases wp_total (wp_and (collectRobots_spec e t api) (collectRobots_failed e t api))
      with ⟨⟨t1, err⟩, hr, hq, hf⟩
    refine ⟨t1, err, hr, ?_, hq.2, hf.1, hf.2⟩
    intro ev hev
    exact ⟨hq.1 ev hev, isWrite_of_isList ev (hq.1 ev hev)⟩
  · rcases wp_total (wp_and (collectTenantNamespaces_spec e t api)
      (collectTenantNamespaces_failed e t api)) with ⟨⟨t1, err⟩, hr, hq, hf⟩
    refine ⟨t1, err, hr, hq.1, hq.2.1, hq.2.2, ?_, ?_, hf.2.2.1, hf.2.2.2⟩
    · intro o aerr hm
      have h := hf.1 o aerr hm
      exact ⟨congrArg Prod.fst h, congrArg Prod.snd h⟩
    · intro aerr hm
      have h := hf.2.1 aerr hm
      exact ⟨congrArg Prod.fst h, congrArg Prod.snd h⟩

set_option maxRecDepth 100000 in
/-- C11, the amended statement on the store that holds the main namespace of
the tenant: `collectRobots` issues no write; and on that store when it rejects
writes to namespaces: `collectTenantNamespaces` returns an error, and the store
has rejected a request. -/
theorem C11_witness :
    (∃ t1 err, (collectRobots fakeEnv testTenant ⟨namespaceStore, []⟩).1 = .ok (t1, err)
      ∧ (∀ ev ∈ (collectRobots fakeEnv testTenant ⟨namespaceStore, []⟩).2.trace,
          ev.isList = true ∧ ev.isWrite = false)
      ∧ t1 = { testTenant with Status := { testTenant.Status with
          Robots := t1.Status.Robots, RobotClusters := t1.Status.RobotClusters } }
      ∧ (err = none →
          ∀ ev ∈ (collectRobots fakeEnv testTenant ⟨namespaceStore, []⟩).2.trace,
            ev.failed = false)
      ∧ (err ≠ none →
          ∃ ev ∈ (collectRobots fakeEnv testTenant ⟨namespaceStore, []⟩).2.trace,
            ev.failed = true))
    ∧ (∃ ev ∈ (collectTenantNamespaces fakeEnv testTenant
        ⟨{ namespaceStore with forbidden := [.Namespace] }, []⟩).2.trace, ev.failed = true) :=
  ⟨(C11_collection_writes_namespace_labels fakeEnv testTenant namespaceStore).1,
    by
      rcases (C11_collection_writes_namespace_labels fakeEnv testTenant
        { namespaceStore with forbidden := [.Namespace] }).2
        with ⟨t1, err, hr, _, _, _, _, _, _, hne⟩
      have h0 : (collectTenantNamespaces fakeEnv testTenant
          ⟨{ namespaceStore with forbidden := [.Namespace] }, []⟩).1
          = .ok (testTenant,
              some (.wrap (.api (errForbidden "t-test-tenant")) "label namespace")) := by
        decide!
      rw [h0] at hr
      have he : err ≠ none := by
        intro h
        rw [h] at hr
        injection hr with hr1
        injection hr1 with _ hr2
        cases hr2
      exact (hne he).2⟩

end CollectionClaims

/-! ## Frames of the step functions, and whole passes -/

section Frames

variable {σ : Type}

theorem setCondition_Name (now : Time) (t : Tenant) (tc : TenantConditionType)
    (v : ConditionStatus) (msg : String) : (setCondition now t tc v msg).Name = t.Name := rfl

theorem setCondition_TenantDomain (now : Time) (t : Tenant) (tc : TenantConditionType)
    (v : ConditionStatus) (msg : String) :
    (setCondition now t tc v msg).Status.TenantDomain = t.Status.TenantDomain := rfl

theorem SetControllerReference_Name (owner : Tenant) (o : ObjectMeta) :
    (SetControllerReference owner o).Name = o.Name := by
  unfold SetControllerReference
  simp only []
  repeat' split
  all_goals rfl

set_option maxRecDepth 100000 in
/-- The loop of `ensureNamespace` keeps name and tenant domain of the tenant
and writes no config map. -/
theorem ensureNamespaceLoop_frame (e : Env σ) (nss : List String) :
    ∀ (t : Tenant) (api : σ) (tr : List IOEvent),
    wp (ensureNamespaceLoop e nss t)
      (fun out w => out.1.Name = t.Name ∧ out.1.Status.TenantDomain = t.Status.TenantDomain
        ∧ configMapWrites w.trace = configMapWrites tr)
      (fun _ => False) ⟨api, tr⟩ := by
  induction nss with
  | nil =>
    intro t api tr
    simp only [ensureNamespaceLoop]
    repeat' (first
      | with_reducible apply wp_pure
      | with_reducible apply wp_setConditionM
      | with_reducible apply wp_bind
      | intro _)
    all_goals simp_all [setCondition]
  | cons ns rest ih =>
    intro t api tr
    simp only [ensureNamespaceLoop]
    repeat' (first
      | (refine wp_mono (ih _ _ _) ?_ ?_)
      | with_reducible apply wp_pure
      | with_reducible apply wp_logPrintf
      | with_reducible apply wp_clientGet
      | with_reducible apply wp_clientCreate
      | with_reducible apply wp_clientUpdate
      | with_reducible apply wp_setConditionM
      | with_reducible apply wp_bind
      | with_reducible apply wp_ite
      | intro _
      | (show wp _ _ _ _; split))
    all_goals
      clear ih
      simp_all [setCondition, setLabel, configMapWrites_append, configMapWrites]

set_option maxRecDepth 100000 in
/-- The loop of `ensureServiceAccount` keeps name and tenant domain of the tenant
and writes no config map. -/
theorem ensureServiceAccountLoop_frame (e : Env σ) (ns : String) (l : List String) :
    ∀ (t : Tenant) (api : σ) (tr : List IOEvent),
    wp (ensureServiceAccountLoop e ns l t)
      (fun out w => out.1.Name = t.Name ∧ out.1.Status.TenantDomain = t.Status.TenantDomain
        ∧ configMapWrites w.trace = configMapWrites tr)
      (fun _ => False) ⟨api, tr⟩ := by
  induction l with
  | nil =>
    intro t api tr
    simp only [ensureServiceAccountLoop]
    repeat' (first
      | with_reducible apply wp_pure
      | with_reducible apply wp_setConditionM
      | with_reducible apply wp_bind
      | intro _)
    all_goals simp_all [setCondition]
  | cons x rest ih =>
    intro t api tr
    simp only [ensureServiceAccountLoop]
    repeat' (first
      | (refine wp_mono (ih _ _ _) ?_ ?_)
      | with_reducible apply wp_pure
      | with_reducible apply wp_logPrintf
      | with_reducible apply wp_clientGet
      | with_reducible apply wp_clientCreate
      | with_reducible apply wp_clientUpdate
      | with_reducible apply wp_setConditionM
      | with_reducible apply wp_bind
      | with_reducible apply wp_ite
      | intro _
      | (show wp _ _ _ _; split))
    all_goals
      clear ih
      simp_all [setCondition, setLabel, configMapWrites_append, configMapWrites]

set_option maxRecDepth 100000 in
/-- The loop of `ensurePermissions` keeps name and tenant domain of the tenant
and writes no config map. -/
theorem ensurePermissionsLoop_frame (e : Env σ) (l : List (NamespacedName × roleRefSubjects)) :
    ∀ (t : Tenant) (api : σ) (tr : List IOEvent),
    wp (ensurePermissionsLoop e l t)
      (fun out w => out.1.Name = t.Name ∧ out.1.Status.TenantDomain = t.Status.TenantDomain
        ∧ configMapWrites w.trace = configMapWrites tr)
      (fun _ => False) ⟨api, tr⟩ := by
  induction l with
  | nil =>
    intro t api tr
    simp only [ensurePermissionsLoop]
    repeat' (first
      | with_reducible apply wp_pure
      | with_reducible apply wp_setConditionM
      | with_reducible apply wp_bind
      | intro _)
    all_goals simp_all [setCondition]
  | cons x rest ih =>
    intro t api tr
    simp only [ensurePermissionsLoop]
    repeat' (first
      | (refine wp_mono (ih _ _ _) ?_ ?_)
      | with_reducible apply wp_pure
      | with_reducible apply wp_logPrintf
      | with_reducible apply wp_clientGet
      | with_reducible apply wp_clientCreate
      | with_reducible apply wp_clientUpdate
      | with_reducible apply wp_setConditionM
      | with_reducible apply wp_bind
      | with_reducible apply wp_ite
      | intro _
      | (show wp _ _ _ _; split))
    all_goals
      clear ih
      simp_all [setCondition, setLabel, configMapWrites_append, configMapWrites]

set_option maxRecDepth 100000 in
/-- The loop of `ensurePullSecret` keeps name and tenant domain of the tenant
and writes no config map. -/
theorem ensurePullSecretLoop_frame (e : Env σ) (ts : Secret) (l : List String) :
    ∀ (t : Tenant) (api : σ) (tr : List IOEvent),
    wp (ensurePullSecretLoop e ts l t)
      (fun out w => out.1.Name = t.Name ∧ out.1.Status.TenantDomain = t.Status.TenantDomain
        ∧ configMapWrites w.trace = configMapWrites tr)
      (fun _ => False) ⟨api, tr⟩ := by
  induction l with
  | nil =>
    intro t api tr
    simp only [ensurePullSecretLoop]
    repeat' (first
      | with_reducible apply wp_pure
      | with_reducible apply wp_setConditionM
      | with_reducible apply wp_bind
      | intro _)
    all_goals simp_all [setCondition]
  | cons x rest ih =>
    intro t api tr
    simp only [ensurePullSecretLoop]
    repeat' (first
      | (refine wp_mono (ih _ _ _) ?_ ?_)
      | with_reducible apply wp_pure
      | with_reducible apply wp_logPrintf
      | with_reducible apply wp_clientGet
      | with_reducible apply wp_clientCreate
      | with_reducible apply wp_clientUpdate
      | with_reducible apply wp_setConditionM
      | with_reducible apply wp_bind
      | with_reducible apply wp_ite
      | intro _
      | (show wp _ _ _ _; split))
    all_goals
      clear ih
      simp_all [setCondition, setLabel, configMapWrites_append, configMapWrites]

/-- Go `ensureNamespace` keeps name and tenant domain of the tenant and writes
no config map. -/
theorem ensureNamespace_frame (e : Env σ) (t : Tenant) (api : σ) (tr : List IOEvent) :
    wp (ensureNamespace e t)
      (fun out w => out.1.Name = t.Name ∧ out.1.Status.TenantDomain = t.Status.TenantDomain
        ∧ configMapWrites w.trace = configMapWrites tr)
      (fun _ => False) ⟨api, tr⟩ := by
  unfold ensureNamespace
  repeat' (first
    | exact ensureNamespaceLoop_frame _ _ _ _ _
    | with_reducible apply wp_pure
    | with_reducible apply wp_setConditionM
    | with_reducible apply wp_bind
    | with_reducible apply wp_ite
    | intro _)
  all_goals simp_all [setCondition]

/-- Go `ensureServiceAccount` keeps name and tenant domain of the tenant and
writes no config map. -/
theorem ensureServiceAccount_frame (e : Env σ) (t : Tenant) (api : σ) (tr : List IOEvent) :
    wp (ensureServiceAccount e t)
      (fun out w => out.1.Name = t.Name ∧ out.1.Status.TenantDomain = t.Status.TenantDomain
        ∧ configMapWrites w.trace = configMapWrites tr)
      (fun _ => False) ⟨api, tr⟩ :=
  ensureServiceAccountLoop_frame e _ _ t api tr

/-- Go `ensurePermissions` keeps name and tenant domain of the tenant and
writes no config map. -/
theorem ensurePermissions_frame (e : Env σ) (t : Tenant) (api : σ) (tr : List IOEvent) :
    wp (ensurePermissions e t)
      (fun out w => out.1.Name = t.Name ∧ out.1.Status.TenantDomain = t.Status.TenantDomain
        ∧ configMapWrites w.trace = configMapWrites tr)
      (fun _ => False) ⟨api, tr⟩ :=
  ensurePermissionsLoop_frame e _ t api tr

/-- Go `ensurePullSecret` keeps name and tenant domain of the tenant and
writes no config map. -/
theorem ensurePullSecret_frame (e : Env σ) (t : Tenant) (api : σ) (tr : List IOEvent) :
    wp (ensurePullSecret e t)
      (fun out w => out.1.Name = t.Name ∧ out.1.Status.TenantDomain = t.Status.TenantDomain
        ∧ configMapWrites w.trace = configMapWrites tr)
      (fun _ => False) ⟨api, tr⟩ := by
  unfold ensurePullSecret
  repeat' (first
    | (refine wp_mono (ensurePullSecretLoop_frame _ _ _ _ _ _) ?_ ?_)
    | with_reducible apply wp_pure
    | with_reducible apply wp_clientGet
    | with_reducible apply wp_setConditionM
    | with_reducible apply wp_bind
    | with_reducible apply wp_ite
    | intro _
    | (show wp _ _ _ _; split))
  all_goals simp_all [setCondition, configMapWrites_append, configMapWrites]

theorem configMapWrites_of_isListOrNamespaceUpdate (l : List IOEvent)
    (h : ∀ ev ∈ l, ev.isListOrNamespaceUpdate = true) : configMapWrites l = [] := by
  induction l with
  | nil => rfl
  | cons ev evs ih =>
    have h1 := h ev (by simp)
    have h2 := ih (fun x hx => h x (by simp [hx]))
    clear h ih
    cases ev with
    | Update k o res =>
      cases k <;> first
        | exact h2
        | exact absurd h1 (by simp [IOEvent.isListOrNamespaceUpdate])
    | List k ns res => exact h2
    | Get k ns n res => exact absurd h1 (by simp [IOEvent.isListOrNamespaceUpdate])
    | Create k o res => exact absurd h1 (by simp [IOEvent.isListOrNamespaceUpdate])
    | DeleteAllOf k ns res => exact absurd h1 (by simp [IOEvent.isListOrNamespaceUpdate])
    | StatusUpdate t res => exact absurd h1 (by simp [IOEvent.isListOrNamespaceUpdate])
    | Log msg => exact absurd h1 (by simp [IOEvent.isListOrNamespaceUpdate])
    | Stdout msg => exact absurd h1 (by simp [IOEvent.isListOrNamespaceUpdate])

theorem isListOrNamespaceUpdate_of_isList (ev : IOEvent) (h : ev.isList = true) :
    ev.isListOrNamespaceUpdate = true := by
  cases ev <;> first | rfl | simp [IOEvent.isList] at h

/-- Go `collectTenantNamespaces` keeps name and tenant domain of the tenant and
writes no config map. -/
theorem collectTenantNamespaces_frame (e : Env σ) (t : Tenant) (api : σ) :
    wp (collectTenantNamespaces e t)
      (fun out w => out.1.Name = t.Name ∧ out.1.Status.TenantDomain = t.Status.TenantDomain
        ∧ configMapWrites w.trace = [])
      (fun _ => False) ⟨api, []⟩ := by
  refine wp_mono (collectTenantNamespaces_spec e t api) ?_ (fun _ h => h)
  intro out w hq
  refine ⟨?_, ?_, configMapWrites_of_isListOrNamespaceUpdate _ hq.1⟩
  · rw [hq.2.1]
  · rw [hq.2.1]

/-- Go `collectRobots` keeps name and tenant domain of the tenant and writes no
config map. -/
theorem collectRobots_frame (e : Env σ) (t : Tenant) (api : σ) :
    wp (collectRobots e t)
      (fun out w => out.1.Name = t.Name ∧ out.1.Status.TenantDomain = t.Status.TenantDomain
        ∧ configMapWrites w.trace = [])
      (fun _ => False) ⟨api, []⟩ := by
  refine wp_mono (collectRobots_spec e t api) ?_ (fun _ h => h)
  intro out w hq
  refine ⟨?_, ?_, configMapWrites_of_isListOrNamespaceUpdate _
    (fun ev hev => isListOrNamespaceUpdate_of_isList ev (hq.1 ev hev))⟩
  · rw [hq.2]
  · rw [hq.2]

set_option maxRecDepth 100000 in
set_option maxHeartbeats 1000000 in
/-- Go `ensureRobotSetupConfig` keeps name and tenant domain of the tenant. -/
theorem ensureRobotSetupConfig_frame (e : Env σ) (t : Tenant) (api : σ) (tr : List IOEvent) :
    wp (ensureRobotSetupConfig e t)
      (fun out _ => out.1.Name = t.Name ∧ out.1.Status.TenantDomain = t.Status.TenantDomain)
      (fun _ => True) ⟨api, tr⟩ := by
  unfold ensureRobotSetupConfig
  repeat' (first
    | exact True.intro
    | with_reducible apply wp_pure
    | with_reducible apply wp_goPanic
    | with_reducible apply wp_logPrintf
    | with_reducible apply wp_clientGet
    | with_reducible apply wp_clientCreate
    | with_reducible apply wp_clientUpdate
    | with_reducible apply wp_setConditionM
    | with_reducible apply wp_bind
    | with_reducible apply wp_ite
    | intro _
    | (show wp _ _ _ _; split))
  all_goals simp_all [setCondition]

set_option maxRecDepth 100000 in
set_option maxHeartbeats 1000000 in
/-- Go `ensureDNS` keeps the name and the PullSecret condition of the tenant
and writes no config map. -/
theorem ensureDNS_frame (e : Env σ) (fuel : Nat) (r : Reconciler) (t : Tenant) (api : σ)
    (tr : List IOEvent) :
    wp (ensureDNS fuel e r t)
      (fun out w => out.1.Name = t.Name
        ∧ conditionOf out.1 TenantConditionPullSecret = conditionOf t TenantConditionPullSecret
        ∧ configMapWrites w.trace = configMapWrites tr)
      (fun w => configMapWrites w.trace = configMapWrites tr) ⟨api, tr⟩ := by
  have hne : TenantConditionPullSecret ≠ TenantConditionDomain := by decide
  unfold ensureDNS
  repeat' (first
    | with_reducible apply wp_pure
    | with_reducible apply wp_logPrintf
    | with_reducible apply wp_clientGet
    | with_reducible apply wp_clientCreate
    | with_reducible apply wp_clientUpdate
    | with_reducible apply wp_setConditionM
    | with_reducible apply wp_generateTenantDomain
    | with_reducible apply wp_bind
    | with_reducible apply wp_ite
    | intro _
    | (show wp _ _ _ _; split))
  all_goals
    try simp only [conditionOf_setCondition_other _ _ _ _ _ _ hne]
    simp_all [setCondition_Name, setCondition_TenantDomain, conditionOf, configMapWrites_append,
      configMapWrites]

set_option maxRecDepth 100000 in
/-- Go `ensureCertificate` keeps name, tenant domain and PullSecret condition
of the tenant and writes no config map. -/
theorem ensureCertificate_frame (e : Env σ) (t : Tenant) (api : σ) (tr : List IOEvent) :
    wp (ensureCertificate e t)
      (fun out w => out.1.Name = t.Name ∧ out.1.Status.TenantDomain = t.Status.TenantDomain
        ∧ conditionOf out.1 TenantConditionPullSecret = conditionOf t TenantConditionPullSecret
        ∧ configMapWrites w.trace = configMapWrites tr)
      (fun _ => False) ⟨api, tr⟩ := by
  have hne : TenantConditionPullSecret ≠ TenantConditionCertificate := by decide
  unfold ensureCertificate
  repeat' (first
    | with_reducible apply wp_pure
    | with_reducible apply wp_logPrintf
    | with_reducible apply wp_clientGet
    | with_reducible apply wp_clientCreate
    | with_reducible apply wp_clientUpdate
    | with_reducible apply wp_setConditionM
    | with_reducible apply wp_bind
    | with_reducible apply wp_ite
    | intro _
    | (show wp _ _ _ _; split))
  all_goals
    try simp only [conditionOf_setCondition_other _ _ _ _ _ _ hne]
    simp_all [setCondition_Name, setCondition_TenantDomain, conditionOf, configMapWrites_append,
      configMapWrites]

set_option maxRecDepth 100000 in
/-- Go `ensureGateway` keeps name, tenant domain and PullSecret condition of the
tenant and writes no config map. -/
theorem ensureGateway_frame (e : Env σ) (t : Tenant) (api : σ) (tr : List IOEvent) :
    wp (ensureGateway e t)
      (fun out w => out.1.Name = t.Name ∧ out.1.Status.TenantDomain = t.Status.TenantDomain
        ∧ conditionOf out.1 TenantConditionPullSecret = conditionOf t TenantConditionPullSecret
        ∧ configMapWrites w.trace = configMapWrites tr)
      (fun _ => False) ⟨api, tr⟩ := by
  have hne : TenantConditionPullSecret ≠ TenantConditionGateway := by decide
  unfold ensureGateway
  repeat' (first
    | with_reducible apply wp_pure
    | with_reducible apply wp_logPrintf
    | with_reducible apply wp_clientGet
    | with_reducible apply wp_clientCreate
    | with_reducible apply wp_clientUpdate
    | with_reducible apply wp_setConditionM
    | with_reducible apply wp_bind
    | with_reducible apply wp_ite
    | intro _
    | (show wp _ _ _ _; split))
  all_goals
    try simp only [conditionOf_setCondition_other _ _ _ _ _ _ hne]
    simp_all [setCondition_Name, setCondition_TenantDomain, conditionOf, configMapWrites_append,
      configMapWrites]

/-- Go `updateTenantStatus` writes no config map. -/
theorem updateTenantStatus_frame (e : Env σ) (t : Tenant) (api : σ) (tr : List IOEvent) :
    wp (updateTenantStatus e t)
      (fun _ w => configMapWrites w.trace = configMapWrites tr)
      (fun _ => False) ⟨api, tr⟩ := by
  unfold updateTenantStatus
  repeat' (first
    | with_reducible apply wp_pure
    | with_reducible apply wp_logPrintf
    | with_reducible apply wp_clientStatusUpdate
    | with_reducible apply wp_bind
    | intro _
    | (show wp _ _ _ _; split))
  all_goals simp_all [configMapWrites_append, configMapWrites]

end Frames

section PassRules

variable {σ α β : Type}

/-- A call of a step function, by a condition that holds after the
function. -/
theorem wp_step_of {s : Step} {t : Tenant} {m : M σ (β × Option GoError)}
    {Q : β × Option GoError → World σ → Prop} {A : World σ → Prop} {api : σ} {tr : List Event}
    {Qm : β × Option GoError → IOWorld σ → Prop} {Am : IOWorld σ → Prop}
    (hm : wp m Qm Am ⟨api, []⟩)
    (hQ : ∀ (b : β) (c : Option GoError) (evs : List IOEvent) (api1 : σ), Qm (b, c) ⟨api1, evs⟩ →
      Q (b, c) ⟨api1, tr ++ (.enter s t :: evs.map Event.io ++ [.leave s c])⟩)
    (hA : ∀ (evs : List IOEvent) (api1 : σ), Am ⟨api1, evs⟩ →
      A ⟨api1, tr ++ (.enter s t :: evs.map Event.io)⟩) :
    wp (step s t Prod.snd m) Q A ⟨api, tr⟩ := by
  apply wp_step
  refine wp_mono hm ?_ ?_
  · intro a w1 h
    exact hQ a.1 a.2 w1.trace w1.api h
  · intro w1 h
    exact hA w1.trace w1.api h

/-- The bookkeeping after a step, by a condition on what the report puts on
the trace. -/
theorem wp_noteFailure_log {last err : Option GoError} {report : GoError → M σ Unit}
    {Q : Option GoError → World σ → Prop} {A : World σ → Prop} {api : σ} {tr : List Event}
    (P : List IOEvent → Prop) (hP : P [])
    (hrep : ∀ (x : GoError) (api1 : σ),
      wp (report x) (fun _ w1 => P w1.trace) (fun _ => False) ⟨api1, []⟩)
    (hQ : ∀ (evs : List IOEvent) (api1 : σ), P evs →
      Q (keepLast last err) ⟨api1, tr ++ evs.map Event.io⟩) :
    wp (noteFailure last err report) Q A ⟨api, tr⟩ := by
  unfold noteFailure
  cases err with
  | none =>
    apply wp_pure
    simpa using hQ [] api hP
  | some x =>
    apply wp_bind
    apply wp_lift
    refine wp_mono (hrep x api) ?_ ?_
    · intro _ w1 h
      apply wp_pure
      exact hQ w1.trace w1.api h
    · intro w1 h
      exact absurd h id

/-- A weakest precondition from the run itself. -/
theorem wp_of_eq {S : Type} {m : St S α} {Q : α → S → Prop} {A : S → Prop} {s s1 : S}
    {res : Res α} (h : m s = (res, s1)) (hQ : ∀ a, res = .ok a → Q a s1)
    (hA : (∀ a, res ≠ .ok a) → A s1) : wp m Q A s := by
  unfold wp
  rw [h]
  cases res with
  | ok a => exact hQ a rfl
  | panic p => exact hA (by intro a; simp)
  | diverge => exact hA (by intro a; simp)

/-- The bookkeeping after a step, by the run of the report. -/
theorem wp_noteFailure_run {last err : Option GoError} {report : GoError → M σ Unit}
    {Q : Option GoError → World σ → Prop} {A : World σ → Prop} {api : σ} {tr : List Event}
    (hQ : ∀ (evs : List IOEvent) (api1 : σ),
      (∀ x, err = some x → (report x ⟨api, []⟩).2.trace = evs) →
      Q (keepLast last err) ⟨api1, tr ++ evs.map Event.io⟩)
    (hA : ∀ (evs : List IOEvent) (api1 : σ), A ⟨api1, tr ++ evs.map Event.io⟩) :
    wp (noteFailure last err report) Q A ⟨api, tr⟩ := by
  unfold noteFailure
  cases err with
  | none =>
    apply wp_pure
    simpa using hQ [] api (by simp)
  | some x =>
    apply wp_bind
    apply wp_lift
    rcases hm : report x ⟨api, []⟩ with ⟨res, w1⟩
    refine wp_of_eq hm ?_ ?_
    · intro a _
      apply wp_pure
      apply hQ
      intro y hy
      cases hy
      rw [hm]
    · intro _
      exact hA _ _

end PassRules

section PassFrames

variable {σ : Type}

set_option maxRecDepth 100000 in
set_option maxHeartbeats 4000000 in
/-- Every config map `reconcileEnsure` asks the store to create or to update
carries, under `tenant_domain` and `tenant`, the tenant domain in the status
and the name of the tenant `reconcileEnsure` is called on. -/
theorem reconcileEnsure_configMapWrites (fuel : Nat) (e : Env σ) (r : Reconciler) (t : Tenant)
    (api : σ) (evs : List IOEvent) (hevs : configMapWrites evs = []) :
    wp (reconcileEnsure fuel e r t)
      (fun _ w => ∀ cm ∈ configMapWrites (ioLog w.trace),
        cm.Data.read "tenant_domain" = t.Status.TenantDomain ∧ cm.Data.read "tenant" = t.Name)
      (fun w => ∀ cm ∈ configMapWrites (ioLog w.trace),
        cm.Data.read "tenant_domain" = t.Status.TenantDomain ∧ cm.Data.read "tenant" = t.Name)
      ⟨api, evs.map Event.io⟩ := by
  unfold reconcileEnsure
  repeat' (first
    | with_reducible (refine wp_step_of (ensureNamespace_frame e _ _ []) ?_ ?_)
    | with_reducible (refine wp_step_of (collectTenantNamespaces_frame e _ _) ?_ ?_)
    | with_reducible (refine wp_step_of (collectRobots_frame e _ _) ?_ ?_)
    | with_reducible (refine wp_step_of (ensureServiceAccount_frame e _ _ []) ?_ ?_)
    | with_reducible (refine wp_step_of (ensurePermissions_frame e _ _ []) ?_ ?_)
    | with_reducible (refine wp_step_of (ensureRobotSetupConfig_writes e _ _) ?_ ?_)
    | with_reducible (refine wp_step_of (ensurePullSecret_frame e _ _ []) ?_ ?_)
    | with_reducible (refine wp_step_of (ensureDNS_frame e _ _ _ _ []) ?_ ?_)
    | with_reducible (refine wp_step_of (ensureCertificate_frame e _ _ []) ?_ ?_)
    | with_reducible (refine wp_step_of (ensureGateway_frame e _ _ []) ?_ ?_)
    | with_reducible (refine wp_step_of (updateTenantStatus_frame e _ _ []) ?_ ?_)
    | with_reducible (refine wp_noteFailure_log (fun l => configMapWrites l = []) configMapWrites_nil ?_ ?_)
    | with_reducible apply wp_lift
    | with_reducible apply wp_logPrintf
    | with_reducible apply wp_fmtPrintf
    | with_reducible apply wp_setConditionM
    | with_reducible apply wp_pure
    | with_reducible apply wp_bind
    | with_reducible apply wp_ite
    | intro _
    | (show wp _ _ _ _; split))
  all_goals
    simp only [ioLog_append, ioLog_map_io, ioLog_enter, ioLog_leave, ioLog_nil,
      configMapWrites_append, configMapWrites_nil, List.append_nil, List.nil_append,
      List.mem_append, Prod.mk.injEq, List.not_mem_nil, or_false, false_or] at * <;>
    simp_all only [List.not_mem_nil, or_false, false_or, configMapWrites_nil, false_implies,
      implies_true, and_self, and_true, true_and, not_false_eq_true, IsEmpty.forall_iff,
      configMapWrites_append, configMapWrites, List.append_nil, List.nil_append]

theorem logLines_append (a b : List IOEvent) : logLines (a ++ b) = logLines a ++ logLines b := by
  induction a with
  | nil => rfl
  | cons ev evs ih => cases ev <;> simp [logLines, ih]

theorem conditionOf_setCondition_certificate (now : Time) (t : Tenant) (v : ConditionStatus)
    (msg : String) :
    conditionOf (setCondition now t TenantConditionCertificate v msg) TenantConditionPullSecret
      = conditionOf t TenantConditionPullSecret :=
  conditionOf_setCondition_other _ _ _ _ _ _ (by decide)

theorem conditionOf_setCondition_gateway (now : Time) (t : Tenant) (v : ConditionStatus)
    (msg : String) :
    conditionOf (setCondition now t TenantConditionGateway v msg) TenantConditionPullSecret
      = conditionOf t TenantConditionPullSecret :=
  conditionOf_setCondition_other _ _ _ _ _ _ (by decide)

/-- What `ensurePullSecret` returns with a `MissingServiceAccountError`, from an
empty trace. -/
theorem ensurePullSecret_missing_spec (e : Env σ) (t : Tenant) (api : σ) :
    wp (ensurePullSecret e t)
      (fun out _ => ∀ err, out.2 = some err → err.isMissingServiceAccountError = true →
        conditionOf out.1 TenantConditionPullSecret
          = some (ConditionFalse, "Missing default service account"))
      (fun _ => True) ⟨api, []⟩ :=
  ensurePullSecret_missing e t api []

set_option maxRecDepth 100000 in
set_option maxHeartbeats 4000000 in
/-- In `reconcileEnsure`, when `ensurePullSecret` returns a
`MissingServiceAccountError`: the failure is logged with the message of its
own, and the tenant the status write is called on has the PullSecret condition
False. -/
theorem reconcileEnsure_missing (fuel : Nat) (e : Env σ) (r : Reconciler) (t : Tenant)
    (api : σ) (evs : List IOEvent) :
    wp (reconcileEnsure fuel e r t)
      (fun _ w => Post ((∃ t1, (Step.updateTenantStatus, t1) ∈ calls w.trace)
        ∧ ∀ err, (Step.ensurePullSecret, some err) ∈ stepLog w.trace →
          err.isMissingServiceAccountError = true →
          ∀ t1, (Step.updateTenantStatus, t1) ∈ calls w.trace →
            conditionOf t1 TenantConditionPullSecret
              = some (ConditionFalse, "Missing default service account")
            ∧ ("Missing default service account for tenant " ++ t1.Name
                ++ ". This is expected to occur rarely: " ++ err.Error)
              ∈ logLines (ioLog w.trace)))
      (fun _ => True)
      ⟨api, evs.map Event.io⟩ := by
  unfold reconcileEnsure
  repeat' (first
    | exact True.intro
    | with_reducible (refine wp_step_of (ensurePullSecret_missing_spec e _ _) ?_ ?_)
    | with_reducible (refine wp_step_of (ensureDNS_frame e _ _ _ _ []) ?_ ?_)
    | with_reducible (refine wp_step_of (ensureCertificate_frame e _ _ []) ?_ ?_)
    | with_reducible (refine wp_step_of (ensureGateway_frame e _ _ []) ?_ ?_)
    | with_reducible apply wp_step_pair
    | with_reducible apply wp_noteFailure_run
    | with_reducible apply wp_lift
    | with_reducible apply wp_logPrintf
    | with_reducible apply wp_fmtPrintf
    | with_reducible apply wp_setConditionM
    | with_reducible apply wp_pure
    | with_reducible apply wp_bind
    | with_reducible apply wp_ite
    | intro _
    | (show wp _ _ _ _; split))
  all_goals
    apply Post.intro
    simp only [calls_append, calls_map_io, calls_enter, calls_leave, calls_nil, stepLog_append,
      stepLog_map_io, stepLog_enter, stepLog_leave, stepLog_nil, ioLog_append, ioLog_map_io,
      ioLog_enter, ioLog_leave, ioLog_nil, logLines_append, List.mem_append, List.mem_cons,
      List.mem_singleton, List.not_mem_nil, Prod.mk.injEq, reduceCtorEq, false_and, and_false,
      or_false, false_or, List.nil_append, List.append_nil, false_implies, implies_true,
      and_true, true_and, IsEmpty.forall_iff] at *
    simp_all [logPrintf, record, logLines, conditionOf_setCondition_certificate,
      conditionOf_setCondition_gateway, setCondition_Name]
  all_goals
    intro err herr hmiss
    subst herr
    simp_all [logPrintf, record, logLines, conditionOf_setCondition_certificate,
      conditionOf_setCondition_gateway, setCondition_Name]
    try (subst_vars; simp [logLines])
  all_goals simp_all [conditionOf]

end PassFrames

section PassClaims

variable {σ : Type}

/-- Every config map a pass over a tenant that is not in deletion asks the
store to create or to update carries, under `tenant_domain` and `tenant`, the
tenant domain in the status and the name of the tenant the pass holds when it
comes to the step functions: the tenant the store answered the read of the
pass with, or, when the pass had to add the finalizer first, the tenant the
store answered that update with. -/
theorem Reconcile_configMapWrites (fuel : Nat) (e : Env σ) (r : Reconciler) (request : String)
    (s : σ) (t : Tenant) (hget : (e.get .Tenant "" request s).1 = .ok t)
    (hnd : t.DeletionTimestamp = none) :
    (containsString t.Finalizers finalizer = true →
      ∀ cm ∈ configMapWrites (ioLog (runReconcile fuel e r request s).2.trace),
        cm.Data.read "tenant_domain" = t.Status.TenantDomain ∧ cm.Data.read "tenant" = t.Name)
    ∧ (containsString t.Finalizers finalizer = false →
        ∀ t2, (e.update .Tenant { t with Finalizers := t.Finalizers ++ [finalizer] }
            (e.get .Tenant "" request s).2).1 = .ok t2 →
          ∀ cm ∈ configMapWrites (ioLog (runReconcile fuel e r request s).2.trace),
            cm.Data.read "tenant_domain" = t2.Status.TenantDomain
            ∧ cm.Data.read "tenant" = t2.Name) := by
  have h := Reconcile_not_deleted fuel e r request s t hget hnd
  refine ⟨?_, ?_⟩
  · intro hc
    rw [h.2 hc]
    exact wp_any (reconcileEnsure_configMapWrites fuel e r t _
      [.Get .Tenant "" request (.ok t)] rfl)
  · intro hc t2 hu
    rw [(h.1 hc).2 t2 hu]
    exact wp_any (reconcileEnsure_configMapWrites fuel e r t2 _
      [.Get .Tenant "" request (.ok t), .Log ("Adding finalizer to tenant " ++ t.Name),
        .Update .Tenant { t with Finalizers := t.Finalizers ++ [finalizer] } (.ok t2)] rfl)

/-- In a pass that returns and in which `ensurePullSecret` returned a
`MissingServiceAccountError`, the status write is called, the tenant it is
called on has the PullSecret condition False, and the log has the line of the
missing default service account. -/
theorem Reconcile_missing (fuel : Nat) (e : Env σ) (r : Reconciler) (request : String)
    (s : σ) (out : Result × Option GoError)
    (hout : (runReconcile fuel e r request s).1 = .ok out) (err : GoError)
    (hps : (Step.ensurePullSecret, some err) ∈ stepLog (runReconcile fuel e r request s).2.trace)
    (hmiss : err.isMissingServiceAccountError = true) :
    (∃ t1, (Step.updateTenantStatus, t1) ∈ calls (runReconcile fuel e r request s).2.trace)
    ∧ ∀ t1, (Step.updateTenantStatus, t1) ∈ calls (runReconcile fuel e r request s).2.trace →
        conditionOf t1 TenantConditionPullSecret
          = some (ConditionFalse, "Missing default service account")
        ∧ ("Missing default service account for tenant " ++ t1.Name
            ++ ". This is expected to occur rarely: " ++ err.Error)
          ∈ logLines (ioLog (runReconcile fuel e r request s).2.trace) := by
  rcases Reconcile_cases fuel e r request s with ⟨t, api, evs, hrun⟩ | ⟨h1, _, _⟩
  · rw [hrun] at hout hps ⊢
    have h := (wp_ok (reconcileEnsure_missing fuel e r t api evs) hout).elim
    exact ⟨h.1, fun t1 ht1 => h.2 err hps hmiss t1 ht1⟩
  · have := h1 _ hps
    simp at this

/-- The status write asks the store to persist the status of the tenant it is
called on, once. -/
theorem updateTenantStatus_statusWrites (e : Env σ) (t : Tenant) (api : σ) :
    statusWrites (updateTenantStatus e t ⟨api, []⟩).2.trace = [t] := by
  unfold updateTenantStatus
  simp only [bind, St.bind, clientStatusUpdate]
  rcases hs : e.statusUpdate t api with ⟨res, s1⟩
  cases res <;> simp [statusWrites, logPrintf, record, pure, bind, St.bind]

end PassClaims

section PassClaimTheorems

variable {σ : Type}

/-- C7 (amended): in a pass that returns and in which `collectRobots`
succeeded, `ensureRobotSetupConfig` is called once, after `ensurePermissions`
and before `ensurePullSecret`, `ensureDNS`, `ensureCertificate` and
`ensureGateway`. Every config map a pass over a tenant that is not in
deletion asks the store to create or to update carries, under `tenant_domain`,
the tenant domain in the status of the tenant the pass holds when it comes to
the step functions, which is the tenant the store answered the read of the
pass with (or the update that adds the finalizer): the domain an earlier pass
has recorded, not the one `ensureDNS` resolves later in the same pass. And
every config map `ensureRobotSetupConfig` writes carries the tenant domain in
the status of the tenant the function is called on. -/
theorem C7_robot_setup_config_before_dns (fuel : Nat) (e : Env σ) (r : Reconciler)
    (request : String) (s : σ) (out : Result × Option GoError)
    (hout : (runReconcile fuel e r request s).1 = .ok out)
    (hcr : (Step.collectRobots, none) ∈ stepLog (runReconcile fuel e r request s).2.trace) :
    (∃ rest, entered (runReconcile fuel e r request s).2.trace
        = [.ensureNamespace, .collectTenantNamespaces, .collectRobots,
            .ensureServiceAccount, .ensurePermissions, .ensureRobotSetupConfig,
            .ensurePullSecret] ++ rest
      ∧ Step.ensureRobotSetupConfig ∉ rest
      ∧ (∀ x ∈ rest, x ∈ [Step.ensureDNS, .ensureCertificate, .ensureGateway,
          .updateTenantStatus])
      ∧ (r.tenantSpecificGateways = true → rest.head? = some Step.ensureDNS))
    ∧ (∀ t, (e.get .Tenant "" request s).1 = .ok t → t.DeletionTimestamp = none →
        (containsString t.Finalizers finalizer = true →
          ∀ cm ∈ configMapWrites (ioLog (runReconcile fuel e r request s).2.trace),
            cm.Data.read "tenant_domain" = t.Status.TenantDomain
            ∧ cm.Data.read "tenant" = t.Name)
        ∧ (containsString t.Finalizers finalizer = false →
            ∀ t2, (e.update .Tenant { t with Finalizers := t.Finalizers ++ [finalizer] }
                (e.get .Tenant "" request s).2).1 = .ok t2 →
              ∀ cm ∈ configMapWrites (ioLog (runReconcile fuel e r request s).2.trace),
                cm.Data.read "tenant_domain" = t2.Status.TenantDomain
                ∧ cm.Data.read "tenant" = t2.Name))
    ∧ (∀ (t1 : Tenant) (api : σ),
        ∀ cm ∈ configMapWrites (ensureRobotSetupConfig e t1 ⟨api, []⟩).2.trace,
          cm.Data.read "tenant_domain" = t1.Status.TenantDomain) := by
  have ho := Reconcile_order fuel e r request s out hout hcr
  refine ⟨⟨(entered (runReconcile fuel e r request s).2.trace).drop 7, ?_, ?_, ho.2.1, ho.2.2⟩,
    fun t hget hnd => Reconcile_configMapWrites fuel e r request s t hget hnd, ?_⟩
  · rw [← ho.1]
    exact (List.take_append_drop 7 _).symm
  · intro hm
    have := ho.2.1 _ hm
    simp at this
  · intro t1 api cm hcm
    exact ((wp_any (ensureRobotSetupConfig_writes e t1 api)) cm hcm).1

set_option maxRecDepth 100000 in
/-- C7, the amended statement on the store on which every step succeeds: the
order of the calls, and the one config map of the pass, which is written and
carries the empty tenant domain of the tenant the store holds. -/
theorem C7_witness :
    (∃ rest, entered (passOn gatewayReconciler gatewayStore)
        = [.ensureNamespace, .collectTenantNamespaces, .collectRobots,
            .ensureServiceAccount, .ensurePermissions, .ensureRobotSetupConfig,
            .ensurePullSecret] ++ rest
      ∧ Step.ensureRobotSetupConfig ∉ rest
      ∧ (∀ x ∈ rest, x ∈ [Step.ensureDNS, .ensureCertificate, .ensureGateway,
          .updateTenantStatus])
      ∧ (gatewayReconciler.tenantSpecificGateways = true → rest.head? = some Step.ensureDNS))
    ∧ (configMapWrites (ioLog (passOn gatewayReconciler gatewayStore))).length = 1
    ∧ (∀ cm ∈ configMapWrites (ioLog (passOn gatewayReconciler gatewayStore)),
        cm.Data.read "tenant_domain" = testTenant.Status.TenantDomain
        ∧ cm.Data.read "tenant" = "test-tenant") :=
  ⟨(C7_robot_setup_config_before_dns 100 fakeEnv gatewayReconciler "test-tenant" gatewayStore
      ({ RequeueAfter := requeueSlow }, none) (by decide!) (by decide!)).1,
    by decide!,
    ((C7_robot_setup_config_before_dns 100 fakeEnv gatewayReconciler "test-tenant" gatewayStore
      ({ RequeueAfter := requeueSlow }, none) (by decide!) (by decide!)).2.1
        testTenant rfl rfl).2 (by decide)
        { testTenant with Finalizers := testTenant.Finalizers ++ [finalizer] } rfl⟩

/-- C8 (amended): in a pass in which `collectRobots` succeeded,
`ensurePullSecret` returned a `MissingServiceAccountError`, no other step
function returned an error and the status write succeeded, `Reconcile` returns
that error with an empty result: the error is not nil and `RequeueAfter` is 0,
not `requeueFast`. In that pass the failure is logged with the line of its
own, "Missing default service account for tenant ... This is expected to occur
rarely: ...", and the tenant the status write is called on, whose status the
status write asks the store to persist, has the PullSecret condition False.
Also the tenant `ensurePullSecret` returns with such an error has the
PullSecret condition False. -/
theorem C8_missing_service_account_error_is_returned (fuel : Nat) (e : Env σ) (r : Reconciler)
    (request : String) (s : σ) (err : GoError)
    (hcr : (Step.collectRobots, none) ∈ stepLog (runReconcile fuel e r request s).2.trace)
    (hps : (Step.ensurePullSecret, some err) ∈ stepLog (runReconcile fuel e r request s).2.trace)
    (honly : ∀ x ∈ stepLog (runReconcile fuel e r request s).2.trace, x.2 ≠ none → x = (Step.ensurePullSecret, some err))
    (hlast : (stepLog (runReconcile fuel e r request s).2.trace).getLast? = some (Step.updateTenantStatus, none)) :
    (runReconcile fuel e r request s).1 = .ok ({ RequeueAfter := 0 }, some err)
    ∧ (0 : Duration) ≠ requeueFast
    ∧ (err.isMissingServiceAccountError = true →
        (∃ t1, (Step.updateTenantStatus, t1) ∈ calls (runReconcile fuel e r request s).2.trace)
        ∧ ∀ t1, (Step.updateTenantStatus, t1) ∈ calls (runReconcile fuel e r request s).2.trace →
            conditionOf t1 TenantConditionPullSecret
              = some (ConditionFalse, "Missing default service account")
            ∧ ("Missing default service account for tenant " ++ t1.Name
                ++ ". This is expected to occur rarely: " ++ err.Error)
              ∈ logLines (ioLog (runReconcile fuel e r request s).2.trace))
    ∧ (∀ (t : Tenant) (api : σ), statusWrites (updateTenantStatus e t ⟨api, []⟩).2.trace = [t])
    ∧ (∀ (t t1 : Tenant) (w w1 : IOWorld σ) (err1 : GoError),
        ensurePullSecret e t w = (.ok (t1, some err1), w1) →
        err1.isMissingServiceAccountError = true →
        conditionOf t1 TenantConditionPullSecret
          = some (ConditionFalse, "Missing default service account")) := by
  rcases Reconcile_returns_after_status_write fuel e r request s _ hlast with ⟨out, hout⟩
  have hr := (Reconcile_returns fuel e r request s out hout).2.1 hlast hcr
  have hl : lastFailure (logOf ensureSteps (stepLog (runReconcile fuel e r request s).2.trace)) = some err := by
    apply lastFailure_eq_some
    · exact ⟨_, (mem_logOf _ _ _).2 ⟨hps, by simp [ensureSteps]⟩, rfl⟩
    · intro x hx
      have hx1 := ((mem_logOf _ _ _).1 hx).1
      rcases hx2 : x.2 with _ | e2
      · exact Or.inl rfl
      · right
        have := honly x hx1 (by rw [hx2]; simp)
        rw [this] at hx2
        simp only [Option.some.injEq] at hx2
        rw [hx2]
  have h2 : out.2 = some err := by rw [hr.1, hl]
  have h1 : out.1 = {} := by
    rw [hr.2, h2]
    simp
  refine ⟨?_, ?_, ?_, ?_, ?_⟩
  · rw [hout]
    rcases out with ⟨res, oerr⟩
    simp only at h1 h2
    rw [h1, h2]
  · decide
  · intro hmiss
    exact Reconcile_missing fuel e r request s out hout err hps hmiss
  · intro t api
    exact updateTenantStatus_statusWrites e t api
  · intro t t1 w w1 err1 hrun hm
    have h := wp_ok (ensurePullSecret_missing e t w.api w.trace) (a := (t1, some err1))
      (by rw [hrun])
    exact h err1 rfl hm

set_option maxRecDepth 100000 in
/-- C8, the amended statement on the store without the default service
accounts: the error is returned, the line is logged, and the status the pass
writes has the PullSecret condition False. -/
theorem C8_witness :
    (Step.ensurePullSecret, some (.missingServiceAccount
        "ServiceAccount \"t-test-tenant:default\" not yet created"))
        ∈ stepLog (passOn testReconciler noDefaultAccountStore)
    ∧ resultOn testReconciler noDefaultAccountStore
        = .ok ({ RequeueAfter := 0 }, some (.missingServiceAccount
            "ServiceAccount \"t-test-tenant:default\" not yet created"))
    ∧ ((∃ t1, (Step.updateTenantStatus, t1) ∈ calls (passOn testReconciler noDefaultAccountStore))
      ∧ ∀ t1, (Step.updateTenantStatus, t1) ∈ calls (passOn testReconciler noDefaultAccountStore) →
          conditionOf t1 TenantConditionPullSecret
            = some (ConditionFalse, "Missing default service account")
          ∧ ("Missing default service account for tenant " ++ t1.Name
              ++ ". This is expected to occur rarely: "
              ++ (GoError.missingServiceAccount
                  "ServiceAccount \"t-test-tenant:default\" not yet created").Error)
            ∈ logLines (ioLog (passOn testReconciler noDefaultAccountStore)))
    ∧ (statusWrites (ioLog (passOn testReconciler noDefaultAccountStore))).map
        (fun t => conditionOf t TenantConditionPullSecret)
        = [some (ConditionFalse, "Missing default service account")] :=
  ⟨by decide!,
    (C8_missing_service_account_error_is_returned 100 fakeEnv testReconciler "test-tenant"
      noDefaultAccountStore
      (.missingServiceAccount "ServiceAccount \"t-test-tenant:default\" not yet created")
      (by decide!) (by decide!) (by decide!) (by decide!)).1,
    (C8_missing_service_account_error_is_returned 100 fakeEnv testReconciler "test-tenant"
      noDefaultAccountStore
      (.missingServiceAccount "ServiceAccount \"t-test-tenant:default\" not yet created")
      (by decide!) (by decide!) (by decide!) (by decide!)).2.2.1 (by decide),
    by decide!⟩

end PassClaimTheorems

/-! ## The pass over a new tenant -/

section NewTenant

/-- The main namespace of a tenant is not its robot-config namespace. -/
theorem main_ne_robotConfig (n : String) :
    ¬ (TenantMainNamespace n = RobotConfigNamespace (TenantMainNamespace n)) := by
  intro h
  by_cases hn : n = "default"
  · subst hn
    revert h
    decide
  · rw [TenantMainNamespace_other n hn,
      RobotConfigNamespace_other _ (tenantPrefix_ne_default n)] at h
    have h1 := congrArg String.length h
    simp only [String.length_append] at h1
    have h2 : "-robot-config".length = 13 := by decide
    omega

set_option maxRecDepth 100000 in
set_option maxHeartbeats 4000000 in
/-- A pass over a tenant that has a name, labels, annotations and a spec, but
no status, no finalizer and no deletion timestamp, on the store that holds
this tenant and nothing else: the tenant the pass leaves in the store has the
conditions Namespace, ServiceAccount and Permissions true and the other five
not true. -/
theorem new_tenant_pass (fuel : Nat) (r : Reconciler) (name : String)
    (labels annotations : GoMap) (spec : TenantSpec) (clock : Time) (rand : List Nat) :
    (runReconcile fuel fakeEnv r name
      { tenants := [{ Name := name, Labels := labels, Annotations := annotations, Spec := spec }],
        clock := clock, rand := rand }).2.api.tenants.map
        (fun t => [inCondition t TenantConditionNamespace,
          inCondition t TenantConditionServiceAccount, inCondition t TenantConditionPermissions,
          inCondition t TenantConditionRobotSetup, inCondition t TenantConditionPullSecret,
          inCondition t TenantConditionDomain, inCondition t TenantConditionCertificate,
          inCondition t TenantConditionGateway])
      = [[true, true, true, false, false, false, false, false]] := by
  have hne := main_ne_robotConfig name
  by_cases hd : name = DefaultTenantName
  · subst hd
    have h1 : TenantMainNamespace "default" = "default" := by decide
    have h2 : RobotConfigNamespace "default" = "robot-config" := by decide
    cases hg : r.tenantSpecificGateways
    · simp [runReconcile, Reconcile, reconcileEnsure, step, lift, mark, noteFailure,
        ensureNamespace, ensureNamespaceLoop, bind, St.bind, clientGet, fakeEnv, fakeGet,
        FakeStore.objs, otherError, errNotFound, after, IsNotFound, logPrintf, record, clientCreate,
        fakeCreate, FakeStore.setObjs, hasKey, metaOf, pure, setConditionM, hne,
        SetControllerReference, upsertOwnerRef, controllerRef, setLabel, setCondition, setConditionIn,
        inCondition, containsString, clientUpdate, fakeUpdate, finalizer, hg,
        collectTenantNamespaces, collectTenantNamespacesLoop, isTenantNamespace, clientList, fakeList,
        collectRobots, isRobotToken, ensureServiceAccount, ensureServiceAccountLoop,
        ensurePermissions, ensurePermissionsLoop, roleBindings, ensureRobotSetupConfig,
        ensurePullSecret, updateTenantStatus, clientStatusUpdate, fakeStatusUpdate, keepLast,
        Ne.symm hne, RobotServiceAccount, RobotSetupServiceAccount,
        crSyncerRolebinding, robotSetupRoleBinding, TenantConditionNamespace,
        TenantConditionServiceAccount, TenantConditionPermissions, TenantConditionRobotSetup,
        TenantConditionPullSecret, TenantConditionDomain, TenantConditionCertificate,
        TenantConditionGateway, ConditionTrue, ConditionFalse,
        GoError.isMissingServiceAccountError, GoError.isNamespaceDeletionError, fmtPrintf,
        DefaultTenantName, ensureDNS, h1, h2]
    · simp [runReconcile, Reconcile, reconcileEnsure, step, lift, mark, noteFailure,
        ensureNamespace, ensureNamespaceLoop, bind, St.bind, clientGet, fakeEnv, fakeGet,
        FakeStore.objs, otherError, errNotFound, after, IsNotFound, logPrintf, record, clientCreate,
        fakeCreate, FakeStore.setObjs, hasKey, metaOf, pure, setConditionM, hne,
        SetControllerReference, upsertOwnerRef, controllerRef, setLabel, setCondition, setConditionIn,
        inCondition, containsString, clientUpdate, fakeUpdate, finalizer, hg,
        collectTenantNamespaces, collectTenantNamespacesLoop, isTenantNamespace, clientList, fakeList,
        collectRobots, isRobotToken, ensureServiceAccount, ensureServiceAccountLoop,
        ensurePermissions, ensurePermissionsLoop, roleBindings, ensureRobotSetupConfig,
        ensurePullSecret, updateTenantStatus, clientStatusUpdate, fakeStatusUpdate, keepLast,
        Ne.symm hne, RobotServiceAccount, RobotSetupServiceAccount,
        crSyncerRolebinding, robotSetupRoleBinding, TenantConditionNamespace,
        TenantConditionServiceAccount, TenantConditionPermissions, TenantConditionRobotSetup,
        TenantConditionPullSecret, TenantConditionDomain, TenantConditionCertificate,
        TenantConditionGateway, ConditionTrue, ConditionFalse,
        GoError.isMissingServiceAccountError, GoError.isNamespaceDeletionError, fmtPrintf,
        DefaultTenantName, ensureDNS, h1, h2]
  · cases hg : r.tenantSpecificGateways
    · simp [runReconcile, Reconcile, reconcileEnsure, step, lift, mark, noteFailure,
        ensureNamespace, ensureNamespaceLoop, hd, bind, St.bind, clientGet, fakeEnv, fakeGet,
        FakeStore.objs, otherError, errNotFound, after, IsNotFound, logPrintf, record, clientCreate,
        fakeCreate, FakeStore.setObjs, hasKey, metaOf, pure, setConditionM, hne,
        SetControllerReference, upsertOwnerRef, controllerRef, setLabel, setCondition, setConditionIn,
        inCondition, containsString, clientUpdate, fakeUpdate, finalizer, hg,
        collectTenantNamespaces, collectTenantNamespacesLoop, isTenantNamespace, clientList, fakeList,
        collectRobots, isRobotToken, ensureServiceAccount, ensureServiceAccountLoop,
        ensurePermissions, ensurePermissionsLoop, roleBindings, ensureRobotSetupConfig,
        ensurePullSecret, updateTenantStatus, clientStatusUpdate, fakeStatusUpdate, keepLast,
        Ne.symm hne, RobotServiceAccount, RobotSetupServiceAccount,
        crSyncerRolebinding, robotSetupRoleBinding, TenantConditionNamespace,
        TenantConditionServiceAccount, TenantConditionPermissions, TenantConditionRobotSetup,
        TenantConditionPullSecret, TenantConditionDomain, TenantConditionCertificate,
        TenantConditionGateway, ConditionTrue, ConditionFalse,
        GoError.isMissingServiceAccountError, GoError.isNamespaceDeletionError, fmtPrintf,
        ensureDNS]
    · simp [runReconcile, Reconcile, reconcileEnsure, step, lift, mark, noteFailure,
        ensureNamespace, ensureNamespaceLoop, hd, bind, St.bind, clientGet, fakeEnv, fakeGet,
        FakeStore.objs, otherError, errNotFound, after, IsNotFound, logPrintf, record, clientCreate,
        fakeCreate, FakeStore.setObjs, hasKey, metaOf, pure, setConditionM, hne,
        SetControllerReference, upsertOwnerRef, controllerRef, setLabel, setCondition, setConditionIn,
        inCondition, containsString, clientUpdate, fakeUpdate, finalizer, hg,
        collectTenantNamespaces, collectTenantNamespacesLoop, isTenantNamespace, clientList, fakeList,
        collectRobots, isRobotToken, ensureServiceAccount, ensureServiceAccountLoop,
        ensurePermissions, ensurePermissionsLoop, roleBindings, ensureRobotSetupConfig,
        ensurePullSecret, updateTenantStatus, clientStatusUpdate, fakeStatusUpdate, keepLast,
        Ne.symm hne, RobotServiceAccount, RobotSetupServiceAccount,
        crSyncerRolebinding, robotSetupRoleBinding, TenantConditionNamespace,
        TenantConditionServiceAccount, TenantConditionPermissions, TenantConditionRobotSetup,
        TenantConditionPullSecret, TenantConditionDomain, TenantConditionCertificate,
        TenantConditionGateway, ConditionTrue, ConditionFalse,
        GoError.isMissingServiceAccountError, GoError.isNamespaceDeletionError, fmtPrintf,
        ensureDNS]

set_option maxRecDepth 100000 in
/-- C10: a pass over a brand-new tenant (any name, labels, annotations and
spec; no status, no finalizer, no deletion timestamp) on the store that holds
this tenant and nothing else (no template config map, no template pull
secret, no load-balancer service), with any clock, any source of randomness
and either setting of tenant-specific gateways, leaves in the store this one
tenant, with a status in which `inCondition` is true for Namespace,
ServiceAccount and Permissions and false for RobotSetupConfig, PullSecret,
Domain, Certificate and Gateway. On the tenant of `TestReconcileOne` the pass
asks the store once to persist the status. -/
theorem C10_new_tenant_conditions (fuel : Nat) (r : Reconciler) (name : String)
    (labels annotations : GoMap) (spec : TenantSpec) (clock : Time) (rand : List Nat) :
    (runReconcile fuel fakeEnv r name
      { tenants := [{ Name := name, Labels := labels, Annotations := annotations, Spec := spec }],
        clock := clock, rand := rand }).2.api.tenants.map
        (fun t => [inCondition t TenantConditionNamespace,
          inCondition t TenantConditionServiceAccount, inCondition t TenantConditionPermissions,
          inCondition t TenantConditionRobotSetup, inCondition t TenantConditionPullSecret,
          inCondition t TenantConditionDomain, inCondition t TenantConditionCertificate,
          inCondition t TenantConditionGateway])
      = [[true, true, true, false, false, false, false, false]]
    ∧ (newTenantStore.namespaces = [] ∧ newTenantStore.configMaps = []
      ∧ newTenantStore.secrets = [] ∧ newTenantStore.services = []
      ∧ newTenantStore.tenants = [testTenant] ∧ testTenant.Status = {})
    ∧ (statusWrites (ioLog (passOn testReconciler newTenantStore))).length = 1
    ∧ (statusWrites (ioLog (passOn gatewayReconciler newTenantStore))).length = 1 :=
  ⟨new_tenant_pass fuel r name labels annotations spec clock rand, by decide!, by decide!,
    by decide!⟩

end NewTenant

/-! ## Recorded tenant domains -/

section Recorded

variable {σ : Type}

set_option maxRecDepth 100000 in
set_option maxHeartbeats 1000000 in
/-- Whatever `ensureDNS` returns, the tenant domain in the status of the
tenant it returns has 62 bytes at most if the one it started from has. -/
theorem ensureDNS_bound (e : Env σ) (fuel : Nat) (r : Reconciler) (t : Tenant) (api : σ)
    (tr : List IOEvent) :
    wp (ensureDNS fuel e r t)
      (fun out _ => len t.Status.TenantDomain ≤ 62 → len out.1.Status.TenantDomain ≤ 62)
      (fun _ => True) ⟨api, tr⟩ := by
  unfold ensureDNS
  repeat' (first
    | exact True.intro
    | with_reducible apply wp_pure
    | with_reducible apply wp_logPrintf
    | with_reducible apply wp_clientGet
    | with_reducible apply wp_clientCreate
    | with_reducible apply wp_clientUpdate
    | with_reducible apply wp_setConditionM
    | with_reducible apply wp_generateTenantDomain
    | with_reducible apply wp_bind
    | with_reducible apply wp_ite
    | intro _
    | (show wp _ _ _ _; split))
  all_goals
    simp_all [setCondition]

/-- Every recorded tenant domain has 62 bytes at most. -/
theorem RecordedDomain.len_le {d : String} (h : RecordedDomain d) : len d ≤ 62 := by
  induction h with
  | initial => decide
  | ensured fuel e r t t1 err w _ hrun ih =>
    exact wp_ok (ensureDNS_bound e fuel r t w.api w.trace) hrun ih

theorem length_le_utf8Len (l : List Char) : l.length ≤ String.utf8Len l := by
  induction l with
  | nil => simp
  | cons c cs ih =>
    have h := Char.utf8Size_pos c
    simp only [String.utf8Len_cons, List.length_cons]
    omega

/-- A string has no more characters than bytes. -/
theorem length_le_len (s : String) : s.length ≤ len s := by
  unfold len
  rcases s with ⟨l⟩
  rw [String.utf8ByteSize_mk]
  exact length_le_utf8Len l


/-- What `ensureDNS` leaves in the status of the tenant it returns is a
recorded domain, if what it started from is. -/
theorem ensureDNS_recorded (e : Env σ) (fuel : Nat) (r : Reconciler) (t : Tenant) (api : σ) :
    wp (ensureDNS fuel e r t)
      (fun out _ => RecordedDomain t.Status.TenantDomain →
        RecordedDomain out.1.Status.TenantDomain)
      (fun _ => True) ⟨api, []⟩ := by
  rcases hm : ensureDNS fuel e r t ⟨api, []⟩ with ⟨res, w1⟩
  refine wp_of_eq hm ?_ ?_
  · intro a ha hrec
    refine RecordedDomain.ensured fuel e r t a.1 a.2 ⟨api, []⟩ hrec ?_
    rw [hm, ha]
  · intro _
    exact True.intro

set_option maxRecDepth 100000 in
set_option maxHeartbeats 4000000 in
/-- In the ensure steps of a pass on a tenant whose status holds a recorded
domain, every tenant the status write is called on holds a recorded domain. -/
theorem reconcileEnsure_recorded (fuel : Nat) (e : Env σ) (r : Reconciler) (t : Tenant)
    (api : σ) (evs : List IOEvent) (hrec : RecordedDomain t.Status.TenantDomain) :
    wp (reconcileEnsure fuel e r t)
      (fun _ w => Post (∀ t1, (Step.updateTenantStatus, t1) ∈ calls w.trace →
        RecordedDomain t1.Status.TenantDomain))
      (fun _ => True)
      ⟨api, evs.map Event.io⟩ := by
  have h0 : RecordedDomain "" := RecordedDomain.initial
  unfold reconcileEnsure
  repeat' (first
    | exact True.intro
    | with_reducible (refine wp_step_of (ensureNamespace_frame e _ _ []) ?_ ?_)
    | with_reducible (refine wp_step_of (collectTenantNamespaces_frame e _ _) ?_ ?_)
    | with_reducible (refine wp_step_of (collectRobots_frame e _ _) ?_ ?_)
    | with_reducible (refine wp_step_of (ensureServiceAccount_frame e _ _ []) ?_ ?_)
    | with_reducible (refine wp_step_of (ensurePermissions_frame e _ _ []) ?_ ?_)
    | with_reducible (refine wp_step_of (ensureRobotSetupConfig_frame e _ _ []) ?_ ?_)
    | with_reducible (refine wp_step_of (ensurePullSecret_frame e _ _ []) ?_ ?_)
    | with_reducible (refine wp_step_of (ensureDNS_recorded e _ _ _ _) ?_ ?_)
    | with_reducible (refine wp_step_of (ensureCertificate_frame e _ _ []) ?_ ?_)
    | with_reducible (refine wp_step_of (ensureGateway_frame e _ _ []) ?_ ?_)
    | with_reducible apply wp_step_pair
    | with_reducible apply wp_noteFailure_run
    | with_reducible apply wp_lift
    | with_reducible apply wp_logPrintf
    | with_reducible apply wp_fmtPrintf
    | with_reducible apply wp_setConditionM
    | with_reducible apply wp_pure
    | with_reducible apply wp_bind
    | with_reducible apply wp_ite
    | intro _
    | (show wp _ _ _ _; split))
  all_goals
    apply Post.intro
    simp only [calls_append, calls_map_io, calls_enter, calls_leave, calls_nil,
      List.mem_append, List.mem_cons, List.mem_singleton, List.not_mem_nil, Prod.mk.injEq,
      reduceCtorEq, false_and, and_false, or_false, false_or, List.nil_append, List.append_nil,
      false_implies, implies_true, and_true, true_and, IsEmpty.forall_iff] at *
  all_goals simp_all [setCondition_TenantDomain]

/-- In a pass that returns, over a tenant that is not in deletion and whose
status holds a recorded domain, every tenant the status write is called on
holds a recorded domain. When the pass adds the finalizer first, the tenant
in question is the one the store answers that update with. -/
theorem Reconcile_recorded (fuel : Nat) (e : Env σ) (r : Reconciler) (request : String)
    (s : σ) (t : Tenant) (hget : (e.get .Tenant "" request s).1 = .ok t)
    (hnd : t.DeletionTimestamp = none) (out : Result × Option GoError)
    (hout : (runReconcile fuel e r request s).1 = .ok out) :
    (containsString t.Finalizers finalizer = true → RecordedDomain t.Status.TenantDomain →
      ∀ t1, (Step.updateTenantStatus, t1) ∈ calls (runReconcile fuel e r request s).2.trace →
        RecordedDomain t1.Status.TenantDomain)
    ∧ (containsString t.Finalizers finalizer = false →
        ∀ t2, (e.update .Tenant { t with Finalizers := t.Finalizers ++ [finalizer] }
            (e.get .Tenant "" request s).2).1 = .ok t2 →
          RecordedDomain t2.Status.TenantDomain →
          ∀ t1, (Step.updateTenantStatus, t1) ∈ calls (runReconcile fuel e r request s).2.trace →
            RecordedDomain t1.Status.TenantDomain) := by
  have h := Reconcile_not_deleted fuel e r request s t hget hnd
  refine ⟨?_, ?_⟩
  · intro hc hrec
    rw [h.2 hc] at hout ⊢
    exact (wp_ok (reconcileEnsure_recorded fuel e r t _
      [.Get .Tenant "" request (.ok t)] hrec) hout).elim
  · intro hc t2 hu hrec
    rw [(h.1 hc).2 t2 hu] at hout ⊢
    exact (wp_ok (reconcileEnsure_recorded fuel e r t2 _
      [.Get .Tenant "" request (.ok t), .Log ("Adding finalizer to tenant " ++ t.Name),
        .Update .Tenant { t with Finalizers := t.Finalizers ++ [finalizer] } (.ok t2)] hrec)
      hout).elim

end Recorded

section DomainClaims

variable {σ : Type}

/-- C25: for every tenant, whatever its name and its domain override, whose
status holds a recorded tenant domain (the empty one, or one `ensureDNS` left
there in an earlier pass), and for every cluster domain and environment:
whenever `ensureDNS` returns no error, the tenant domain it records in the
status has 62 bytes at most, and so 62 characters at most; the one DNS entry
it asks the store to create or update has the DNS name `*.` followed by that
domain; that domain is the default tenant domain if it fits, and the recorded
one if the default does not fit and the recorded one holds `.t.` and the
cluster domain; and it is a recorded domain again, as is every domain
`ensureDNS` leaves in the status when it returns an error. Every recorded
domain has 62 bytes at most. And in every pass that returns, over a tenant
that is not in deletion and whose status, as the store answers it, holds a
recorded domain, every tenant the status write is called on holds a recorded
domain, of 62 bytes at most: what a pass records is a recorded domain. -/
theorem C25_recorded_domain_within_bound (fuel : Nat) (e : Env σ) (r : Reconciler)
    (t t1 : Tenant) (api : σ)
    (hrec : RecordedDomain t.Status.TenantDomain)
    (hrun : (ensureDNS fuel e r t ⟨api, []⟩).1 = .ok (t1, none)) :
    len t1.Status.TenantDomain ≤ 62
    ∧ t1.Status.TenantDomain.length ≤ 62
    ∧ (∃ d, dnsEntryWrites (ensureDNS fuel e r t ⟨api, []⟩).2.trace = [d]
        ∧ d.Spec.DNSName = "*." ++ t1.Status.TenantDomain)
    ∧ (len (getDefaultTenantDomain r t) ≤ 62 →
        t1.Status.TenantDomain = getDefaultTenantDomain r t)
    ∧ (62 < len (getDefaultTenantDomain r t) →
        Contains t.Status.TenantDomain (".t." ++ r.domain) = true →
        t1.Status.TenantDomain = t.Status.TenantDomain)
    ∧ RecordedDomain t1.Status.TenantDomain
    ∧ (∀ (t2 : Tenant) (err : GoError) (w : IOWorld σ),
        (ensureDNS fuel e r t w).1 = .ok (t2, some err) →
        RecordedDomain t2.Status.TenantDomain ∧ len t2.Status.TenantDomain ≤ 62)
    ∧ (∀ d, RecordedDomain d → len d ≤ 62)
    ∧ (∀ (request : String) (s : σ) (t0 : Tenant) (out : Result × Option GoError),
        (e.get .Tenant "" request s).1 = .ok t0 → t0.DeletionTimestamp = none →
        (runReconcile fuel e r request s).1 = .ok out →
        (containsString t0.Finalizers finalizer = true →
          RecordedDomain t0.Status.TenantDomain →
          ∀ t2, (Step.updateTenantStatus, t2) ∈ calls (runReconcile fuel e r request s).2.trace →
            RecordedDomain t2.Status.TenantDomain ∧ len t2.Status.TenantDomain ≤ 62)
        ∧ (containsString t0.Finalizers finalizer = false →
            ∀ t3, (e.update .Tenant { t0 with Finalizers := t0.Finalizers ++ [finalizer] }
                (e.get .Tenant "" request s).2).1 = .ok t3 →
              RecordedDomain t3.Status.TenantDomain →
              ∀ t2, (Step.updateTenantStatus, t2)
                  ∈ calls (runReconcile fuel e r request s).2.trace →
                RecordedDomain t2.Status.TenantDomain ∧ len t2.Status.TenantDomain ≤ 62)) := by
  have h := wp_ok (ensureDNS_spec e fuel r t api) hrun rfl
  have hr : RecordedDomain t1.Status.TenantDomain :=
    RecordedDomain.ensured fuel e r t t1 none ⟨api, []⟩ hrec hrun
  refine ⟨hr.len_le, ?_, h.2.1, h.2.2.1, h.2.2.2, hr, ?_, fun d hd => hd.len_le, ?_⟩
  · exact Nat.le_trans (length_le_len _) hr.len_le
  · intro t2 err w hrun2
    have hr2 : RecordedDomain t2.Status.TenantDomain :=
      RecordedDomain.ensured fuel e r t t2 (some err) w hrec hrun2
    exact ⟨hr2, hr2.len_le⟩
  · intro request s t0 out hget hnd hout
    have hp := Reconcile_recorded fuel e r request s t0 hget hnd out hout
    refine ⟨?_, ?_⟩
    · intro hc hr0 t2 ht2
      have := hp.1 hc hr0 t2 ht2
      exact ⟨this, this.len_le⟩
    · intro hc t3 hu hr3 t2 ht2
      have := hp.2 hc t3 hu hr3 t2 ht2
      exact ⟨this, this.len_le⟩

set_option maxRecDepth 100000 in
/-- C25 on a tenant whose default tenant domain is too long and whose status
holds no tenant domain yet: the domain recorded is a generated one. -/
theorem C25_witness :
    len (setCondition 0 { longNameTenant with Status := { longNameTenant.Status with
        TenantDomain := "lgbwydbaaarfnaaaaaaaaaaaaaaaaaaaaaaaaaaaaaaaaaa.t.domain.local" } }
        TenantConditionDomain ConditionFalse
        ("DNS entry for domain *.lgbwydbaaarfnaaaaaaaaaaaaaaaaaaaaaaaaaaaaaaaaaa.t.domain.local"
          ++ " created, but in state " ++ quote "")).Status.TenantDomain ≤ 62 :=
  (C25_recorded_domain_within_bound 100 fakeEnv gatewayReconciler longNameTenant _ longNameStore
    RecordedDomain.initial (by decide!)).1

set_option maxRecDepth 100000 in
/-- The check of `ensureDNS` is on the default tenant domain only: a tenant
domain in the status that holds `.t.` and the cluster domain is taken as it
is. On a status of 85 bytes, which is not a recorded domain, `ensureDNS`
returns no error and records the 85 bytes again. -/
theorem ensureDNS_takes_status_domain :
    62 < len (getDefaultTenantDomain gatewayReconciler longDomainTenant)
    ∧ (ensureDNS 100 fakeEnv gatewayReconciler longDomainTenant ⟨longDomainStore, []⟩).1
        = .ok (setCondition 0 longDomainTenant TenantConditionDomain ConditionFalse
            ("DNS entry for domain *." ++ longDomainTenant.Status.TenantDomain
              ++ " created, but in state " ++ quote ""), none)
    ∧ len longDomainTenant.Status.TenantDomain = 85
    ∧ ¬ RecordedDomain longDomainTenant.Status.TenantDomain := by
  refine ⟨by decide!, by decide!, by decide!, ?_⟩
  intro h
  have h1 := h.len_le
  have h2 : len longDomainTenant.Status.TenantDomain = 85 := by decide!
  omega

end DomainClaims

end CloudRobotics
